import Mathlib

/-!
# terraform-provider-azuread: credential builders and MsGraph credential resources

A shallow embedding of

* `internal/helpers/msgraph/credentials.go`
  (`KeyCredentialForResource`, `PasswordCredentialForResource`),
* `internal/services/applications/application_certificate_resource_msgraph.go`,
* `internal/services/serviceprincipals/service_principal_password_resource_msgraph.go`,
* `azuread/resource_service_principal.go` (the refresh step of the post-creation poll),
* `internal/services/applications/application_app_role_resource.go` (the dispatchers),
* `internal/services/aadgraph/application_data_source.go` (`applicationDataRead`).

Library calls (`time.Parse`, `time.ParseDuration`, `time.Now`, `uuid.GenerateUUID`,
`base64`, `fmt.Sprintf`) and the hamilton and graphrbac clients are parameters of the
embedding.
-/

namespace AzureAD

/-! ## Data model -/

/-- Instants and durations of Go's `time` package, as a count of nanoseconds. -/
abbrev Time := Int

/-- Go `error` values met in this code: an ordinary error, or the
`msgraph.CredentialError` struct with its `str` and `attr` fields. -/
inductive Error where
  | plain (msg : String)
  | credentialError (str : String) (attr : String)
  deriving DecidableEq, Repr

/-- The type assertion `err.(msgraph.CredentialError)` followed by `kerr.Attr()`:
`some attr` when the assertion succeeds. -/
def Error.asCredentialError : Error → Option String
  | .credentialError _ attr => some attr
  | .plain _ => none

/-- The hamilton `models.KeyCredential` fields this code touches; pointers are `Option`. -/
structure KeyCredential where
  KeyId : Option String
  Type_ : Option String
  Usage : Option String
  Key : Option String
  StartDateTime : Option Time
  EndDateTime : Option Time
  deriving DecidableEq, Repr

/-- The hamilton `models.PasswordCredential` fields this code touches. -/
structure PasswordCredential where
  KeyId : Option String
  SecretText : Option String
  DisplayName : Option String
  StartDateTime : Option Time
  EndDateTime : Option Time
  deriving DecidableEq, Repr

/-- The part of `schema.ResourceData` used here: the tracked ID and string attributes. -/
structure ResourceData where
  id : String
  fields : List (String × String)
  deriving DecidableEq, Repr

/-- `d.Get(key).(string)`: the attribute, or the zero value when it is unset. -/
def ResourceData.Get (d : ResourceData) (key : String) : String :=
  (d.fields.lookup key).getD ""

/-- `d.GetOk(key)`: the attribute together with whether it differs from the zero value. -/
def ResourceData.GetOk (d : ResourceData) (key : String) : String × Bool :=
  (d.Get key, d.Get key != "")

/-- `d.Id()`. -/
def ResourceData.Id (d : ResourceData) : String := d.id

/-- `d.SetId(v)`. -/
def ResourceData.SetId (d : ResourceData) (v : String) : ResourceData :=
  { d with id := v }

/-- Modelled from the spec: `parse.CredentialId` (package `parse` is not under src/), the
composite identity "parentObjectId, subObjectKind, subObjectKeyId". -/
structure CredentialId where
  ObjectId : String
  KeyType : String
  KeyId : String
  deriving DecidableEq, Repr

/-- Modelled from the spec: `parse.NewCredentialID` (not under src/) builds the triple. -/
def NewCredentialID (objectId keyType keyId : String) : CredentialId :=
  { ObjectId := objectId, KeyType := keyType, KeyId := keyId }

/-- External behaviour the code depends on: library calls, and the pieces of this
repository that are not part of the embedded files (identity codec, resource names). -/
structure Env where
  /-- outcome of `uuid.GenerateUUID()` -/
  GenerateUUID : Except String String
  /-- `time.Parse(time.RFC3339, v)` -/
  ParseRFC3339 : String → Except String Time
  /-- `time.ParseDuration(v)` -/
  ParseDuration : String → Except String Time
  /-- `time.Now()` -/
  Now : Time
  /-- `base64.StdEncoding.EncodeToString([]byte(v))` -/
  EncodeToString : String → String
  /-- `fmt.Sprintf(format, args...)` -/
  Sprintf : String → List String → String
  /-- `t.Format(time.RFC3339)` -/
  FormatRFC3339 : Time → String
  /-- `id.String()` of `parse.CredentialId` -/
  CredentialIdString : CredentialId → String
  /-- `parse.CertificateID(idString)` -/
  CertificateID : String → Except Error CredentialId
  /-- `parse.PasswordID(idString)` -/
  PasswordID : String → Except Error CredentialId
  /-- the constant `applicationResourceName` -/
  applicationResourceName : String
  /-- the constant `servicePrincipalResourceName` -/
  servicePrincipalResourceName : String

/-! ## `internal/helpers/msgraph/credentials.go` -/

/-- Embedding of `KeyCredentialForResource`. -/
def KeyCredentialForResource (env : Env) (d : ResourceData) : Except Error KeyCredential :=
  let keyType := d.Get "type"
  let value := d.Get "value"
  let encodedValue := env.EncodeToString value
  let keyIdR : Except Error String :=
    match d.GetOk "key_id" with
    | (v, true) => .ok v
    | (_, false) =>
      match env.GenerateUUID with
      | .error err => .error (.plain err)
      | .ok kid => .ok kid
  match keyIdR with
  | .error err => .error err
  | .ok keyId =>
    let endDateR : Except Error Time :=
      if d.Get "end_date" ≠ "" then
        match env.ParseRFC3339 (d.Get "end_date") with
        | .error err =>
          .error (.credentialError
            (env.Sprintf "Unable to parse the provided end date %q: %+v" [d.Get "end_date", err])
            "end_date")
        | .ok t => .ok t
      else if d.Get "end_date_relative" ≠ "" then
        match env.ParseDuration (d.Get "end_date_relative") with
        | .error _ =>
          .error (.credentialError
            (env.Sprintf "Unable to parse `end_date_relative` (%q) as a duration"
              [d.Get "end_date_relative"])
            "end_date_relative")
        | .ok dur => .ok (env.Now + dur)
      else
        .error (.credentialError "One of `end_date` or `end_date_relative` must be specified"
          "end_date")
    match endDateR with
    | .error err => .error err
    | .ok endDate =>
      let credential : KeyCredential :=
        { KeyId := some keyId
          Type_ := some keyType
          Usage := some "verify"
          Key := some encodedValue
          StartDateTime := none
          EndDateTime := some endDate }
      match d.GetOk "start_date" with
      | (v, true) =>
        match env.ParseRFC3339 v with
        | .error err =>
          .error (.credentialError
            (env.Sprintf "Unable to parse the provided start date %q: %+v" [v, err])
            "start_date")
        | .ok startDate => .ok { credential with StartDateTime := some startDate }
      | (_, false) => .ok credential

/-- Embedding of `PasswordCredentialForResource`. -/
def PasswordCredentialForResource (env : Env) (d : ResourceData) :
    Except Error PasswordCredential :=
  let value := d.Get "value"
  let keyIdR : Except Error String :=
    match d.GetOk "key_id" with
    | (v, true) => .ok v
    | (_, false) =>
      match env.GenerateUUID with
      | .error err => .error (.plain err)
      | .ok kid => .ok kid
  match keyIdR with
  | .error err => .error err
  | .ok keyId =>
    let endDateR : Except Error Time :=
      if d.Get "end_date" ≠ "" then
        match env.ParseRFC3339 (d.Get "end_date") with
        | .error err =>
          .error (.credentialError
            (env.Sprintf "Unable to parse the provided end date %q: %+v" [d.Get "end_date", err])
            "end_date")
        | .ok t => .ok t
      else if d.Get "end_date_relative" ≠ "" then
        match env.ParseDuration (d.Get "end_date_relative") with
        | .error _ =>
          .error (.credentialError
            (env.Sprintf "Unable to parse `end_date_relative` (%q) as a duration"
              [d.Get "end_date_relative"])
            "end_date_relative")
        | .ok dur => .ok (env.Now + dur)
      else
        .error (.credentialError "One of `end_date` or `end_date_relative` must be specified"
          "end_date")
    match endDateR with
    | .error err => .error err
    | .ok endDate =>
      let credential : PasswordCredential :=
        { EndDateTime := some endDate
          KeyId := some keyId
          SecretText := some value
          DisplayName := none
          StartDateTime := none }
      let credential : PasswordCredential :=
        match d.GetOk "description" with
        | (v, true) => { credential with DisplayName := some v }
        | (_, false) => credential
      match d.GetOk "start_date" with
      | (v, true) =>
        match env.ParseRFC3339 v with
        | .error err =>
          .error (.credentialError
            (env.Sprintf "Unable to parse the provided start date %q: %+v" [v, err])
            "start_date")
        | .ok startDate => .ok { credential with StartDateTime := some startDate }
      | (_, false) => .ok credential

/-! ## Collaborators: diagnostics, clients, locks -/

/-- Modelled from the spec: the diagnostics of package `tf` (not under src/). Each helper
yields one error diagnostic; the constructor records which helper built it and its
arguments (error, attribute path, summary format, format arguments). -/
inductive Diagnostic where
  | ErrorDiagPathF (err : Option Error) (attr : String) (summary : String)
      (args : List String)
  | ErrorDiagF (err : Option Error) (summary : String) (args : List String)
  | ImportAsExistsDiag (resourceName : String) (id : String)
  deriving DecidableEq, Repr

/-- The `diag.Diagnostics` slice; `nil` (no error) is the empty list. -/
abbrev Diagnostics := List Diagnostic

/-- The hamilton `models.Application` fields this code touches. -/
structure Application where
  ID : Option String
  KeyCredentials : Option (List KeyCredential)
  deriving DecidableEq, Repr

/-- The hamilton `models.ServicePrincipal` fields this code touches. -/
structure ServicePrincipal where
  ID : Option String
  PasswordCredentials : Option (List PasswordCredential)
  deriving DecidableEq, Repr

/-- `http.StatusNotFound`. -/
def StatusNotFound : Nat := 404

/-- What `client.Get` returns: the parent and status with a nil error, or a status
with a non-nil error. -/
inductive GetResult (α : Type) where
  | ok (value : α) (status : Nat)
  | fail (status : Nat) (err : Error)
  deriving DecidableEq, Repr

/-- The hamilton applications client over a remote state `σ`. `Update` returns its error
(`none` for nil). -/
structure ApplicationsClient (σ : Type) where
  Get : σ → String → GetResult Application × σ
  Update : σ → Application → Option Error × σ

/-- The hamilton service-principals client over a remote state `σ`. -/
structure ServicePrincipalsClient (σ : Type) where
  Get : σ → String → GetResult ServicePrincipal × σ
  Update : σ → ServicePrincipal → Option Error × σ

/-- Calls an operation makes on its collaborators, in the order made. -/
inductive Call where
  | LockByName (name : String) (id : String)
  | UnlockByName (name : String) (id : String)
  | GetApplication (id : String)
  | UpdateApplication (properties : Application)
  | GetServicePrincipal (id : String)
  | UpdateServicePrincipal (properties : ServicePrincipal)
  deriving DecidableEq, Repr

/-- Whether a call is a `client.Update`. -/
def Call.isUpdate : Call → Bool
  | .UpdateApplication _ => true
  | .UpdateServicePrincipal _ => true
  | _ => false

/-- State outside the resource data: the remote directory, the named locks currently
held, and the log of calls made so far. -/
structure World (σ : Type) where
  remote : σ
  held : List (String × String)
  calls : List Call

/-- Log a client call and move the remote to the state the client returned. -/
def World.record {σ : Type} (w : World σ) (c : Call) (s : σ) : World σ :=
  { w with remote := s, calls := w.calls ++ [c] }

/-- Modelled from the spec: `tf.LockByName` (not under src/) acquires the lock keyed by
resource name and parent object identifier. -/
def LockByName {σ : Type} (w : World σ) (name id : String) : World σ :=
  { w with held := (name, id) :: w.held, calls := w.calls ++ [.LockByName name id] }

/-- Modelled from the spec: `tf.UnlockByName` (not under src/) releases that lock. -/
def UnlockByName {σ : Type} (w : World σ) (name id : String) : World σ :=
  { w with held := w.held.erase (name, id), calls := w.calls ++ [.UnlockByName name id] }

/-- Modelled from the spec: `tf.Set(d, key, value)` (not under src/) writes one attribute. -/
def Set (d : ResourceData) (key value : String) : ResourceData :=
  { d with fields := (key, value) :: d.fields }

/-! ## The loops over the parent's credential collection -/

/-- The test `cred.KeyId != nil && *cred.KeyId == keyId`. -/
def keyIdEq (k : Option String) (keyId : String) : Bool :=
  match k with
  | none => false
  | some v => decide (v = keyId)

/-- The test `cred.KeyId != nil && *cred.KeyId != keyId`. -/
def keyIdNe (k : Option String) (keyId : String) : Bool :=
  match k with
  | none => false
  | some v => decide (v ≠ keyId)

/-- The `for` loop of create: copy the elements to `newCredentials` in order; on the
first element whose key identifier equals `keyId` the function returns early (`none`). -/
def createLoop {α : Type} (keyOf : α → Option String) (keyId : String) :
    List α → List α → Option (List α)
  | [], newCredentials => some newCredentials
  | cred :: rest, newCredentials =>
    if keyIdEq (keyOf cred) keyId then none
    else createLoop keyOf keyId rest (newCredentials ++ [cred])

/-- The `for` loop of read: the first element whose key identifier equals `keyId`. -/
def readLoop {α : Type} (keyOf : α → Option String) (keyId : String) : List α → Option α
  | [] => none
  | cred :: rest => if keyIdEq (keyOf cred) keyId then some cred else readLoop keyOf keyId rest

/-- The `for` loop of delete: append to `newCredentials` each element whose key
identifier is non-nil and differs from `keyId`. -/
def deleteLoop {α : Type} (keyOf : α → Option String) (keyId : String) :
    List α → List α → List α
  | [], newCredentials => newCredentials
  | cred :: rest, newCredentials =>
    if keyIdNe (keyOf cred) keyId then deleteLoop keyOf keyId rest (newCredentials ++ [cred])
    else deleteLoop keyOf keyId rest newCredentials

/-! ## `application_certificate_resource_msgraph.go` -/

/-- Embedding of `applicationCertificateResourceReadMsGraph`. -/
def applicationCertificateResourceReadMsGraph {σ : Type} (env : Env)
    (client : ApplicationsClient σ) (w : World σ) (d : ResourceData) :
    Diagnostics × ResourceData × World σ :=
  match env.CertificateID d.Id with
  | .error err =>
    ([.ErrorDiagPathF (some err) "id" "Parsing certificate credential with ID %q" [d.Id]], d, w)
  | .ok id =>
    match client.Get w.remote id.ObjectId with
    | (.fail status err, s) =>
      let w := w.record (.GetApplication id.ObjectId) s
      if status = StatusNotFound then
        ([.ErrorDiagPathF none "application_object_id"
            "Application with object ID %q was not found" [id.ObjectId]], d, w)
      else
        ([.ErrorDiagPathF (some err) "application_object_id"
            "Retrieving Application with object ID %q" [id.ObjectId]], d, w)
    | (.ok app _, s) =>
      let w := w.record (.GetApplication id.ObjectId) s
      let credential : Option KeyCredential :=
        match app.KeyCredentials with
        | none => none
        | some creds => readLoop KeyCredential.KeyId id.KeyId creds
      match credential with
      | none => ([], d.SetId "", w)
      | some credential =>
        let d := Set d "application_object_id" id.ObjectId
        let d := Set d "key_id" id.KeyId
        let keyType := match credential.Type_ with
          | some v => v
          | none => ""
        let d := Set d "type" keyType
        let startDate := match credential.StartDateTime with
          | some v => env.FormatRFC3339 v
          | none => ""
        let d := Set d "start_date" startDate
        let endDate := match credential.EndDateTime with
          | some v => env.FormatRFC3339 v
          | none => ""
        let d := Set d "end_date" endDate
        ([], d, w)

/-- Embedding of `applicationCertificateResourceCreateMsGraph`. The deferred unlock runs
after the body, the read-back included, has produced its result. -/
def applicationCertificateResourceCreateMsGraph {σ : Type} (env : Env)
    (client : ApplicationsClient σ) (w : World σ) (d : ResourceData) :
    Diagnostics × ResourceData × World σ :=
  let objectId := d.Get "application_object_id"
  match KeyCredentialForResource env d with
  | .error err =>
    let attr := match err.asCredentialError with
      | some a => a
      | none => ""
    ([.ErrorDiagPathF (some err) attr
        "Generating certificate credentials for application with object ID %q" [objectId]], d, w)
  | .ok credential =>
    -- `*credential.KeyId`: the builder always sets the key identifier
    let keyId := credential.KeyId.getD ""
    let id := NewCredentialID objectId "certificate" keyId
    let w := LockByName w env.applicationResourceName id.ObjectId
    let r : Diagnostics × ResourceData × World σ :=
      match client.Get w.remote id.ObjectId with
      | (.fail status err, s) =>
        let w := w.record (.GetApplication id.ObjectId) s
        if status = StatusNotFound then
          ([.ErrorDiagPathF none "application_object_id"
              "Application with object ID %q was not found" [id.ObjectId]], d, w)
        else
          ([.ErrorDiagPathF (some err) "application_object_id"
              "Retrieving application with object ID %q" [id.ObjectId]], d, w)
      | (.ok app _, s) =>
        let w := w.record (.GetApplication id.ObjectId) s
        let scanned : Option (List KeyCredential) :=
          match app.KeyCredentials with
          | none => some []
          | some creds => createLoop KeyCredential.KeyId keyId creds []
        match scanned with
        | none =>
          ([.ImportAsExistsDiag "azuread_application_certificate" (env.CredentialIdString id)],
            d, w)
        | some newCredentials =>
          let newCredentials := newCredentials ++ [credential]
          let properties : Application :=
            { ID := some id.ObjectId, KeyCredentials := some newCredentials }
          match client.Update w.remote properties with
          | (some err, s) =>
            ([.ErrorDiagF (some err) "Adding certificate for application with object ID %q"
                [id.ObjectId]], d, w.record (.UpdateApplication properties) s)
          | (none, s) =>
            let w := w.record (.UpdateApplication properties) s
            let d := d.SetId (env.CredentialIdString id)
            applicationCertificateResourceReadMsGraph env client w d
    (r.1, r.2.1, UnlockByName r.2.2 env.applicationResourceName id.ObjectId)

/-- Embedding of `applicationCertificateResourceDeleteMsGraph`. -/
def applicationCertificateResourceDeleteMsGraph {σ : Type} (env : Env)
    (client : ApplicationsClient σ) (w : World σ) (d : ResourceData) :
    Diagnostics × ResourceData × World σ :=
  match env.CertificateID d.Id with
  | .error err =>
    ([.ErrorDiagPathF (some err) "id" "Parsing certificate credential with ID %q" [d.Id]], d, w)
  | .ok id =>
    let w := LockByName w env.applicationResourceName id.ObjectId
    let r : Diagnostics × ResourceData × World σ :=
      match client.Get w.remote id.ObjectId with
      | (.fail status err, s) =>
        let w := w.record (.GetApplication id.ObjectId) s
        if status = StatusNotFound then
          ([], d, w)
        else
          ([.ErrorDiagPathF (some err) "application_object_id"
              "Retrieving application with object ID %q" [id.ObjectId]], d, w)
      | (.ok app _, s) =>
        let w := w.record (.GetApplication id.ObjectId) s
        let newCredentials : List KeyCredential :=
          match app.KeyCredentials with
          | none => []
          | some creds => deleteLoop KeyCredential.KeyId id.KeyId creds []
        let properties : Application :=
          { ID := some id.ObjectId, KeyCredentials := some newCredentials }
        match client.Update w.remote properties with
        | (some err, s) =>
          ([.ErrorDiagF (some err)
              "Removing certificate credential %q from application with object ID %q"
              [id.KeyId, id.ObjectId]], d, w.record (.UpdateApplication properties) s)
        | (none, s) => ([], d, w.record (.UpdateApplication properties) s)
    (r.1, r.2.1, UnlockByName r.2.2 env.applicationResourceName id.ObjectId)

/-! ## `service_principal_password_resource_msgraph.go` -/

/-- Embedding of `servicePrincipalPasswordResourceReadMsGraph`. A nil `DisplayName` is
written as the zero value. -/
def servicePrincipalPasswordResourceReadMsGraph {σ : Type} (env : Env)
    (client : ServicePrincipalsClient σ) (w : World σ) (d : ResourceData) :
    Diagnostics × ResourceData × World σ :=
  match env.PasswordID d.Id with
  | .error err =>
    ([.ErrorDiagPathF (some err) "id" "Parsing password credential with ID %q" [d.Id]], d, w)
  | .ok id =>
    match client.Get w.remote id.ObjectId with
    | (.fail status err, s) =>
      let w := w.record (.GetServicePrincipal id.ObjectId) s
      if status = StatusNotFound then
        ([.ErrorDiagPathF none "service_principal_id"
            "Service principal with object ID %q was not found" [id.ObjectId]], d, w)
      else
        ([.ErrorDiagPathF (some err) "service_principal_id"
            "Retrieving service principal with object ID %q" [id.ObjectId]], d, w)
    | (.ok app _, s) =>
      let w := w.record (.GetServicePrincipal id.ObjectId) s
      let credential : Option PasswordCredential :=
        match app.PasswordCredentials with
        | none => none
        | some creds => readLoop PasswordCredential.KeyId id.KeyId creds
      match credential with
      | none => ([], d.SetId "", w)
      | some credential =>
        let d := Set d "description" (credential.DisplayName.getD "")
        let d := Set d "display_name" (credential.DisplayName.getD "")
        let d := Set d "key_id" id.KeyId
        let d := Set d "service_principal_id" id.ObjectId
        let startDate := match credential.StartDateTime with
          | some v => env.FormatRFC3339 v
          | none => ""
        let d := Set d "start_date" startDate
        let endDate := match credential.EndDateTime with
          | some v => env.FormatRFC3339 v
          | none => ""
        let d := Set d "end_date" endDate
        ([], d, w)

/-- Embedding of `servicePrincipalPasswordResourceCreateMsGraph`. -/
def servicePrincipalPasswordResourceCreateMsGraph {σ : Type} (env : Env)
    (client : ServicePrincipalsClient σ) (w : World σ) (d : ResourceData) :
    Diagnostics × ResourceData × World σ :=
  let objectId := d.Get "service_principal_id"
  match PasswordCredentialForResource env d with
  | .error err =>
    let attr := match err.asCredentialError with
      | some a => a
      | none => ""
    ([.ErrorDiagPathF (some err) attr
        "Generating password credentials for service principal with object ID %q" [objectId]],
      d, w)
  | .ok credential =>
    -- `*credential.KeyId`: the builder always sets the key identifier
    let keyId := credential.KeyId.getD ""
    let id := NewCredentialID objectId "password" keyId
    let w := LockByName w env.servicePrincipalResourceName id.ObjectId
    let r : Diagnostics × ResourceData × World σ :=
      match client.Get w.remote id.ObjectId with
      | (.fail status err, s) =>
        let w := w.record (.GetServicePrincipal id.ObjectId) s
        if status = StatusNotFound then
          ([.ErrorDiagPathF none "service_principal_id"
              "Service principal with object ID %q was not found" [id.ObjectId]], d, w)
        else
          ([.ErrorDiagPathF (some err) "service_principal_id"
              "Retrieving service principal with object ID %q" [id.ObjectId]], d, w)
      | (.ok app _, s) =>
        let w := w.record (.GetServicePrincipal id.ObjectId) s
        let scanned : Option (List PasswordCredential) :=
          match app.PasswordCredentials with
          | none => some []
          | some creds => createLoop PasswordCredential.KeyId keyId creds []
        match scanned with
        | none =>
          ([.ImportAsExistsDiag "azuread_service_principal_password"
              (env.CredentialIdString id)], d, w)
        | some newCredentials =>
          let newCredentials := newCredentials ++ [credential]
          let properties : ServicePrincipal :=
            { ID := some id.ObjectId, PasswordCredentials := some newCredentials }
          match client.Update w.remote properties with
          | (some err, s) =>
            ([.ErrorDiagF (some err) "Adding password for service principal with object ID %q"
                [id.ObjectId]], d, w.record (.UpdateServicePrincipal properties) s)
          | (none, s) =>
            let w := w.record (.UpdateServicePrincipal properties) s
            let d := d.SetId (env.CredentialIdString id)
            servicePrincipalPasswordResourceReadMsGraph env client w d
    (r.1, r.2.1, UnlockByName r.2.2 env.servicePrincipalResourceName id.ObjectId)

/-- Embedding of `servicePrincipalPasswordResourceDeleteMsGraph`. -/
def servicePrincipalPasswordResourceDeleteMsGraph {σ : Type} (env : Env)
    (client : ServicePrincipalsClient σ) (w : World σ) (d : ResourceData) :
    Diagnostics × ResourceData × World σ :=
  match env.PasswordID d.Id with
  | .error err =>
    ([.ErrorDiagPathF (some err) "id" "Parsing password credential with ID %q" [d.Id]], d, w)
  | .ok id =>
    let w := LockByName w env.servicePrincipalResourceName id.ObjectId
    let r : Diagnostics × ResourceData × World σ :=
      match client.Get w.remote id.ObjectId with
      | (.fail status err, s) =>
        let w := w.record (.GetServicePrincipal id.ObjectId) s
        if status = StatusNotFound then
          ([], d, w)
        else
          ([.ErrorDiagPathF (some err) "service_principal_id"
              "Retrieving service principal with object ID %q" [id.ObjectId]], d, w)
      | (.ok app _, s) =>
        let w := w.record (.GetServicePrincipal id.ObjectId) s
        let newCredentials : List PasswordCredential :=
          match app.PasswordCredentials with
          | none => []
          | some creds => deleteLoop PasswordCredential.KeyId id.KeyId creds []
        let properties : ServicePrincipal :=
          { ID := some id.ObjectId, PasswordCredentials := some newCredentials }
        match client.Update w.remote properties with
        | (some err, s) =>
          ([.ErrorDiagF (some err)
              "Removing password credential %q from service principal with object ID %q"
              [id.KeyId, id.ObjectId]], d, w.record (.UpdateServicePrincipal properties) s)
        | (none, s) => ([], d, w.record (.UpdateServicePrincipal properties) s)
    (r.1, r.2.1, UnlockByName r.2.2 env.servicePrincipalResourceName id.ObjectId)

/-! ## Sample collaborators

Concrete instances of the parameters, used to evaluate the operations on inputs. -/

/-- Split a character list at each slash. -/
def splitSlash : List Char → List (List Char)
  | [] => [[]]
  | c :: cs =>
    if c = '/' then [] :: splitSlash cs
    else
      match splitSlash cs with
      | [] => [[c]]
      | seg :: segs => (c :: seg) :: segs

/-- A sample identity decoder: exactly three slash-separated segments, the middle one
being the expected kind. -/
def sampleDecode (kind : String) (idString : String) : Except Error CredentialId :=
  match splitSlash idString.data with
  | [o, k, i] =>
    if String.mk k = kind then .ok (NewCredentialID (String.mk o) kind (String.mk i))
    else .error (.plain "unexpected kind")
  | _ => .error (.plain "unexpected number of segments")

/-- A sample environment: one timestamp and one duration parse, key generation
succeeds with a fixed identifier. -/
def sampleEnv : Env where
  GenerateUUID := .ok "generated"
  ParseRFC3339 := fun v => if v = "2030-01-01T00:00:00Z" then .ok 1893456000 else .error "parse"
  ParseDuration := fun v => if v = "1h" then .ok 3600 else .error "duration"
  Now := 1000
  EncodeToString := fun v => v
  Sprintf := fun format args => String.join (format :: args)
  FormatRFC3339 := fun t => if t = 1893456000 then "2030-01-01T00:00:00Z" else "other"
  CredentialIdString := fun id => id.ObjectId ++ "/" ++ id.KeyType ++ "/" ++ id.KeyId
  CertificateID := sampleDecode "certificate"
  PasswordID := sampleDecode "password"
  applicationResourceName := "azuread_application"
  servicePrincipalResourceName := "azuread_service_principal"

/-- The sample environment with a key generator that fails. -/
def failingUUIDEnv : Env := { sampleEnv with GenerateUUID := .error "entropy" }

/-- A sample applications client: the remote is the list of stored applications; `Get`
answers 404 for an unknown object ID, `Update` replaces the stored key credentials. -/
def sampleApplications : ApplicationsClient (List Application) where
  Get := fun s id =>
    match s.find? (fun a => decide (a.ID = some id)) with
    | some a => (.ok a 200, s)
    | none => (.fail 404 (.plain "not found"), s)
  Update := fun s p =>
    (none, s.map (fun a => if a.ID = p.ID then { a with KeyCredentials := p.KeyCredentials } else a))

/-- A sample service-principals client, like `sampleApplications`. -/
def sampleServicePrincipals : ServicePrincipalsClient (List ServicePrincipal) where
  Get := fun s id =>
    match s.find? (fun a => decide (a.ID = some id)) with
    | some a => (.ok a 200, s)
    | none => (.fail 404 (.plain "not found"), s)
  Update := fun s p =>
    (none, s.map (fun a =>
      if a.ID = p.ID then { a with PasswordCredentials := p.PasswordCredentials } else a))

/-- An applications client whose `Get` always fails with the given status. -/
def failingApplications (status : Nat) : ApplicationsClient Unit where
  Get := fun s _ => (.fail status (.plain "fetch failed"), s)
  Update := fun s _ => (none, s)

/-- A service-principals client whose `Get` always fails with the given status. -/
def failingServicePrincipals (status : Nat) : ServicePrincipalsClient Unit where
  Get := fun s _ => (.fail status (.plain "fetch failed"), s)
  Update := fun s _ => (none, s)

/-- An empty world over a remote state. -/
def World.init {σ : Type} (s : σ) : World σ := { remote := s, held := [], calls := [] }

/-- The non-nil key identifiers of a collection are pairwise distinct. -/
def distinctKeyIds {α : Type} (keyOf : α → Option String) (creds : List α) : Prop :=
  (creds.filterMap keyOf).Nodup

instance distinctKeyIds.decidable {α : Type} (keyOf : α → Option String) (creds : List α) :
    Decidable (distinctKeyIds keyOf creds) :=
  inferInstanceAs (Decidable (creds.filterMap keyOf).Nodup)

/-- The calls an operation made: those logged in `after` beyond the ones of `before`. -/
def World.callsSince {σ : Type} (after before : World σ) : List Call :=
  after.calls.drop before.calls.length

/-- A key credential carrying only a key identifier. -/
def keyCred (k : Option String) : KeyCredential :=
  { KeyId := k, Type_ := none, Usage := none, Key := none, StartDateTime := none,
    EndDateTime := none }

/-- A password credential carrying only a key identifier. -/
def passwordCred (k : Option String) : PasswordCredential :=
  { KeyId := k, SecretText := none, DisplayName := none, StartDateTime := none,
    EndDateTime := none }

/-- A certificate configuration for application `app1` with key identifier `k1`. -/
def certConfig : ResourceData :=
  { id := "",
    fields := [("application_object_id", "app1"), ("type", "AsymmetricX509Cert"),
      ("value", "abc"), ("key_id", "k1"), ("end_date", "2030-01-01T00:00:00Z")] }

/-- A password configuration for service principal `sp1` with key identifier `k1`. -/
def passwordConfig : ResourceData :=
  { id := "",
    fields := [("service_principal_id", "sp1"), ("value", "secret"), ("key_id", "k1"),
      ("end_date", "2030-01-01T00:00:00Z")] }

/-- The credential `KeyCredentialForResource` builds from `certConfig`. -/
def certConfigCredential : KeyCredential :=
  { KeyId := some "k1", Type_ := some "AsymmetricX509Cert", Usage := some "verify",
    Key := some "abc", StartDateTime := none, EndDateTime := some 1893456000 }

/-- The credential `PasswordCredentialForResource` builds from `passwordConfig`. -/
def passwordConfigCredential : PasswordCredential :=
  { KeyId := some "k1", SecretText := some "secret", DisplayName := none,
    StartDateTime := none, EndDateTime := some 1893456000 }

/-- The application `app1` holding the given key credentials. -/
def app1 (creds : Option (List KeyCredential)) : Application :=
  { ID := some "app1", KeyCredentials := creds }

/-- The service principal `sp1` holding the given password credentials. -/
def sp1 (creds : Option (List PasswordCredential)) : ServicePrincipal :=
  { ID := some "sp1", PasswordCredentials := creds }

/-- Key generation succeeds for a configuration: a key identifier is supplied, or the
generator returns one. -/
def keyIdAvailable (env : Env) (d : ResourceData) : Prop :=
  (d.GetOk "key_id").2 = true ∨ ∃ kid, env.GenerateUUID = .ok kid

/-- The start date of a configuration is unset or parses as RFC3339. -/
def startDateUsable (env : Env) (d : ResourceData) : Prop :=
  (d.GetOk "start_date").2 = false ∨ ∃ t, env.ParseRFC3339 (d.GetOk "start_date").1 = .ok t

/-- The attribute names a `CredentialError` of the builders can carry. -/
def credentialErrorAttrs : List String := ["end_date", "end_date_relative", "start_date"]

/-- A configuration with no attribute set. -/
def emptyConfig : ResourceData := { id := "", fields := [] }

/-! ## Lock discipline

Predicates on the call log of an operation. -/

/-- Whether a call goes to one of the clients: a parent fetch or a write-back. -/
def Call.isClientCall : Call → Bool
  | .LockByName _ _ => false
  | .UnlockByName _ _ => false
  | _ => true

/-- Replay of a call log over the locks held when it starts: whether every client call of
the log is made while `lock` is held. -/
def clientCallsUnder (lock : String × String) : List (String × String) → List Call → Bool
  | _, [] => true
  | held, .LockByName name id :: rest => clientCallsUnder lock ((name, id) :: held) rest
  | held, .UnlockByName name id :: rest => clientCallsUnder lock (held.erase (name, id)) rest
  | held, _ :: rest => decide (lock ∈ held) && clientCallsUnder lock held rest

/-! ## `azuread/resource_service_principal.go`: the post-creation poll -/

/-- The `autorest.Response` embedded in a graphrbac result: the HTTP status code, `none`
when no HTTP response was received. -/
structure autorest.Response where
  StatusCode : Option Nat
  deriving DecidableEq, Repr

/-- The `graphrbac.ServicePrincipal` fields this code touches. -/
structure graphrbac.ServicePrincipal where
  Response : autorest.Response
  ObjectID : Option String
  AppID : Option String
  DisplayName : Option String
  deriving DecidableEq, Repr

/-- The graphrbac service-principals client over a remote state `σ`: `Get` returns the
value and the error, `none` for nil, an error being given by its message. -/
structure GraphServicePrincipalsClient (σ : Type) where
  Get : σ → String → (graphrbac.ServicePrincipal × Option String) × σ

/-- The `Refresh` closure of the `resource.StateChangeConf` built in
`resourceServicePrincipalCreate`, for the object ID `*sp.ObjectID`: the polled value, the
state name and the error. The helper `ar.ResponseWasNotFound` (package `ar` is not under
src/) is the parameter `ResponseWasNotFound`. -/
def resourceServicePrincipalCreate.Refresh {σ : Type} (env : Env)
    (ResponseWasNotFound : autorest.Response → Bool)
    (client : GraphServicePrincipalsClient σ) (objectID : String) (s : σ) :
    (graphrbac.ServicePrincipal × String × Option Error) × σ :=
  match client.Get s objectID with
  | ((resp, some err2), s) =>
    if ResponseWasNotFound resp.Response then ((resp, "404", none), s)
    else ((resp, "Error",
      some (.plain (env.Sprintf "Error retrieving Service Principal ID %q: %+v"
        [objectID, err2]))), s)
  | ((resp, none), s) => ((resp, "Found", none), s)

/-- The `Pending` states of that `resource.StateChangeConf`. -/
def resourceServicePrincipalCreate.Pending : List String := ["404"]

/-- The `Target` states of that `resource.StateChangeConf`. -/
def resourceServicePrincipalCreate.Target : List String := ["Found"]

/-- A sample not-found test on a response: the status code is 404. -/
def sampleResponseWasNotFound (resp : autorest.Response) : Bool :=
  decide (resp.StatusCode = some 404)

/-- A sample graphrbac client whose remote state is the list of answers still to give:
each `Get` consumes one; with none left it fails without an HTTP response. -/
def scriptedServicePrincipals :
    GraphServicePrincipalsClient (List (graphrbac.ServicePrincipal × Option String)) where
  Get := fun s _ =>
    match s with
    | [] => ((graphrbac.ServicePrincipal.mk (autorest.Response.mk none) none none none,
        some "no response"), [])
    | answer :: rest => (answer, rest)

/-- A graphrbac service principal `sp1` received with the given status code. -/
def graphSp1 (status : Nat) : graphrbac.ServicePrincipal :=
  { Response := { StatusCode := some status }, ObjectID := some "sp1", AppID := some "app1",
    DisplayName := some "sp" }

/-! ## `application_app_role_resource.go`: the dispatchers -/

/-- The `clients.Client` field read by the dispatchers. -/
structure Client where
  EnableMsGraphBeta : Bool
  deriving DecidableEq, Repr

/-- The two implementations of each app-role operation. They live in other files of the
package, which are not under src/, and are parameters here: each takes the resource data,
the client and a state `ω` standing for everything else it can touch. -/
structure AppRoleImplementations (ω : Type) where
  applicationAppRoleResourceCreateUpdateMsGraph :
    ResourceData → Client → ω → Diagnostics × ResourceData × ω
  applicationAppRoleResourceCreateUpdateAadGraph :
    ResourceData → Client → ω → Diagnostics × ResourceData × ω
  applicationAppRoleResourceReadMsGraph :
    ResourceData → Client → ω → Diagnostics × ResourceData × ω
  applicationAppRoleResourceReadAadGraph :
    ResourceData → Client → ω → Diagnostics × ResourceData × ω
  applicationAppRoleResourceDeleteMsGraph :
    ResourceData → Client → ω → Diagnostics × ResourceData × ω
  applicationAppRoleResourceDeleteAadGraph :
    ResourceData → Client → ω → Diagnostics × ResourceData × ω

/-- Embedding of `applicationAppRoleResourceCreateUpdate`. -/
def applicationAppRoleResourceCreateUpdate {ω : Type} (impl : AppRoleImplementations ω)
    (d : ResourceData) (client : Client) (w : ω) : Diagnostics × ResourceData × ω :=
  if client.EnableMsGraphBeta then impl.applicationAppRoleResourceCreateUpdateMsGraph d client w
  else impl.applicationAppRoleResourceCreateUpdateAadGraph d client w

/-- Embedding of `applicationAppRoleResourceRead`. -/
def applicationAppRoleResourceRead {ω : Type} (impl : AppRoleImplementations ω)
    (d : ResourceData) (client : Client) (w : ω) : Diagnostics × ResourceData × ω :=
  if client.EnableMsGraphBeta then impl.applicationAppRoleResourceReadMsGraph d client w
  else impl.applicationAppRoleResourceReadAadGraph d client w

/-- Embedding of `applicationAppRoleResourceDelete`. -/
def applicationAppRoleResourceDelete {ω : Type} (impl : AppRoleImplementations ω)
    (d : ResourceData) (client : Client) (w : ω) : Diagnostics × ResourceData × ω :=
  if client.EnableMsGraphBeta then impl.applicationAppRoleResourceDeleteMsGraph d client w
  else impl.applicationAppRoleResourceDeleteAadGraph d client w

/-- The routing in the words of the specification (section 4.5): read one boolean flag and
forward the whole operation to the new-API implementation when it is set, to the legacy
one otherwise. -/
def routeByFlag {α : Type} (flag : Bool) (newApi legacy : α) : α :=
  match flag with
  | true => newApi
  | false => legacy

/-- An implementation that, besides its work on `ω`, logs its own name when invoked. -/
def logged {ω : Type} (name : String)
    (f : ResourceData → Client → ω → Diagnostics × ResourceData × ω) :
    ResourceData → Client → ω × List String → Diagnostics × ResourceData × (ω × List String) :=
  fun d client w =>
    let r := f d client w.1
    (r.1, r.2.1, (r.2.2, w.2 ++ [name]))

/-- The six implementations, each logging its invocation. -/
def AppRoleImplementations.logged {ω : Type} (impl : AppRoleImplementations ω) :
    AppRoleImplementations (ω × List String) where
  applicationAppRoleResourceCreateUpdateMsGraph :=
    AzureAD.logged "CreateUpdateMsGraph" impl.applicationAppRoleResourceCreateUpdateMsGraph
  applicationAppRoleResourceCreateUpdateAadGraph :=
    AzureAD.logged "CreateUpdateAadGraph" impl.applicationAppRoleResourceCreateUpdateAadGraph
  applicationAppRoleResourceReadMsGraph :=
    AzureAD.logged "ReadMsGraph" impl.applicationAppRoleResourceReadMsGraph
  applicationAppRoleResourceReadAadGraph :=
    AzureAD.logged "ReadAadGraph" impl.applicationAppRoleResourceReadAadGraph
  applicationAppRoleResourceDeleteMsGraph :=
    AzureAD.logged "DeleteMsGraph" impl.applicationAppRoleResourceDeleteMsGraph
  applicationAppRoleResourceDeleteAadGraph :=
    AzureAD.logged "DeleteAadGraph" impl.applicationAppRoleResourceDeleteAadGraph

/-- Sample implementations over no state: each returns one diagnostic naming itself. -/
def sampleAppRoleImplementations : AppRoleImplementations Unit where
  applicationAppRoleResourceCreateUpdateMsGraph := fun d _ w =>
    ([.ErrorDiagF none "CreateUpdateMsGraph" []], d, w)
  applicationAppRoleResourceCreateUpdateAadGraph := fun d _ w =>
    ([.ErrorDiagF none "CreateUpdateAadGraph" []], d, w)
  applicationAppRoleResourceReadMsGraph := fun d _ w =>
    ([.ErrorDiagF none "ReadMsGraph" []], d, w)
  applicationAppRoleResourceReadAadGraph := fun d _ w =>
    ([.ErrorDiagF none "ReadAadGraph" []], d, w)
  applicationAppRoleResourceDeleteMsGraph := fun d _ w =>
    ([.ErrorDiagF none "DeleteMsGraph" []], d, w)
  applicationAppRoleResourceDeleteAadGraph := fun d _ w =>
    ([.ErrorDiagF none "DeleteAadGraph" []], d, w)

/-! ## `application_data_source.go` -/

/-- The `graphrbac.Application` fields `applicationDataRead` branches on. -/
structure graphrbac.Application where
  Response : autorest.Response
  ObjectID : Option String
  AppID : Option String
  DisplayName : Option String
  deriving DecidableEq, Repr

/-- What `resp.Response()` of the iterator returned by `ListComplete` holds: the `Value`
pointer to the listed applications. -/
structure graphrbac.ApplicationListResult where
  Value : Option (List graphrbac.Application)
  deriving DecidableEq, Repr

/-- The graphrbac applications client as `applicationDataRead` uses it: both calls only
read; an error is given by its message, `none` for nil. -/
structure GraphApplicationsClient where
  Get : String → graphrbac.Application × Option String
  ListComplete : String → graphrbac.ApplicationListResult × Option String

/-- Lines 169-178 of `applicationDataRead`: the choice of `fieldName` and `fieldValue`,
`application_id` first and `name` only when `application_id` is empty; `none` stands for
the early return taken when both are empty. -/
def applicationDataRead.field (d : ResourceData) : Option (String × String) :=
  if d.Get "application_id" != "" then some ("appId", d.Get "application_id")
  else if d.Get "name" != "" then some ("displayName", d.Get "name")
  else none

/-- Lines 155-215 of `applicationDataRead`, the lookup stage: the application fetched by
`object_id`, or the single listed application matching `application_id` or `name`. The
tests `len(*values) == 0` and `len(*values) > 1` followed by `(*values)[0]` are the match
on the listing. The helper `utils.ResponseWasNotFound` (not under src/) is the parameter
`ResponseWasNotFound`. -/
def applicationDataRead.lookup (env : Env) (ResponseWasNotFound : autorest.Response → Bool)
    (client : GraphApplicationsClient) (d : ResourceData) :
    Except Error graphrbac.Application :=
  let oId := d.Get "object_id"
  if oId != "" then
    match client.Get oId with
    | (resp, some err) =>
      if ResponseWasNotFound resp.Response then
        .error (.plain (env.Sprintf "Application with ID %q was not found" [oId]))
      else
        .error (.plain (env.Sprintf "retrieving Application with ID %q: %+v" [oId, err]))
    | (resp, none) => .ok resp
  else
    match applicationDataRead.field d with
    | none => .error (.plain (env.Sprintf "one of `object_id` or `name` must be supplied" []))
    | some (fieldName, fieldValue) =>
      let filter := env.Sprintf "%s eq '%s'" [fieldName, fieldValue]
      match client.ListComplete filter with
      | (_, some err) =>
        .error (.plain (env.Sprintf "listing Applications for filter %q: %+v" [filter, err]))
      | (resp, none) =>
        match resp.Value with
        | none =>
          .error (.plain (env.Sprintf
            "bad API response: nil values for Applications matching %q" [filter]))
        | some [] =>
          .error (.plain (env.Sprintf "found no Applications matching %q" [filter]))
        | some (_ :: _ :: _) =>
          .error (.plain (env.Sprintf "found multiple Applications matching %q" [filter]))
        | some [app] =>
          if fieldName = "appId" then
            match app.AppID with
            | none =>
              .error (.plain (env.Sprintf
                "bad API response: nil AppID for Applications matching %q" [filter]))
            | some appID =>
              if appID ≠ fieldValue then
                .error (.plain (env.Sprintf
                  "AppID for Applications matching %q does not match(%q!=%q)"
                  [filter, appID, fieldValue]))
              else .ok app
          else if fieldName = "displayName" then
            match app.DisplayName with
            | none =>
              .error (.plain (env.Sprintf
                "nil DisplayName for Applications matching %q" [filter]))
            | some displayName =>
              if displayName ≠ fieldValue then
                .error (.plain (env.Sprintf
                  "DisplayName for Applications matching %q does not match(%q!=%q)"
                  [filter, displayName, fieldValue]))
              else .ok app
          else .ok app

/-- Embedding of `applicationDataRead`: the lookup stage, the nil test on the object ID
and `d.SetId`. Lines 222-272, which flatten the application into the schema with helpers
of packages `graph` and `tf` (not under src/) and fetch the owners, are the parameter
`populate`. Returns the error (`none` for nil) and the resource data. -/
def applicationDataRead (env : Env) (ResponseWasNotFound : autorest.Response → Bool)
    (populate : ResourceData → graphrbac.Application → Option Error × ResourceData)
    (client : GraphApplicationsClient) (d : ResourceData) : Option Error × ResourceData :=
  match applicationDataRead.lookup env ResponseWasNotFound client d with
  | .error err => (some err, d)
  | .ok app =>
    match app.ObjectID with
    | none => (some (.plain (env.Sprintf "Application ObjectId is nil" [])), d)
    | some objectID => populate (d.SetId objectID) app

/-- A graphrbac application with the given object ID, application ID and display name. -/
def graphApp (objectID appID displayName : Option String) : graphrbac.Application :=
  { Response := { StatusCode := some 200 }, ObjectID := objectID, AppID := appID,
    DisplayName := displayName }

/-- A sample graphrbac applications client answering every listing with `values`. -/
def listingClient (values : Option (List graphrbac.Application)) : GraphApplicationsClient where
  Get := fun _ => (graphApp none none none, some "not used")
  ListComplete := fun _ => ({ Value := values }, none)

/-- A sample tail of `applicationDataRead`: writes the three identifying attributes. -/
def samplePopulate (d : ResourceData) (app : graphrbac.Application) :
    Option Error × ResourceData :=
  (none, Set (Set (Set d "object_id" (app.ObjectID.getD "")) "name"
    (app.DisplayName.getD "")) "application_id" (app.AppID.getD ""))

/-! ## The credential builders -/

theorem keyCredential_keyId_isSome (env : Env) (d : ResourceData) (c : KeyCredential)
    (hc : KeyCredentialForResource env d = .ok c) : ∃ k, c.KeyId = some k := by
  unfold KeyCredentialForResource at hc
  rcases hk : d.GetOk "key_id" with ⟨v, b⟩
  rcases hs : d.GetOk "start_date" with ⟨v', b'⟩
  rw [hk, hs] at hc
  by_cases he : d.Get "end_date" = "" <;> by_cases her : d.Get "end_date_relative" = "" <;>
    cases b <;> cases b' <;> cases hg : env.GenerateUUID <;>
    cases hp : env.ParseRFC3339 v' <;> cases hpe : env.ParseRFC3339 (d.Get "end_date") <;>
    cases hpd : env.ParseDuration (d.Get "end_date_relative") <;>
    simp_all <;> subst hc <;> simp

theorem passwordCredential_keyId_isSome (env : Env) (d : ResourceData)
    (c : PasswordCredential) (hc : PasswordCredentialForResource env d = .ok c) :
    ∃ k, c.KeyId = some k := by
  unfold PasswordCredentialForResource at hc
  rcases hk : d.GetOk "key_id" with ⟨v, b⟩
  rcases hs : d.GetOk "start_date" with ⟨v', b'⟩
  rcases hd : d.GetOk "description" with ⟨v'', b''⟩
  rw [hk, hs, hd] at hc
  by_cases he : d.Get "end_date" = "" <;> by_cases her : d.Get "end_date_relative" = "" <;>
    cases b <;> cases b' <;> cases b'' <;> cases hg : env.GenerateUUID <;>
    cases hp : env.ParseRFC3339 v' <;> cases hpe : env.ParseRFC3339 (d.Get "end_date") <;>
    cases hpd : env.ParseDuration (d.Get "end_date_relative") <;>
    simp_all <;> subst hc <;> simp

/-- C4: when both `end_date` and `end_date_relative` are the empty string and key
generation succeeds, both builders fail with the `CredentialError` attributed to
`end_date`, whatever the other fields (an unparseable `start_date` included) hold. -/
theorem both_end_dates_unset_fails_on_end_date (env : Env) (d : ResourceData)
    (hgen : keyIdAvailable env d)
    (h1 : d.Get "end_date" = "") (h2 : d.Get "end_date_relative" = "") :
    KeyCredentialForResource env d
        = .error (.credentialError "One of `end_date` or `end_date_relative` must be specified"
            "end_date") ∧
    PasswordCredentialForResource env d
        = .error (.credentialError "One of `end_date` or `end_date_relative` must be specified"
            "end_date") := by
  unfold keyIdAvailable at hgen
  constructor
  · unfold KeyCredentialForResource
    rcases hk : d.GetOk "key_id" with ⟨v, b⟩
    rw [hk] at hgen
    cases b with
    | true => simp [h1, h2]
    | false =>
      rcases hgen with hgen | ⟨kid, hkid⟩
      · simp at hgen
      · simp [h1, h2, hkid]
  · unfold PasswordCredentialForResource
    rcases hk : d.GetOk "key_id" with ⟨v, b⟩
    rw [hk] at hgen
    cases b with
    | true => simp [h1, h2]
    | false =>
      rcases hgen with hgen | ⟨kid, hkid⟩
      · simp at hgen
      · simp [h1, h2, hkid]

/-- Witness of C4: a configuration with only an unparseable `start_date`. -/
theorem both_end_dates_unset_fails_on_end_date_witness :
    KeyCredentialForResource sampleEnv { id := "", fields := [("start_date", "yesterday")] }
        = .error (.credentialError "One of `end_date` or `end_date_relative` must be specified"
            "end_date") ∧
    PasswordCredentialForResource sampleEnv { id := "", fields := [("start_date", "yesterday")] }
        = .error (.credentialError "One of `end_date` or `end_date_relative` must be specified"
            "end_date") :=
  both_end_dates_unset_fails_on_end_date sampleEnv
    { id := "", fields := [("start_date", "yesterday")] } (Or.inr ⟨"generated", rfl⟩)
    (by decide) (by decide)

/-- C5: when `end_date` is non-empty and parses as RFC3339 to `t`, every credential either
builder returns has `EndDateTime = t`, for any `end_date_relative`, any duration parser
and any current time; and a credential is returned as soon as key generation succeeds
and `start_date` is unset or parses. -/
theorem absolute_end_date_is_honored (env : Env) (d : ResourceData) (t : Time)
    (h1 : d.Get "end_date" ≠ "") (h2 : env.ParseRFC3339 (d.Get "end_date") = .ok t) :
    (∀ c, KeyCredentialForResource env d = .ok c → c.EndDateTime = some t) ∧
    (∀ c, PasswordCredentialForResource env d = .ok c → c.EndDateTime = some t) ∧
    (keyIdAvailable env d → startDateUsable env d →
      (∃ c, KeyCredentialForResource env d = .ok c) ∧
      (∃ c, PasswordCredentialForResource env d = .ok c)) := by
  refine ⟨?_, ?_, ?_⟩
  · intro c hc
    unfold KeyCredentialForResource at hc
    rcases hk : d.GetOk "key_id" with ⟨v, b⟩
    rcases hs : d.GetOk "start_date" with ⟨v', b'⟩
    rw [hk, hs] at hc
    cases b <;> cases b' <;> cases hg : env.GenerateUUID <;>
      cases hp : env.ParseRFC3339 v' <;> simp_all <;> subst hc <;> rfl
  · intro c hc
    unfold PasswordCredentialForResource at hc
    rcases hk : d.GetOk "key_id" with ⟨v, b⟩
    rcases hs : d.GetOk "start_date" with ⟨v', b'⟩
    rcases hd : d.GetOk "description" with ⟨v'', b''⟩
    rw [hk, hs, hd] at hc
    cases b <;> cases b' <;> cases b'' <;> cases hg : env.GenerateUUID <;>
      cases hp : env.ParseRFC3339 v' <;> simp_all <;> subst hc <;> rfl
  · intro hgen hstart
    unfold keyIdAvailable at hgen
    unfold startDateUsable at hstart
    constructor
    · unfold KeyCredentialForResource
      rcases hk : d.GetOk "key_id" with ⟨v, b⟩
      rcases hs : d.GetOk "start_date" with ⟨v', b'⟩
      rw [hk] at hgen
      rw [hs] at hstart
      cases b <;> cases b' <;> cases hg : env.GenerateUUID <;>
        cases hp : env.ParseRFC3339 v' <;> simp_all
    · unfold PasswordCredentialForResource
      rcases hk : d.GetOk "key_id" with ⟨v, b⟩
      rcases hs : d.GetOk "start_date" with ⟨v', b'⟩
      rcases hd : d.GetOk "description" with ⟨v'', b''⟩
      rw [hk] at hgen
      rw [hs] at hstart
      cases b <;> cases b' <;> cases b'' <;> cases hg : env.GenerateUUID <;>
        cases hp : env.ParseRFC3339 v' <;> simp_all

/-- Witness of C5: `end_date` set together with an `end_date_relative` that is not a
valid duration; both builders return a credential ending at the parsed `end_date`. -/
theorem absolute_end_date_is_honored_witness :
    (∀ c, KeyCredentialForResource sampleEnv
        { id := "", fields := [("end_date", "2030-01-01T00:00:00Z"),
            ("end_date_relative", "soon")] } = .ok c → c.EndDateTime = some 1893456000) ∧
    (∀ c, PasswordCredentialForResource sampleEnv
        { id := "", fields := [("end_date", "2030-01-01T00:00:00Z"),
            ("end_date_relative", "soon")] } = .ok c → c.EndDateTime = some 1893456000) ∧
    (∃ c, KeyCredentialForResource sampleEnv
        { id := "", fields := [("end_date", "2030-01-01T00:00:00Z"),
            ("end_date_relative", "soon")] } = .ok c) ∧
    (∃ c, PasswordCredentialForResource sampleEnv
        { id := "", fields := [("end_date", "2030-01-01T00:00:00Z"),
            ("end_date_relative", "soon")] } = .ok c) :=
  ⟨(absolute_end_date_is_honored sampleEnv
      { id := "", fields := [("end_date", "2030-01-01T00:00:00Z"),
        ("end_date_relative", "soon")] } 1893456000 (by decide) rfl).1,
    (absolute_end_date_is_honored sampleEnv
      { id := "", fields := [("end_date", "2030-01-01T00:00:00Z"),
        ("end_date_relative", "soon")] } 1893456000 (by decide) rfl).2.1,
    (absolute_end_date_is_honored sampleEnv
      { id := "", fields := [("end_date", "2030-01-01T00:00:00Z"),
        ("end_date_relative", "soon")] } 1893456000 (by decide) rfl).2.2
      (Or.inr ⟨"generated", rfl⟩) (Or.inl rfl)⟩

theorem keyCredential_error_exact (env : Env) (d : ResourceData) (err : Error)
    (hc : KeyCredentialForResource env d = .error err) :
    ((d.GetOk "key_id").2 = false ∧
      ∃ msg, env.GenerateUUID = .error msg ∧ err = .plain msg) ∨
    (keyIdAvailable env d ∧
      ((d.Get "end_date" ≠ "" ∧
          ∃ msg, env.ParseRFC3339 (d.Get "end_date") = .error msg ∧
            err = .credentialError
              (env.Sprintf "Unable to parse the provided end date %q: %+v"
                [d.Get "end_date", msg]) "end_date") ∨
        (d.Get "end_date" = "" ∧ d.Get "end_date_relative" ≠ "" ∧
          (∃ msg, env.ParseDuration (d.Get "end_date_relative") = .error msg) ∧
            err = .credentialError
              (env.Sprintf "Unable to parse `end_date_relative` (%q) as a duration"
                [d.Get "end_date_relative"]) "end_date_relative") ∨
        (d.Get "end_date" = "" ∧ d.Get "end_date_relative" = "" ∧
          err = .credentialError
            "One of `end_date` or `end_date_relative` must be specified" "end_date") ∨
        (((d.Get "end_date" ≠ "" ∧ ∃ t, env.ParseRFC3339 (d.Get "end_date") = .ok t) ∨
            (d.Get "end_date" = "" ∧ d.Get "end_date_relative" ≠ "" ∧
              ∃ dur, env.ParseDuration (d.Get "end_date_relative") = .ok dur)) ∧
          (d.GetOk "start_date").2 = true ∧
          ∃ msg, env.ParseRFC3339 (d.GetOk "start_date").1 = .error msg ∧
            err = .credentialError
              (env.Sprintf "Unable to parse the provided start date %q: %+v"
                [(d.GetOk "start_date").1, msg]) "start_date"))) := by
  unfold KeyCredentialForResource at hc
  unfold keyIdAvailable
  rcases hk : d.GetOk "key_id" with ⟨v, b⟩
  rcases hs : d.GetOk "start_date" with ⟨v', b'⟩
  simp only [hk, hs] at hc ⊢
  generalize d.Get "end_date" = ed at hc ⊢
  generalize d.Get "end_date_relative" = edr at hc ⊢
  cases b
  · cases hg : env.GenerateUUID with
    | error msg =>
      simp only [hg] at hc
      exact Or.inl ⟨rfl, msg, rfl, (Except.error.inj hc).symm⟩
    | ok kid =>
      simp only [hg] at hc
      refine Or.inr ⟨Or.inr ⟨kid, rfl⟩, ?_⟩
      by_cases he : ed = ""
      · by_cases hr : edr = ""
        · simp only [he, hr, ne_eq, not_true_eq_false, if_false] at hc
          exact Or.inr (Or.inr (Or.inl ⟨he, hr, (Except.error.inj hc).symm⟩))
        · cases hd : env.ParseDuration edr with
          | error msg =>
            simp only [he, hr, hd, ne_eq, not_true_eq_false, not_false_eq_true, if_false,
              if_true] at hc
            exact Or.inr (Or.inl ⟨he, hr, ⟨msg, rfl⟩, (Except.error.inj hc).symm⟩)
          | ok dur =>
            simp only [he, hr, hd, ne_eq, not_true_eq_false, not_false_eq_true, if_false,
              if_true] at hc
            cases b'
            · simp at hc
            · cases hp : env.ParseRFC3339 v' with
              | ok t' => simp [hp] at hc
              | error msg' =>
                simp only [hp] at hc
                exact Or.inr (Or.inr (Or.inr ⟨Or.inr ⟨he, hr, dur, rfl⟩, rfl, msg', rfl,
                  (Except.error.inj hc).symm⟩))
      · cases hq : env.ParseRFC3339 ed with
        | error msg =>
          simp only [he, hq, ne_eq, not_false_eq_true, if_true] at hc
          exact Or.inl ⟨he, msg, rfl, (Except.error.inj hc).symm⟩
        | ok t =>
          simp only [he, hq, ne_eq, not_false_eq_true, if_true] at hc
          cases b'
          · simp at hc
          · cases hp : env.ParseRFC3339 v' with
            | ok t' => simp [hp] at hc
            | error msg' =>
              simp only [hp] at hc
              exact Or.inr (Or.inr (Or.inr ⟨Or.inl ⟨he, t, rfl⟩, rfl, msg', rfl,
                (Except.error.inj hc).symm⟩))
  · simp only at hc
    refine Or.inr ⟨Or.inl rfl, ?_⟩
    by_cases he : ed = ""
    · by_cases hr : edr = ""
      · simp only [he, hr, ne_eq, not_true_eq_false, if_false] at hc
        exact Or.inr (Or.inr (Or.inl ⟨he, hr, (Except.error.inj hc).symm⟩))
      · cases hd : env.ParseDuration edr with
        | error msg =>
          simp only [he, hr, hd, ne_eq, not_true_eq_false, not_false_eq_true, if_false,
            if_true] at hc
          exact Or.inr (Or.inl ⟨he, hr, ⟨msg, rfl⟩, (Except.error.inj hc).symm⟩)
        | ok dur =>
          simp only [he, hr, hd, ne_eq, not_true_eq_false, not_false_eq_true, if_false,
            if_true] at hc
          cases b'
          · simp at hc
          · cases hp : env.ParseRFC3339 v' with
            | ok t' => simp [hp] at hc
            | error msg' =>
              simp only [hp] at hc
              exact Or.inr (Or.inr (Or.inr ⟨Or.inr ⟨he, hr, dur, rfl⟩, rfl, msg', rfl,
                (Except.error.inj hc).symm⟩))
    · cases hq : env.ParseRFC3339 ed with
      | error msg =>
        simp only [he, hq, ne_eq, not_false_eq_true, if_true] at hc
        exact Or.inl ⟨he, msg, rfl, (Except.error.inj hc).symm⟩
      | ok t =>
        simp only [he, hq, ne_eq, not_false_eq_true, if_true] at hc
        cases b'
        · simp at hc
        · cases hp : env.ParseRFC3339 v' with
          | ok t' => simp [hp] at hc
          | error msg' =>
            simp only [hp] at hc
            exact Or.inr (Or.inr (Or.inr ⟨Or.inl ⟨he, t, rfl⟩, rfl, msg', rfl,
              (Except.error.inj hc).symm⟩))

theorem passwordCredential_error_exact (env : Env) (d : ResourceData) (err : Error)
    (hc : PasswordCredentialForResource env d = .error err) :
    ((d.GetOk "key_id").2 = false ∧
      ∃ msg, env.GenerateUUID = .error msg ∧ err = .plain msg) ∨
    (keyIdAvailable env d ∧
      ((d.Get "end_date" ≠ "" ∧
          ∃ msg, env.ParseRFC3339 (d.Get "end_date") = .error msg ∧
            err = .credentialError
              (env.Sprintf "Unable to parse the provided end date %q: %+v"
                [d.Get "end_date", msg]) "end_date") ∨
        (d.Get "end_date" = "" ∧ d.Get "end_date_relative" ≠ "" ∧
          (∃ msg, env.ParseDuration (d.Get "end_date_relative") = .error msg) ∧
            err = .credentialError
              (env.Sprintf "Unable to parse `end_date_relative` (%q) as a duration"
                [d.Get "end_date_relative"]) "end_date_relative") ∨
        (d.Get "end_date" = "" ∧ d.Get "end_date_relative" = "" ∧
          err = .credentialError
            "One of `end_date` or `end_date_relative` must be specified" "end_date") ∨
        (((d.Get "end_date" ≠ "" ∧ ∃ t, env.ParseRFC3339 (d.Get "end_date") = .ok t) ∨
            (d.Get "end_date" = "" ∧ d.Get "end_date_relative" ≠ "" ∧
              ∃ dur, env.ParseDuration (d.Get "end_date_relative") = .ok dur)) ∧
          (d.GetOk "start_date").2 = true ∧
          ∃ msg, env.ParseRFC3339 (d.GetOk "start_date").1 = .error msg ∧
            err = .credentialError
              (env.Sprintf "Unable to parse the provided start date %q: %+v"
                [(d.GetOk "start_date").1, msg]) "start_date"))) := by
  unfold PasswordCredentialForResource at hc
  unfold keyIdAvailable
  rcases hk : d.GetOk "key_id" with ⟨v, b⟩
  rcases hs : d.GetOk "start_date" with ⟨v', b'⟩
  rcases hd' : d.GetOk "description" with ⟨v'', b''⟩
  simp only [hk, hs, hd'] at hc ⊢
  generalize d.Get "end_date" = ed at hc ⊢
  generalize d.Get "end_date_relative" = edr at hc ⊢
  cases b
  · cases hg : env.GenerateUUID with
    | error msg =>
      simp only [hg] at hc
      exact Or.inl ⟨rfl, msg, rfl, (Except.error.inj hc).symm⟩
    | ok kid =>
      simp only [hg] at hc
      refine Or.inr ⟨Or.inr ⟨kid, rfl⟩, ?_⟩
      by_cases he : ed = ""
      · by_cases hr : edr = ""
        · simp only [he, hr, ne_eq, not_true_eq_false, if_false] at hc
          exact Or.inr (Or.inr (Or.inl ⟨he, hr, (Except.error.inj hc).symm⟩))
        · cases hd : env.ParseDuration edr with
          | error msg =>
            simp only [he, hr, hd, ne_eq, not_true_eq_false, not_false_eq_true, if_false,
              if_true] at hc
            exact Or.inr (Or.inl ⟨he, hr, ⟨msg, rfl⟩, (Except.error.inj hc).symm⟩)
          | ok dur =>
            simp only [he, hr, hd, ne_eq, not_true_eq_false, not_false_eq_true, if_false,
              if_true] at hc
            cases b'
            · cases b'' <;> simp at hc
            · cases hp : env.ParseRFC3339 v' with
              | ok t' => cases b'' <;> simp [hp] at hc
              | error msg' =>
                simp only [hp] at hc
                exact Or.inr (Or.inr (Or.inr ⟨Or.inr ⟨he, hr, dur, rfl⟩, rfl, msg', rfl,
                  (Except.error.inj hc).symm⟩))
      · cases hq : env.ParseRFC3339 ed with
        | error msg =>
          simp only [he, hq, ne_eq, not_false_eq_true, if_true] at hc
          exact Or.inl ⟨he, msg, rfl, (Except.error.inj hc).symm⟩
        | ok t =>
          simp only [he, hq, ne_eq, not_false_eq_true, if_true] at hc
          cases b'
          · cases b'' <;> simp at hc
          · cases hp : env.ParseRFC3339 v' with
            | ok t' => cases b'' <;> simp [hp] at hc
            | error msg' =>
              simp only [hp] at hc
              exact Or.inr (Or.inr (Or.inr ⟨Or.inl ⟨he, t, rfl⟩, rfl, msg', rfl,
                (Except.error.inj hc).symm⟩))
  · simp only at hc
    refine Or.inr ⟨Or.inl rfl, ?_⟩
    by_cases he : ed = ""
    · by_cases hr : edr = ""
      · simp only [he, hr, ne_eq, not_true_eq_false, if_false] at hc
        exact Or.inr (Or.inr (Or.inl ⟨he, hr, (Except.error.inj hc).symm⟩))
      · cases hd : env.ParseDuration edr with
        | error msg =>
          simp only [he, hr, hd, ne_eq, not_true_eq_false, not_false_eq_true, if_false,
            if_true] at hc
          exact Or.inr (Or.inl ⟨he, hr, ⟨msg, rfl⟩, (Except.error.inj hc).symm⟩)
        | ok dur =>
          simp only [he, hr, hd, ne_eq, not_true_eq_false, not_false_eq_true, if_false,
            if_true] at hc
          cases b'
          · cases b'' <;> simp at hc
          · cases hp : env.ParseRFC3339 v' with
            | ok t' => cases b'' <;> simp [hp] at hc
            | error msg' =>
              simp only [hp] at hc
              exact Or.inr (Or.inr (Or.inr ⟨Or.inr ⟨he, hr, dur, rfl⟩, rfl, msg', rfl,
                (Except.error.inj hc).symm⟩))
    · cases hq : env.ParseRFC3339 ed with
      | error msg =>
        simp only [he, hq, ne_eq, not_false_eq_true, if_true] at hc
        exact Or.inl ⟨he, msg, rfl, (Except.error.inj hc).symm⟩
      | ok t =>
        simp only [he, hq, ne_eq, not_false_eq_true, if_true] at hc
        cases b'
        · cases b'' <;> simp at hc
        · cases hp : env.ParseRFC3339 v' with
          | ok t' => cases b'' <;> simp [hp] at hc
          | error msg' =>
            simp only [hp] at hc
            exact Or.inr (Or.inr (Or.inr ⟨Or.inl ⟨he, t, rfl⟩, rfl, msg', rfl,
              (Except.error.inj hc).symm⟩))

/-- C6 (counterexample): with no `key_id` configured and a failing key generator, the
builder returns the generator's plain error, which is not a `CredentialError`, and the
create operation attributes its diagnostic to the empty path. -/
theorem builder_error_without_field_name :
    ¬ (∀ (env : Env) (d : ResourceData) (err : Error),
        KeyCredentialForResource env d = .error err →
        ∃ attr, err.asCredentialError = some attr ∧ attr ∈ credentialErrorAttrs) ∧
    (applicationCertificateResourceCreateMsGraph failingUUIDEnv sampleApplications
        (World.init []) emptyConfig).1
      = [.ErrorDiagPathF (some (.plain "entropy")) ""
          "Generating certificate credentials for application with object ID %q" [""]] := by
  refine ⟨?_, rfl⟩
  intro h
  obtain ⟨attr, ha, _⟩ := h failingUUIDEnv emptyConfig (.plain "entropy") rfl
  simp [Error.asCredentialError] at ha

/-- C6 (amended): whenever a builder fails, the error is a `CredentialError` carrying the
name of the offending field, except when no `key_id` is configured and the key generator
fails, in which case it is the generator's own error. The field is `end_date` when
`end_date` is set and does not parse, `end_date_relative` when `end_date` is unset and
`end_date_relative` is set and does not parse as a duration, `end_date` when both are
unset, and `start_date` when the end date was resolved and `start_date` is set and does
not parse. The create operations return one diagnostic carrying that error, attributed to
the `CredentialError` field when there is one and to the empty path otherwise. -/
theorem builder_error_is_attributed_or_generator (env : Env) (d : ResourceData) :
    (∀ err, KeyCredentialForResource env d = .error err →
      ((d.GetOk "key_id").2 = false ∧
        ∃ msg, env.GenerateUUID = .error msg ∧ err = .plain msg) ∨
      (keyIdAvailable env d ∧
        ((d.Get "end_date" ≠ "" ∧
            ∃ msg, env.ParseRFC3339 (d.Get "end_date") = .error msg ∧
              err = .credentialError
                (env.Sprintf "Unable to parse the provided end date %q: %+v"
                  [d.Get "end_date", msg]) "end_date") ∨
          (d.Get "end_date" = "" ∧ d.Get "end_date_relative" ≠ "" ∧
            (∃ msg, env.ParseDuration (d.Get "end_date_relative") = .error msg) ∧
              err = .credentialError
                (env.Sprintf "Unable to parse `end_date_relative` (%q) as a duration"
                  [d.Get "end_date_relative"]) "end_date_relative") ∨
          (d.Get "end_date" = "" ∧ d.Get "end_date_relative" = "" ∧
            err = .credentialError
              "One of `end_date` or `end_date_relative` must be specified" "end_date") ∨
          (((d.Get "end_date" ≠ "" ∧ ∃ t, env.ParseRFC3339 (d.Get "end_date") = .ok t) ∨
              (d.Get "end_date" = "" ∧ d.Get "end_date_relative" ≠ "" ∧
                ∃ dur, env.ParseDuration (d.Get "end_date_relative") = .ok dur)) ∧
            (d.GetOk "start_date").2 = true ∧
            ∃ msg, env.ParseRFC3339 (d.GetOk "start_date").1 = .error msg ∧
              err = .credentialError
                (env.Sprintf "Unable to parse the provided start date %q: %+v"
                  [(d.GetOk "start_date").1, msg]) "start_date")))) ∧
    (∀ err, PasswordCredentialForResource env d = .error err →
      ((d.GetOk "key_id").2 = false ∧
        ∃ msg, env.GenerateUUID = .error msg ∧ err = .plain msg) ∨
      (keyIdAvailable env d ∧
        ((d.Get "end_date" ≠ "" ∧
            ∃ msg, env.ParseRFC3339 (d.Get "end_date") = .error msg ∧
              err = .credentialError
                (env.Sprintf "Unable to parse the provided end date %q: %+v"
                  [d.Get "end_date", msg]) "end_date") ∨
          (d.Get "end_date" = "" ∧ d.Get "end_date_relative" ≠ "" ∧
            (∃ msg, env.ParseDuration (d.Get "end_date_relative") = .error msg) ∧
              err = .credentialError
                (env.Sprintf "Unable to parse `end_date_relative` (%q) as a duration"
                  [d.Get "end_date_relative"]) "end_date_relative") ∨
          (d.Get "end_date" = "" ∧ d.Get "end_date_relative" = "" ∧
            err = .credentialError
              "One of `end_date` or `end_date_relative` must be specified" "end_date") ∨
          (((d.Get "end_date" ≠ "" ∧ ∃ t, env.ParseRFC3339 (d.Get "end_date") = .ok t) ∨
              (d.Get "end_date" = "" ∧ d.Get "end_date_relative" ≠ "" ∧
                ∃ dur, env.ParseDuration (d.Get "end_date_relative") = .ok dur)) ∧
            (d.GetOk "start_date").2 = true ∧
            ∃ msg, env.ParseRFC3339 (d.GetOk "start_date").1 = .error msg ∧
              err = .credentialError
                (env.Sprintf "Unable to parse the provided start date %q: %+v"
                  [(d.GetOk "start_date").1, msg]) "start_date")))) ∧
    (∀ (σ : Type) (client : ApplicationsClient σ) (w : World σ) (err : Error),
      KeyCredentialForResource env d = .error err →
      applicationCertificateResourceCreateMsGraph env client w d
        = ([.ErrorDiagPathF (some err) (err.asCredentialError.getD "")
              "Generating certificate credentials for application with object ID %q"
              [d.Get "application_object_id"]], d, w)) ∧
    (∀ (σ : Type) (client : ServicePrincipalsClient σ) (w : World σ) (err : Error),
      PasswordCredentialForResource env d = .error err →
      servicePrincipalPasswordResourceCreateMsGraph env client w d
        = ([.ErrorDiagPathF (some err) (err.asCredentialError.getD "")
              "Generating password credentials for service principal with object ID %q"
              [d.Get "service_principal_id"]], d, w)) := by
  refine ⟨?_, ?_, ?_, ?_⟩
  · exact fun err hc => keyCredential_error_exact env d err hc
  · exact fun err hc => passwordCredential_error_exact env d err hc
  · intro σ client w err hc
    unfold applicationCertificateResourceCreateMsGraph
    rw [hc]
    cases err <;> rfl
  · intro σ client w err hc
    unfold servicePrincipalPasswordResourceCreateMsGraph
    rw [hc]
    cases err <;> rfl

/-- Witness of C6 (amended): with `end_date` unset and an `end_date_relative` that is not a
duration, the certificate create attributes its diagnostic to `end_date_relative`; with a
valid `end_date` and a `start_date` that does not parse, the password create attributes
its diagnostic to `start_date`. -/
theorem builder_error_is_attributed_or_generator_witness :
    applicationCertificateResourceCreateMsGraph sampleEnv sampleApplications (World.init [])
        { id := "", fields := [("end_date_relative", "soon")] } =
      ([.ErrorDiagPathF
          (some (.credentialError
            (sampleEnv.Sprintf "Unable to parse `end_date_relative` (%q) as a duration"
              ["soon"]) "end_date_relative"))
          "end_date_relative"
          "Generating certificate credentials for application with object ID %q" [""]],
        { id := "", fields := [("end_date_relative", "soon")] }, World.init []) ∧
    servicePrincipalPasswordResourceCreateMsGraph sampleEnv sampleServicePrincipals
        (World.init [])
        { id := "", fields := [("end_date", "2030-01-01T00:00:00Z"),
          ("start_date", "yesterday")] } =
      ([.ErrorDiagPathF
          (some (.credentialError
            (sampleEnv.Sprintf "Unable to parse the provided start date %q: %+v"
              ["yesterday", "parse"]) "start_date"))
          "start_date"
          "Generating password credentials for service principal with object ID %q" [""]],
        { id := "", fields := [("end_date", "2030-01-01T00:00:00Z"),
          ("start_date", "yesterday")] }, World.init []) :=
  ⟨(builder_error_is_attributed_or_generator sampleEnv
      { id := "", fields := [("end_date_relative", "soon")] }).2.2.1 _ sampleApplications
      (World.init [])
      (.credentialError
        (sampleEnv.Sprintf "Unable to parse `end_date_relative` (%q) as a duration" ["soon"])
        "end_date_relative") rfl,
    (builder_error_is_attributed_or_generator sampleEnv
      { id := "", fields := [("end_date", "2030-01-01T00:00:00Z"),
        ("start_date", "yesterday")] }).2.2.2 _ sampleServicePrincipals (World.init [])
      (.credentialError
        (sampleEnv.Sprintf "Unable to parse the provided start date %q: %+v"
          ["yesterday", "parse"]) "start_date") rfl⟩

/-! ## The loops -/

theorem keyIdEq_iff (k : Option String) (keyId : String) :
    keyIdEq k keyId = true ↔ k = some keyId := by
  cases k <;> simp [keyIdEq]

theorem keyIdNe_iff (k : Option String) (keyId : String) :
    keyIdNe k keyId = true ↔ ∃ v, k = some v ∧ v ≠ keyId := by
  cases k <;> simp [keyIdNe]

theorem createLoop_eq {α : Type} (keyOf : α → Option String) (keyId : String)
    (creds acc : List α) :
    createLoop keyOf keyId creds acc =
      if creds.any (fun c => keyIdEq (keyOf c) keyId) then none else some (acc ++ creds) := by
  induction creds generalizing acc with
  | nil => simp [createLoop]
  | cons c rest ih =>
    by_cases h : keyIdEq (keyOf c) keyId = true
    · simp [createLoop, h]
    · simp [createLoop, h, ih]

theorem deleteLoop_eq {α : Type} (keyOf : α → Option String) (keyId : String)
    (creds acc : List α) :
    deleteLoop keyOf keyId creds acc =
      acc ++ creds.filter (fun c => keyIdNe (keyOf c) keyId) := by
  induction creds generalizing acc with
  | nil => simp [deleteLoop]
  | cons c rest ih =>
    by_cases h : keyIdNe (keyOf c) keyId = true
    · simp [deleteLoop, h, ih]
    · simp [deleteLoop, h, ih]

theorem readLoop_eq {α : Type} (keyOf : α → Option String) (keyId : String)
    (creds : List α) :
    readLoop keyOf keyId creds = creds.find? (fun c => keyIdEq (keyOf c) keyId) := by
  induction creds with
  | nil => simp [readLoop]
  | cons c rest ih =>
    by_cases h : keyIdEq (keyOf c) keyId = true
    · simp [readLoop, h]
    · simp [readLoop, h, ih]

/-! ## Create on a collection that already holds the key identifier -/

/-- C1: when the fetched collection holds an element whose key identifier equals that of
the credential being created, both creates return the import-as-exists diagnostic; the
calls they make are the lock, the fetch and the unlock, so `client.Update` is never
called, the remote is in the state the fetch left it in and the resource data is
untouched. -/
theorem create_on_existing_key_is_import_as_exists (env : Env) {σ τ : Type}
    (apps : ApplicationsClient σ) (sps : ServicePrincipalsClient τ) :
    (∀ (w : World σ) (d : ResourceData) (credential : KeyCredential) (app : Application)
        (status : Nat) (s : σ) (creds : List KeyCredential),
      KeyCredentialForResource env d = .ok credential →
      apps.Get w.remote (d.Get "application_object_id") = (.ok app status, s) →
      app.KeyCredentials = some creds →
      (∃ cred ∈ creds, cred.KeyId = credential.KeyId) →
      applicationCertificateResourceCreateMsGraph env apps w d =
        ([.ImportAsExistsDiag "azuread_application_certificate"
            (env.CredentialIdString (NewCredentialID (d.Get "application_object_id")
              "certificate" (credential.KeyId.getD "")))], d,
          { remote := s, held := w.held,
            calls := w.calls ++ [.LockByName env.applicationResourceName
                (d.Get "application_object_id"),
              .GetApplication (d.Get "application_object_id"),
              .UnlockByName env.applicationResourceName
                (d.Get "application_object_id")] })) ∧
    (∀ (w : World τ) (d : ResourceData) (credential : PasswordCredential)
        (sp : ServicePrincipal) (status : Nat) (s : τ) (creds : List PasswordCredential),
      PasswordCredentialForResource env d = .ok credential →
      sps.Get w.remote (d.Get "service_principal_id") = (.ok sp status, s) →
      sp.PasswordCredentials = some creds →
      (∃ cred ∈ creds, cred.KeyId = credential.KeyId) →
      servicePrincipalPasswordResourceCreateMsGraph env sps w d =
        ([.ImportAsExistsDiag "azuread_service_principal_password"
            (env.CredentialIdString (NewCredentialID (d.Get "service_principal_id")
              "password" (credential.KeyId.getD "")))], d,
          { remote := s, held := w.held,
            calls := w.calls ++ [.LockByName env.servicePrincipalResourceName
                (d.Get "service_principal_id"),
              .GetServicePrincipal (d.Get "service_principal_id"),
              .UnlockByName env.servicePrincipalResourceName
                (d.Get "service_principal_id")] })) := by
  constructor
  · intro w d credential app status s creds hb hget hcreds hmem
    obtain ⟨k, hk⟩ := keyCredential_keyId_isSome env d credential hb
    have hany : creds.any (fun c => keyIdEq (KeyCredential.KeyId c) k) = true := by
      obtain ⟨cred, hc, hck⟩ := hmem
      rw [List.any_eq_true]
      exact ⟨cred, hc, (keyIdEq_iff _ _).2 (hck.trans hk)⟩
    unfold applicationCertificateResourceCreateMsGraph
    simp [hb, hk, LockByName, UnlockByName, NewCredentialID, hget, hcreds, createLoop_eq, hany,
      World.record]
  · intro w d credential sp status s creds hb hget hcreds hmem
    obtain ⟨k, hk⟩ := passwordCredential_keyId_isSome env d credential hb
    have hany : creds.any (fun c => keyIdEq (PasswordCredential.KeyId c) k) = true := by
      obtain ⟨cred, hc, hck⟩ := hmem
      rw [List.any_eq_true]
      exact ⟨cred, hc, (keyIdEq_iff _ _).2 (hck.trans hk)⟩
    unfold servicePrincipalPasswordResourceCreateMsGraph
    simp [hb, hk, LockByName, UnlockByName, NewCredentialID, hget, hcreds, createLoop_eq, hany,
      World.record]

/-- Witness of C1: `app1` and `sp1` already hold key identifier `k1`. -/
theorem create_on_existing_key_is_import_as_exists_witness :
    applicationCertificateResourceCreateMsGraph sampleEnv sampleApplications
        (World.init [app1 (some [keyCred (some "k0"), keyCred (some "k1")])]) certConfig =
      ([.ImportAsExistsDiag "azuread_application_certificate"
          (sampleEnv.CredentialIdString (NewCredentialID (certConfig.Get "application_object_id")
            "certificate" (certConfigCredential.KeyId.getD "")))],
        certConfig,
        { remote := [app1 (some [keyCred (some "k0"), keyCred (some "k1")])],
          held := (World.init [app1 (some [keyCred (some "k0"), keyCred (some "k1")])]).held,
          calls := (World.init [app1 (some [keyCred (some "k0"), keyCred (some "k1")])]).calls ++
            [.LockByName sampleEnv.applicationResourceName
              (certConfig.Get "application_object_id"),
            .GetApplication (certConfig.Get "application_object_id"),
            .UnlockByName sampleEnv.applicationResourceName
              (certConfig.Get "application_object_id")] }) ∧
    servicePrincipalPasswordResourceCreateMsGraph sampleEnv sampleServicePrincipals
        (World.init [sp1 (some [passwordCred (some "k1")])]) passwordConfig =
      ([.ImportAsExistsDiag "azuread_service_principal_password"
          (sampleEnv.CredentialIdString (NewCredentialID
            (passwordConfig.Get "service_principal_id") "password"
            (passwordConfigCredential.KeyId.getD "")))],
        passwordConfig,
        { remote := [sp1 (some [passwordCred (some "k1")])],
          held := (World.init [sp1 (some [passwordCred (some "k1")])]).held,
          calls := (World.init [sp1 (some [passwordCred (some "k1")])]).calls ++
            [.LockByName sampleEnv.servicePrincipalResourceName
              (passwordConfig.Get "service_principal_id"),
            .GetServicePrincipal (passwordConfig.Get "service_principal_id"),
            .UnlockByName sampleEnv.servicePrincipalResourceName
              (passwordConfig.Get "service_principal_id")] }) :=
  ⟨(create_on_existing_key_is_import_as_exists sampleEnv sampleApplications
      sampleServicePrincipals).1
      (World.init [app1 (some [keyCred (some "k0"), keyCred (some "k1")])]) certConfig
      certConfigCredential (app1 (some [keyCred (some "k0"), keyCred (some "k1")])) 200
      [app1 (some [keyCred (some "k0"), keyCred (some "k1")])]
      [keyCred (some "k0"), keyCred (some "k1")] rfl rfl rfl
      ⟨keyCred (some "k1"), by simp, rfl⟩,
    (create_on_existing_key_is_import_as_exists sampleEnv sampleApplications
      sampleServicePrincipals).2
      (World.init [sp1 (some [passwordCred (some "k1")])]) passwordConfig
      passwordConfigCredential (sp1 (some [passwordCred (some "k1")])) 200
      [sp1 (some [passwordCred (some "k1")])]
      [passwordCred (some "k1")] rfl rfl rfl
      ⟨passwordCred (some "k1"), by simp, rfl⟩⟩

/-! ## Delete of an absent key, read with a missing parent -/

/-- C2 (failing input): deleting the absent key identifier `zzz` from a collection that
holds an element with a nil key identifier returns no error but writes back the
collection without that element, so the write-back differs from the fetched collection. -/
theorem delete_of_absent_key_drops_nil_keyed :
    (applicationCertificateResourceDeleteMsGraph sampleEnv sampleApplications
        (World.init [app1 (some [keyCred none, keyCred (some "k2")])])
        { id := "app1/certificate/zzz", fields := [] }).1 = [] ∧
    (applicationCertificateResourceDeleteMsGraph sampleEnv sampleApplications
        (World.init [app1 (some [keyCred none, keyCred (some "k2")])])
        { id := "app1/certificate/zzz", fields := [] }).2.2.calls =
      [.LockByName "azuread_application" "app1", .GetApplication "app1",
        .UpdateApplication (app1 (some [keyCred (some "k2")])),
        .UnlockByName "azuread_application" "app1"] ∧
    (servicePrincipalPasswordResourceDeleteMsGraph sampleEnv sampleServicePrincipals
        (World.init [sp1 (some [passwordCred none, passwordCred (some "k2")])])
        { id := "sp1/password/zzz", fields := [] }).1 = [] ∧
    (servicePrincipalPasswordResourceDeleteMsGraph sampleEnv sampleServicePrincipals
        (World.init [sp1 (some [passwordCred none, passwordCred (some "k2")])])
        { id := "sp1/password/zzz", fields := [] }).2.2.calls =
      [.LockByName "azuread_service_principal" "sp1", .GetServicePrincipal "sp1",
        .UpdateServicePrincipal (sp1 (some [passwordCred (some "k2")])),
        .UnlockByName "azuread_service_principal" "sp1"] :=
  ⟨rfl, rfl, rfl, rfl⟩

/-- C3 (failing input): with a well-formed tracked identity and a parent fetch that
answers 404, both reads return the "was not found" error diagnostic and leave the
resource ID as it was. -/
theorem read_with_missing_parent_returns_error :
    applicationCertificateResourceReadMsGraph sampleEnv (failingApplications 404)
        (World.init ()) { id := "app1/certificate/k1", fields := [] } =
      ([.ErrorDiagPathF none "application_object_id"
          "Application with object ID %q was not found" ["app1"]],
        { id := "app1/certificate/k1", fields := [] },
        { remote := (), held := [], calls := [.GetApplication "app1"] }) ∧
    servicePrincipalPasswordResourceReadMsGraph sampleEnv (failingServicePrincipals 404)
        (World.init ()) { id := "sp1/password/k1", fields := [] } =
      ([.ErrorDiagPathF none "service_principal_id"
          "Service principal with object ID %q was not found" ["sp1"]],
        { id := "sp1/password/k1", fields := [] },
        { remote := (), held := [], calls := [.GetServicePrincipal "sp1"] }) :=
  ⟨rfl, rfl⟩

/-! ## Calls made by the reads -/

theorem certificateRead_calls {σ : Type} (env : Env) (apps : ApplicationsClient σ)
    (w : World σ) (d : ResourceData) :
    (applicationCertificateResourceReadMsGraph env apps w d).2.2.held = w.held ∧
    ∃ l, (applicationCertificateResourceReadMsGraph env apps w d).2.2.calls = w.calls ++ l ∧
      ∀ c ∈ l, c.isUpdate = false := by
  unfold applicationCertificateResourceReadMsGraph
  cases hp : env.CertificateID d.Id with
  | error e => exact ⟨rfl, [], by simp, by simp⟩
  | ok id =>
    rcases hg : apps.Get w.remote id.ObjectId with ⟨res, s⟩
    cases res with
    | fail status err =>
      simp only [hg]
      split
      · exact ⟨rfl, [.GetApplication id.ObjectId], rfl, by simp [Call.isUpdate]⟩
      · exact ⟨rfl, [.GetApplication id.ObjectId], rfl, by simp [Call.isUpdate]⟩
    | ok app status =>
      simp only [hg]
      split
      · exact ⟨rfl, [.GetApplication id.ObjectId], rfl, by simp [Call.isUpdate]⟩
      · exact ⟨rfl, [.GetApplication id.ObjectId], rfl, by simp [Call.isUpdate]⟩

theorem passwordRead_calls {τ : Type} (env : Env) (sps : ServicePrincipalsClient τ)
    (w : World τ) (d : ResourceData) :
    (servicePrincipalPasswordResourceReadMsGraph env sps w d).2.2.held = w.held ∧
    ∃ l, (servicePrincipalPasswordResourceReadMsGraph env sps w d).2.2.calls = w.calls ++ l ∧
      ∀ c ∈ l, c.isUpdate = false := by
  unfold servicePrincipalPasswordResourceReadMsGraph
  cases hp : env.PasswordID d.Id with
  | error e => exact ⟨rfl, [], by simp, by simp⟩
  | ok id =>
    rcases hg : sps.Get w.remote id.ObjectId with ⟨res, s⟩
    cases res with
    | fail status err =>
      simp only [hg]
      split
      · exact ⟨rfl, [.GetServicePrincipal id.ObjectId], rfl, by simp [Call.isUpdate]⟩
      · exact ⟨rfl, [.GetServicePrincipal id.ObjectId], rfl, by simp [Call.isUpdate]⟩
    | ok sp status =>
      simp only [hg]
      split
      · exact ⟨rfl, [.GetServicePrincipal id.ObjectId], rfl, by simp [Call.isUpdate]⟩
      · exact ⟨rfl, [.GetServicePrincipal id.ObjectId], rfl, by simp [Call.isUpdate]⟩

/-! ## Create without a key collision -/

theorem certificateCreate_of_update_ok {σ : Type} (env : Env) (apps : ApplicationsClient σ)
    (w : World σ) (d : ResourceData) (credential : KeyCredential) (app : Application)
    (status : Nat) (s s' : σ)
    (hb : KeyCredentialForResource env d = .ok credential)
    (hget : apps.Get w.remote (d.Get "application_object_id") = (.ok app status, s))
    (hno : ∀ cred ∈ app.KeyCredentials.getD [], ¬ cred.KeyId = credential.KeyId)
    (hupd : apps.Update s (Application.mk (some (d.Get "application_object_id"))
      (some (app.KeyCredentials.getD [] ++ [credential]))) = (none, s')) :
    let r := applicationCertificateResourceReadMsGraph env apps
      { remote := s',
        held := (env.applicationResourceName, d.Get "application_object_id") :: w.held,
        calls := w.calls ++ [.LockByName env.applicationResourceName
            (d.Get "application_object_id"),
          .GetApplication (d.Get "application_object_id"),
          .UpdateApplication (Application.mk (some (d.Get "application_object_id"))
            (some (app.KeyCredentials.getD [] ++ [credential])))] }
      (d.SetId (env.CredentialIdString (NewCredentialID (d.Get "application_object_id")
        "certificate" (credential.KeyId.getD ""))))
    applicationCertificateResourceCreateMsGraph env apps w d =
        (r.1, r.2.1, UnlockByName r.2.2 env.applicationResourceName
          (d.Get "application_object_id")) ∧
    ((applicationCertificateResourceCreateMsGraph env apps w d).2.2.callsSince w).filter
        Call.isUpdate =
      [.UpdateApplication (Application.mk (some (d.Get "application_object_id"))
        (some (app.KeyCredentials.getD [] ++ [credential])))] := by
  intro r
  obtain ⟨k, hk⟩ := keyCredential_keyId_isSome env d credential hb
  have hany : (app.KeyCredentials.getD []).any (fun c => keyIdEq (KeyCredential.KeyId c) k)
      = false := by
    rw [Bool.eq_false_iff]
    intro h
    rw [List.any_eq_true] at h
    obtain ⟨cred, hc, hck⟩ := h
    exact hno cred hc (((keyIdEq_iff _ _).1 hck).trans hk.symm)
  have hcreate : applicationCertificateResourceCreateMsGraph env apps w d =
        (r.1, r.2.1, UnlockByName r.2.2 env.applicationResourceName
          (d.Get "application_object_id")) := by
    unfold applicationCertificateResourceCreateMsGraph
    cases hkc : app.KeyCredentials with
    | none =>
      simp only [hkc, Option.getD, List.nil_append] at hupd hany
      simp [r, hb, hk, LockByName, NewCredentialID, hget, hkc, World.record, hupd]
    | some creds =>
      simp only [hkc, Option.getD] at hupd hany
      simp [r, hb, hk, LockByName, NewCredentialID, hget, hkc, World.record, hupd,
        createLoop_eq, hany]
  refine ⟨hcreate, ?_⟩
  rw [hcreate]
  obtain ⟨_, l, hl, hlu⟩ := certificateRead_calls env apps
      { remote := s',
        held := (env.applicationResourceName, d.Get "application_object_id") :: w.held,
        calls := w.calls ++ [.LockByName env.applicationResourceName
            (d.Get "application_object_id"),
          .GetApplication (d.Get "application_object_id"),
          .UpdateApplication (Application.mk (some (d.Get "application_object_id"))
            (some (app.KeyCredentials.getD [] ++ [credential])))] }
      (d.SetId (env.CredentialIdString (NewCredentialID (d.Get "application_object_id")
        "certificate" (credential.KeyId.getD ""))))
  have hf : l.filter Call.isUpdate = [] := by
    rw [List.filter_eq_nil_iff]
    intro c hc
    simp [hlu c hc]
  simp only [World.callsSince, UnlockByName, r, hl]
  simp [List.filter_append, hf, Call.isUpdate]

theorem passwordCreate_of_update_ok {τ : Type} (env : Env) (sps : ServicePrincipalsClient τ)
    (w : World τ) (d : ResourceData) (credential : PasswordCredential)
    (sp : ServicePrincipal) (status : Nat) (s s' : τ)
    (hb : PasswordCredentialForResource env d = .ok credential)
    (hget : sps.Get w.remote (d.Get "service_principal_id") = (.ok sp status, s))
    (hno : ∀ cred ∈ sp.PasswordCredentials.getD [], ¬ cred.KeyId = credential.KeyId)
    (hupd : sps.Update s (ServicePrincipal.mk (some (d.Get "service_principal_id"))
      (some (sp.PasswordCredentials.getD [] ++ [credential]))) = (none, s')) :
    let r := servicePrincipalPasswordResourceReadMsGraph env sps
      { remote := s',
        held := (env.servicePrincipalResourceName, d.Get "service_principal_id") :: w.held,
        calls := w.calls ++ [.LockByName env.servicePrincipalResourceName
            (d.Get "service_principal_id"),
          .GetServicePrincipal (d.Get "service_principal_id"),
          .UpdateServicePrincipal (ServicePrincipal.mk (some (d.Get "service_principal_id"))
            (some (sp.PasswordCredentials.getD [] ++ [credential])))] }
      (d.SetId (env.CredentialIdString (NewCredentialID (d.Get "service_principal_id")
        "password" (credential.KeyId.getD ""))))
    servicePrincipalPasswordResourceCreateMsGraph env sps w d =
        (r.1, r.2.1, UnlockByName r.2.2 env.servicePrincipalResourceName
          (d.Get "service_principal_id")) ∧
    ((servicePrincipalPasswordResourceCreateMsGraph env sps w d).2.2.callsSince w).filter
        Call.isUpdate =
      [.UpdateServicePrincipal (ServicePrincipal.mk (some (d.Get "service_principal_id"))
        (some (sp.PasswordCredentials.getD [] ++ [credential])))] := by
  intro r
  obtain ⟨k, hk⟩ := passwordCredential_keyId_isSome env d credential hb
  have hany : (sp.PasswordCredentials.getD []).any
      (fun c => keyIdEq (PasswordCredential.KeyId c) k) = false := by
    rw [Bool.eq_false_iff]
    intro h
    rw [List.any_eq_true] at h
    obtain ⟨cred, hc, hck⟩ := h
    exact hno cred hc (((keyIdEq_iff _ _).1 hck).trans hk.symm)
  have hcreate : servicePrincipalPasswordResourceCreateMsGraph env sps w d =
        (r.1, r.2.1, UnlockByName r.2.2 env.servicePrincipalResourceName
          (d.Get "service_principal_id")) := by
    unfold servicePrincipalPasswordResourceCreateMsGraph
    cases hkc : sp.PasswordCredentials with
    | none =>
      simp only [hkc, Option.getD, List.nil_append] at hupd hany
      simp [r, hb, hk, LockByName, NewCredentialID, hget, hkc, World.record, hupd]
    | some creds =>
      simp only [hkc, Option.getD] at hupd hany
      simp [r, hb, hk, LockByName, NewCredentialID, hget, hkc, World.record, hupd,
        createLoop_eq, hany]
  refine ⟨hcreate, ?_⟩
  rw [hcreate]
  obtain ⟨_, l, hl, hlu⟩ := passwordRead_calls env sps
      { remote := s',
        held := (env.servicePrincipalResourceName, d.Get "service_principal_id") :: w.held,
        calls := w.calls ++ [.LockByName env.servicePrincipalResourceName
            (d.Get "service_principal_id"),
          .GetServicePrincipal (d.Get "service_principal_id"),
          .UpdateServicePrincipal (ServicePrincipal.mk (some (d.Get "service_principal_id"))
            (some (sp.PasswordCredentials.getD [] ++ [credential])))] }
      (d.SetId (env.CredentialIdString (NewCredentialID (d.Get "service_principal_id")
        "password" (credential.KeyId.getD ""))))
  have hf : l.filter Call.isUpdate = [] := by
    rw [List.filter_eq_nil_iff]
    intro c hc
    simp [hlu c hc]
  simp only [World.callsSince, UnlockByName, r, hl]
  simp [List.filter_append, hf, Call.isUpdate]

/-- C7: when no fetched element carries the new credential's key identifier and the
write-back succeeds, create is: lock, fetch, one `client.Update` whose collection is the
fetched elements in order (nil-keyed ones included) followed by the new credential, then
the read-back started from the resource data whose ID is the composite identity of the
parent object ID, the kind and the credential's key identifier, then unlock. Among the
calls create makes, that `Update` is the only one. -/
theorem create_appends_and_sets_composite_id (env : Env) {σ τ : Type}
    (apps : ApplicationsClient σ) (sps : ServicePrincipalsClient τ) :
    (∀ (w : World σ) (d : ResourceData) (credential : KeyCredential) (app : Application)
        (status : Nat) (s s' : σ),
      KeyCredentialForResource env d = .ok credential →
      apps.Get w.remote (d.Get "application_object_id") = (.ok app status, s) →
      (∀ cred ∈ app.KeyCredentials.getD [], ¬ cred.KeyId = credential.KeyId) →
      apps.Update s (Application.mk (some (d.Get "application_object_id"))
        (some (app.KeyCredentials.getD [] ++ [credential]))) = (none, s') →
      let r := applicationCertificateResourceReadMsGraph env apps
        { remote := s',
          held := (env.applicationResourceName, d.Get "application_object_id") :: w.held,
          calls := w.calls ++ [.LockByName env.applicationResourceName
              (d.Get "application_object_id"),
            .GetApplication (d.Get "application_object_id"),
            .UpdateApplication (Application.mk (some (d.Get "application_object_id"))
              (some (app.KeyCredentials.getD [] ++ [credential])))] }
        (d.SetId (env.CredentialIdString (NewCredentialID (d.Get "application_object_id")
          "certificate" (credential.KeyId.getD ""))))
      applicationCertificateResourceCreateMsGraph env apps w d =
          (r.1, r.2.1, UnlockByName r.2.2 env.applicationResourceName
            (d.Get "application_object_id")) ∧
      ((applicationCertificateResourceCreateMsGraph env apps w d).2.2.callsSince w).filter
          Call.isUpdate =
        [.UpdateApplication (Application.mk (some (d.Get "application_object_id"))
          (some (app.KeyCredentials.getD [] ++ [credential])))]) ∧
    (∀ (w : World τ) (d : ResourceData) (credential : PasswordCredential)
        (sp : ServicePrincipal) (status : Nat) (s s' : τ),
      PasswordCredentialForResource env d = .ok credential →
      sps.Get w.remote (d.Get "service_principal_id") = (.ok sp status, s) →
      (∀ cred ∈ sp.PasswordCredentials.getD [], ¬ cred.KeyId = credential.KeyId) →
      sps.Update s (ServicePrincipal.mk (some (d.Get "service_principal_id"))
        (some (sp.PasswordCredentials.getD [] ++ [credential]))) = (none, s') →
      let r := servicePrincipalPasswordResourceReadMsGraph env sps
        { remote := s',
          held := (env.servicePrincipalResourceName, d.Get "service_principal_id") :: w.held,
          calls := w.calls ++ [.LockByName env.servicePrincipalResourceName
              (d.Get "service_principal_id"),
            .GetServicePrincipal (d.Get "service_principal_id"),
            .UpdateServicePrincipal (ServicePrincipal.mk (some (d.Get "service_principal_id"))
              (some (sp.PasswordCredentials.getD [] ++ [credential])))] }
        (d.SetId (env.CredentialIdString (NewCredentialID (d.Get "service_principal_id")
          "password" (credential.KeyId.getD ""))))
      servicePrincipalPasswordResourceCreateMsGraph env sps w d =
          (r.1, r.2.1, UnlockByName r.2.2 env.servicePrincipalResourceName
            (d.Get "service_principal_id")) ∧
      ((servicePrincipalPasswordResourceCreateMsGraph env sps w d).2.2.callsSince w).filter
          Call.isUpdate =
        [.UpdateServicePrincipal (ServicePrincipal.mk (some (d.Get "service_principal_id"))
          (some (sp.PasswordCredentials.getD [] ++ [credential])))]) :=
  ⟨fun w d credential app status s s' hb hget hno hupd =>
      certificateCreate_of_update_ok env apps w d credential app status s s' hb hget hno hupd,
    fun w d credential sp status s s' hb hget hno hupd =>
      passwordCreate_of_update_ok env sps w d credential sp status s s' hb hget hno hupd⟩

/-- Witness of C7: `app1` holds a nil-keyed element and `k2`, `sp1` has a nil collection;
the key identifier `k1` is new to both. -/
theorem create_appends_and_sets_composite_id_witness :
    ((applicationCertificateResourceCreateMsGraph sampleEnv sampleApplications
        (World.init [app1 (some [keyCred none, keyCred (some "k2")])])
        certConfig).2.2.callsSince
          (World.init [app1 (some [keyCred none, keyCred (some "k2")])])).filter
        Call.isUpdate =
      [.UpdateApplication (Application.mk (some (certConfig.Get "application_object_id"))
        (some ((app1 (some [keyCred none, keyCred (some "k2")])).KeyCredentials.getD [] ++
          [certConfigCredential])))] ∧
    ((servicePrincipalPasswordResourceCreateMsGraph sampleEnv sampleServicePrincipals
        (World.init [sp1 none]) passwordConfig).2.2.callsSince
          (World.init [sp1 none])).filter Call.isUpdate =
      [.UpdateServicePrincipal (ServicePrincipal.mk
        (some (passwordConfig.Get "service_principal_id"))
        (some ((sp1 none).PasswordCredentials.getD [] ++ [passwordConfigCredential])))] :=
  ⟨((create_appends_and_sets_composite_id sampleEnv sampleApplications
      sampleServicePrincipals).1
      (World.init [app1 (some [keyCred none, keyCred (some "k2")])]) certConfig
      certConfigCredential (app1 (some [keyCred none, keyCred (some "k2")])) 200
      [app1 (some [keyCred none, keyCred (some "k2")])]
      [app1 (some [keyCred none, keyCred (some "k2"), certConfigCredential])]
      rfl rfl (by decide) rfl).2,
    ((create_appends_and_sets_composite_id sampleEnv sampleApplications
      sampleServicePrincipals).2
      (World.init [sp1 none]) passwordConfig
      passwordConfigCredential (sp1 none) 200
      [sp1 none] [sp1 (some [passwordConfigCredential])]
      rfl rfl (by decide) rfl).2⟩

/-! ## Uniqueness of key identifiers -/

theorem callsSince_of_append {σ : Type} (after before : World σ) (l : List Call)
    (h : after.calls = before.calls ++ l) : after.callsSince before = l := by
  simp [World.callsSince, h]

theorem distinctKeyIds_append_new {α : Type} (keyOf : α → Option String) (creds : List α)
    (c : α) (h : distinctKeyIds keyOf creds) (hno : ∀ cred ∈ creds, ¬ keyOf cred = keyOf c) :
    distinctKeyIds keyOf (creds ++ [c]) := by
  unfold distinctKeyIds at *
  rw [List.filterMap_append]
  cases hk : keyOf c with
  | none => simpa [List.filterMap, hk] using h
  | some k =>
    have : List.filterMap keyOf [c] = [k] := by simp [List.filterMap, hk]
    rw [this, List.nodup_append]
    refine ⟨h, List.nodup_singleton k, ?_⟩
    intro a ha hb
    rw [List.mem_singleton] at hb
    subst hb
    rw [List.mem_filterMap] at ha
    obtain ⟨cred, hc, hck⟩ := ha
    exact hno cred hc (hck.trans hk.symm)

theorem distinctKeyIds_filter {α : Type} (keyOf : α → Option String) (creds : List α)
    (p : α → Bool) (h : distinctKeyIds keyOf creds) :
    distinctKeyIds keyOf (creds.filter p) := by
  unfold distinctKeyIds at *
  exact h.sublist (List.Sublist.filterMap keyOf (List.filter_sublist creds))

theorem certificateCreate_update_calls {σ : Type} (env : Env) (apps : ApplicationsClient σ)
    (w : World σ) (d : ResourceData) (p : Application)
    (hp : Call.UpdateApplication p ∈
      (applicationCertificateResourceCreateMsGraph env apps w d).2.2.callsSince w) :
    ∃ credential app status s,
      KeyCredentialForResource env d = .ok credential ∧
      apps.Get w.remote (d.Get "application_object_id") = (.ok app status, s) ∧
      (∀ cred ∈ app.KeyCredentials.getD [], ¬ cred.KeyId = credential.KeyId) ∧
      p = Application.mk (some (d.Get "application_object_id"))
        (some (app.KeyCredentials.getD [] ++ [credential])) := by
  cases hb : KeyCredentialForResource env d with
  | error err =>
    exfalso
    unfold applicationCertificateResourceCreateMsGraph at hp
    simp [hb, World.callsSince] at hp
  | ok credential =>
    obtain ⟨k, hk⟩ := keyCredential_keyId_isSome env d credential hb
    rcases hg : apps.Get w.remote (d.Get "application_object_id") with ⟨res, s⟩
    cases res with
    | fail status err =>
      exfalso
      unfold applicationCertificateResourceCreateMsGraph at hp
      by_cases hs : status = StatusNotFound <;>
        simp [hb, hk, hg, hs, World.callsSince, LockByName, UnlockByName, NewCredentialID,
          World.record] at hp
    | ok app status =>
      by_cases hany : (app.KeyCredentials.getD []).any
          (fun c => keyIdEq (KeyCredential.KeyId c) k) = true
      · exfalso
        unfold applicationCertificateResourceCreateMsGraph at hp
        cases hkc : app.KeyCredentials with
        | none => simp [hkc] at hany
        | some creds =>
          simp only [hkc, Option.getD] at hany
          simp [hb, hk, hg, hkc, createLoop_eq, hany, World.callsSince, LockByName,
            UnlockByName, NewCredentialID, World.record] at hp
      · have hno : ∀ cred ∈ app.KeyCredentials.getD [], ¬ cred.KeyId = credential.KeyId := by
          intro cred hc hck
          apply hany
          rw [List.any_eq_true]
          exact ⟨cred, hc, (keyIdEq_iff _ _).2 (hck.trans hk)⟩
        refine ⟨credential, app, status, s, rfl, rfl, hno, ?_⟩
        rcases hu : apps.Update s (Application.mk (some (d.Get "application_object_id"))
          (some (app.KeyCredentials.getD [] ++ [credential]))) with ⟨e, s'⟩
        cases e with
        | some err =>
          unfold applicationCertificateResourceCreateMsGraph at hp
          have hany' := Bool.eq_false_iff.2 hany
          cases hkc : app.KeyCredentials with
          | none =>
            simp only [hkc, Option.getD, List.nil_append] at hu
            simpa [hb, hk, hg, hkc, hu, World.callsSince, LockByName,
              UnlockByName, NewCredentialID, World.record] using hp
          | some creds =>
            simp only [hkc, Option.getD] at hu hany'
            simpa [hb, hk, hg, hkc, hu, createLoop_eq, hany', World.callsSince, LockByName,
              UnlockByName, NewCredentialID, World.record] using hp
        | none =>
          have h7 := (certificateCreate_of_update_ok env apps w d credential app status s s'
            hb hg hno hu).2
          have : Call.UpdateApplication p ∈
              List.filter Call.isUpdate
                ((applicationCertificateResourceCreateMsGraph env apps w d).2.2.callsSince w) :=
            List.mem_filter.2 ⟨hp, rfl⟩
          rw [h7] at this
          simpa using this

theorem passwordCreate_update_calls {τ : Type} (env : Env) (sps : ServicePrincipalsClient τ)
    (w : World τ) (d : ResourceData) (p : ServicePrincipal)
    (hp : Call.UpdateServicePrincipal p ∈
      (servicePrincipalPasswordResourceCreateMsGraph env sps w d).2.2.callsSince w) :
    ∃ credential app status s,
      PasswordCredentialForResource env d = .ok credential ∧
      sps.Get w.remote (d.Get "service_principal_id") = (.ok app status, s) ∧
      (∀ cred ∈ app.PasswordCredentials.getD [], ¬ cred.KeyId = credential.KeyId) ∧
      p = ServicePrincipal.mk (some (d.Get "service_principal_id"))
        (some (app.PasswordCredentials.getD [] ++ [credential])) := by
  cases hb : PasswordCredentialForResource env d with
  | error err =>
    exfalso
    unfold servicePrincipalPasswordResourceCreateMsGraph at hp
    simp [hb, World.callsSince] at hp
  | ok credential =>
    obtain ⟨k, hk⟩ := passwordCredential_keyId_isSome env d credential hb
    rcases hg : sps.Get w.remote (d.Get "service_principal_id") with ⟨res, s⟩
    cases res with
    | fail status err =>
      exfalso
      unfold servicePrincipalPasswordResourceCreateMsGraph at hp
      by_cases hs : status = StatusNotFound <;>
        simp [hb, hk, hg, hs, World.callsSince, LockByName, UnlockByName, NewCredentialID,
          World.record] at hp
    | ok app status =>
      by_cases hany : (app.PasswordCredentials.getD []).any
          (fun c => keyIdEq (PasswordCredential.KeyId c) k) = true
      · exfalso
        unfold servicePrincipalPasswordResourceCreateMsGraph at hp
        cases hkc : app.PasswordCredentials with
        | none => simp [hkc] at hany
        | some creds =>
          simp only [hkc, Option.getD] at hany
          simp [hb, hk, hg, hkc, createLoop_eq, hany, World.callsSince, LockByName,
            UnlockByName, NewCredentialID, World.record] at hp
      · have hno : ∀ cred ∈ app.PasswordCredentials.getD [], ¬ cred.KeyId = credential.KeyId := by
          intro cred hc hck
          apply hany
          rw [List.any_eq_true]
          exact ⟨cred, hc, (keyIdEq_iff _ _).2 (hck.trans hk)⟩
        refine ⟨credential, app, status, s, rfl, rfl, hno, ?_⟩
        rcases hu : sps.Update s (ServicePrincipal.mk (some (d.Get "service_principal_id"))
          (some (app.PasswordCredentials.getD [] ++ [credential]))) with ⟨e, s'⟩
        cases e with
        | some err =>
          unfold servicePrincipalPasswordResourceCreateMsGraph at hp
          have hany' := Bool.eq_false_iff.2 hany
          cases hkc : app.PasswordCredentials with
          | none =>
            simp only [hkc, Option.getD, List.nil_append] at hu
            simpa [hb, hk, hg, hkc, hu, World.callsSince, LockByName,
              UnlockByName, NewCredentialID, World.record] using hp
          | some creds =>
            simp only [hkc, Option.getD] at hu hany'
            simpa [hb, hk, hg, hkc, hu, createLoop_eq, hany', World.callsSince, LockByName,
              UnlockByName, NewCredentialID, World.record] using hp
        | none =>
          have h7 := (passwordCreate_of_update_ok env sps w d credential app status s s'
            hb hg hno hu).2
          have : Call.UpdateServicePrincipal p ∈
              List.filter Call.isUpdate
                ((servicePrincipalPasswordResourceCreateMsGraph env sps w d).2.2.callsSince w) :=
            List.mem_filter.2 ⟨hp, rfl⟩
          rw [h7] at this
          simpa using this

theorem certificateDelete_update_calls {σ : Type} (env : Env) (apps : ApplicationsClient σ)
    (w : World σ) (d : ResourceData) (p : Application)
    (hp : Call.UpdateApplication p ∈
      (applicationCertificateResourceDeleteMsGraph env apps w d).2.2.callsSince w) :
    ∃ id app status s,
      env.CertificateID d.Id = .ok id ∧
      apps.Get w.remote id.ObjectId = (.ok app status, s) ∧
      p = Application.mk (some id.ObjectId)
        (some ((app.KeyCredentials.getD []).filter
          (fun c => keyIdNe (KeyCredential.KeyId c) id.KeyId))) := by
  unfold applicationCertificateResourceDeleteMsGraph at hp
  cases hid : env.CertificateID d.Id with
  | error err =>
    exfalso
    simp [hid, World.callsSince] at hp
  | ok id =>
    rcases hg : apps.Get w.remote id.ObjectId with ⟨res, s⟩
    cases res with
    | fail status err =>
      exfalso
      by_cases hs : status = StatusNotFound <;>
        simp [hid, hg, hs, World.callsSince, LockByName, UnlockByName, World.record] at hp
    | ok app status =>
      refine ⟨id, app, status, s, rfl, hg, ?_⟩
      rcases hu : apps.Update s (Application.mk (some id.ObjectId)
          (some ((app.KeyCredentials.getD []).filter
            (fun c => keyIdNe (KeyCredential.KeyId c) id.KeyId)))) with ⟨e, s'⟩
      cases hkc : app.KeyCredentials with
      | none =>
        simp only [hkc, Option.getD, List.filter_nil] at hu
        cases e <;>
          simpa [hid, hg, hkc, hu, World.callsSince, LockByName, UnlockByName,
            World.record] using hp
      | some creds =>
        simp only [hkc, Option.getD] at hu
        cases e <;>
          simpa [hid, hg, hkc, hu, deleteLoop_eq, World.callsSince, LockByName, UnlockByName,
            World.record] using hp

theorem passwordDelete_update_calls {τ : Type} (env : Env) (sps : ServicePrincipalsClient τ)
    (w : World τ) (d : ResourceData) (p : ServicePrincipal)
    (hp : Call.UpdateServicePrincipal p ∈
      (servicePrincipalPasswordResourceDeleteMsGraph env sps w d).2.2.callsSince w) :
    ∃ id app status s,
      env.PasswordID d.Id = .ok id ∧
      sps.Get w.remote id.ObjectId = (.ok app status, s) ∧
      p = ServicePrincipal.mk (some id.ObjectId)
        (some ((app.PasswordCredentials.getD []).filter
          (fun c => keyIdNe (PasswordCredential.KeyId c) id.KeyId))) := by
  unfold servicePrincipalPasswordResourceDeleteMsGraph at hp
  cases hid : env.PasswordID d.Id with
  | error err =>
    exfalso
    simp [hid, World.callsSince] at hp
  | ok id =>
    rcases hg : sps.Get w.remote id.ObjectId with ⟨res, s⟩
    cases res with
    | fail status err =>
      exfalso
      by_cases hs : status = StatusNotFound <;>
        simp [hid, hg, hs, World.callsSince, LockByName, UnlockByName, World.record] at hp
    | ok app status =>
      refine ⟨id, app, status, s, rfl, hg, ?_⟩
      rcases hu : sps.Update s (ServicePrincipal.mk (some id.ObjectId)
          (some ((app.PasswordCredentials.getD []).filter
            (fun c => keyIdNe (PasswordCredential.KeyId c) id.KeyId)))) with ⟨e, s'⟩
      cases hkc : app.PasswordCredentials with
      | none =>
        simp only [hkc, Option.getD, List.filter_nil] at hu
        cases e <;>
          simpa [hid, hg, hkc, hu, World.callsSince, LockByName, UnlockByName,
            World.record] using hp
      | some creds =>
        simp only [hkc, Option.getD] at hu
        cases e <;>
          simpa [hid, hg, hkc, hu, deleteLoop_eq, World.callsSince, LockByName, UnlockByName,
            World.record] using hp

/-- C8: key identifiers stay unique. When the non-nil key identifiers of the fetched
collection are pairwise distinct, every collection that the certificate or password
create, or the certificate or password delete, passes to `client.Update` has pairwise
distinct non-nil key identifiers. -/
theorem written_back_key_ids_stay_distinct (env : Env) {σ τ : Type}
    (apps : ApplicationsClient σ) (sps : ServicePrincipalsClient τ) :
    (∀ (w : World σ) (d : ResourceData) (app : Application) (status : Nat) (s : σ)
        (p : Application),
      apps.Get w.remote (d.Get "application_object_id") = (.ok app status, s) →
      distinctKeyIds KeyCredential.KeyId (app.KeyCredentials.getD []) →
      Call.UpdateApplication p ∈
        (applicationCertificateResourceCreateMsGraph env apps w d).2.2.callsSince w →
      distinctKeyIds KeyCredential.KeyId (p.KeyCredentials.getD [])) ∧
    (∀ (w : World σ) (d : ResourceData) (id : CredentialId) (app : Application)
        (status : Nat) (s : σ) (p : Application),
      env.CertificateID d.Id = .ok id →
      apps.Get w.remote id.ObjectId = (.ok app status, s) →
      distinctKeyIds KeyCredential.KeyId (app.KeyCredentials.getD []) →
      Call.UpdateApplication p ∈
        (applicationCertificateResourceDeleteMsGraph env apps w d).2.2.callsSince w →
      distinctKeyIds KeyCredential.KeyId (p.KeyCredentials.getD [])) ∧
    (∀ (w : World τ) (d : ResourceData) (sp : ServicePrincipal) (status : Nat) (s : τ)
        (p : ServicePrincipal),
      sps.Get w.remote (d.Get "service_principal_id") = (.ok sp status, s) →
      distinctKeyIds PasswordCredential.KeyId (sp.PasswordCredentials.getD []) →
      Call.UpdateServicePrincipal p ∈
        (servicePrincipalPasswordResourceCreateMsGraph env sps w d).2.2.callsSince w →
      distinctKeyIds PasswordCredential.KeyId (p.PasswordCredentials.getD [])) ∧
    (∀ (w : World τ) (d : ResourceData) (id : CredentialId) (sp : ServicePrincipal)
        (status : Nat) (s : τ) (p : ServicePrincipal),
      env.PasswordID d.Id = .ok id →
      sps.Get w.remote id.ObjectId = (.ok sp status, s) →
      distinctKeyIds PasswordCredential.KeyId (sp.PasswordCredentials.getD []) →
      Call.UpdateServicePrincipal p ∈
        (servicePrincipalPasswordResourceDeleteMsGraph env sps w d).2.2.callsSince w →
      distinctKeyIds PasswordCredential.KeyId (p.PasswordCredentials.getD [])) := by
  refine ⟨?_, ?_, ?_, ?_⟩
  · intro w d app status s p hget hd hp
    obtain ⟨credential, app', status', s', _, hget', hno, rfl⟩ :=
      certificateCreate_update_calls env apps w d p hp
    rw [hget] at hget'
    injection hget' with h1 _
    injection h1 with h1 _
    subst h1
    exact distinctKeyIds_append_new _ _ _ hd hno
  · intro w d id app status s p hid hget hd hp
    obtain ⟨id', app', status', s', hid', hget', rfl⟩ :=
      certificateDelete_update_calls env apps w d p hp
    rw [hid] at hid'
    injection hid' with h0
    subst h0
    rw [hget] at hget'
    injection hget' with h1 _
    injection h1 with h1 _
    subst h1
    exact distinctKeyIds_filter _ _ _ hd
  · intro w d sp status s p hget hd hp
    obtain ⟨credential, sp', status', s', _, hget', hno, rfl⟩ :=
      passwordCreate_update_calls env sps w d p hp
    rw [hget] at hget'
    injection hget' with h1 _
    injection h1 with h1 _
    subst h1
    exact distinctKeyIds_append_new _ _ _ hd hno
  · intro w d id sp status s p hid hget hd hp
    obtain ⟨id', sp', status', s', hid', hget', rfl⟩ :=
      passwordDelete_update_calls env sps w d p hp
    rw [hid] at hid'
    injection hid' with h0
    subst h0
    rw [hget] at hget'
    injection hget' with h1 _
    injection h1 with h1 _
    subst h1
    exact distinctKeyIds_filter _ _ _ hd

/-- Witness of C8: a create that appends `k1` and a delete that removes `k2`, for both
resources. -/
theorem written_back_key_ids_stay_distinct_witness :
    distinctKeyIds KeyCredential.KeyId
      ((app1 (some [keyCred none, keyCred (some "k2"), certConfigCredential])).KeyCredentials.getD
        []) ∧
    distinctKeyIds KeyCredential.KeyId
      ((app1 (some [keyCred (some "k1")])).KeyCredentials.getD []) ∧
    distinctKeyIds PasswordCredential.KeyId
      ((sp1 (some [passwordCred (some "k2"), passwordConfigCredential])).PasswordCredentials.getD
        []) ∧
    distinctKeyIds PasswordCredential.KeyId
      ((sp1 (some [passwordCred (some "k1")])).PasswordCredentials.getD []) :=
  ⟨(written_back_key_ids_stay_distinct sampleEnv sampleApplications
      sampleServicePrincipals).1
      (World.init [app1 (some [keyCred none, keyCred (some "k2")])]) certConfig
      (app1 (some [keyCred none, keyCred (some "k2")])) 200
      [app1 (some [keyCred none, keyCred (some "k2")])]
      (app1 (some [keyCred none, keyCred (some "k2"), certConfigCredential]))
      rfl (by decide) (by decide),
    (written_back_key_ids_stay_distinct sampleEnv sampleApplications
      sampleServicePrincipals).2.1
      (World.init [app1 (some [keyCred (some "k1"), keyCred (some "k2")])])
      { id := "app1/certificate/k2", fields := [] }
      (NewCredentialID "app1" "certificate" "k2")
      (app1 (some [keyCred (some "k1"), keyCred (some "k2")])) 200
      [app1 (some [keyCred (some "k1"), keyCred (some "k2")])]
      (app1 (some [keyCred (some "k1")]))
      rfl rfl (by decide) (by decide),
    (written_back_key_ids_stay_distinct sampleEnv sampleApplications
      sampleServicePrincipals).2.2.1
      (World.init [sp1 (some [passwordCred (some "k2")])]) passwordConfig
      (sp1 (some [passwordCred (some "k2")])) 200
      [sp1 (some [passwordCred (some "k2")])]
      (sp1 (some [passwordCred (some "k2"), passwordConfigCredential]))
      rfl (by decide) (by decide),
    (written_back_key_ids_stay_distinct sampleEnv sampleApplications
      sampleServicePrincipals).2.2.2
      (World.init [sp1 (some [passwordCred (some "k1"), passwordCred (some "k2")])])
      { id := "sp1/password/k2", fields := [] }
      (NewCredentialID "sp1" "password" "k2")
      (sp1 (some [passwordCred (some "k1"), passwordCred (some "k2")])) 200
      [sp1 (some [passwordCred (some "k1"), passwordCred (some "k2")])]
      (sp1 (some [passwordCred (some "k1")]))
      rfl rfl (by decide) (by decide)⟩

/-! ## Read and delete against the fetched parent -/

theorem readLoop_none {α : Type} (keyOf : α → Option String) (keyId : String)
    (creds : List α) (h : ∀ c ∈ creds, ¬ keyOf c = some keyId) :
    readLoop keyOf keyId creds = none := by
  induction creds with
  | nil => rfl
  | cons c rest ih =>
    have hc : keyIdEq (keyOf c) keyId = false := by
      rw [Bool.eq_false_iff]
      intro hk
      exact h c (List.mem_cons_self c rest) ((keyIdEq_iff _ _).1 hk)
    simp only [readLoop, hc]
    exact ih (fun c' hc' => h c' (List.mem_cons_of_mem c hc'))

theorem readLoop_first {α : Type} (keyOf : α → Option String) (keyId : String)
    (pre : List α) (cred : α) (post : List α) (h : ∀ c ∈ pre, ¬ keyOf c = some keyId)
    (hk : keyOf cred = some keyId) :
    readLoop keyOf keyId (pre ++ cred :: post) = some cred := by
  induction pre with
  | nil =>
    have hc : keyIdEq (keyOf cred) keyId = true := (keyIdEq_iff _ _).2 hk
    simp [readLoop, hc]
  | cons c rest ih =>
    have hc : keyIdEq (keyOf c) keyId = false := by
      rw [Bool.eq_false_iff]
      intro hk'
      exact h c (List.mem_cons_self c rest) ((keyIdEq_iff _ _).1 hk')
    simp only [List.cons_append, readLoop, hc]
    exact ih (fun c' hc' => h c' (List.mem_cons_of_mem c hc'))

theorem certificateRead_absent {σ : Type} (env : Env) (apps : ApplicationsClient σ)
    (w : World σ) (d : ResourceData) (id : CredentialId) (app : Application)
    (status : Nat) (s : σ)
    (hid : env.CertificateID d.Id = .ok id)
    (hget : apps.Get w.remote id.ObjectId = (.ok app status, s))
    (hno : ∀ cred ∈ app.KeyCredentials.getD [], ¬ cred.KeyId = some id.KeyId) :
    applicationCertificateResourceReadMsGraph env apps w d =
      ([], d.SetId "", w.record (.GetApplication id.ObjectId) s) := by
  unfold applicationCertificateResourceReadMsGraph
  cases hkc : app.KeyCredentials with
  | none => simp [hid, hget, hkc]
  | some creds =>
    simp only [hkc, Option.getD] at hno
    simp [hid, hget, hkc, readLoop_none _ _ _ hno]

theorem certificateRead_present {σ : Type} (env : Env) (apps : ApplicationsClient σ)
    (w : World σ) (d : ResourceData) (id : CredentialId) (app : Application)
    (status : Nat) (s : σ) (pre : List KeyCredential) (cred : KeyCredential)
    (post : List KeyCredential)
    (hid : env.CertificateID d.Id = .ok id)
    (hget : apps.Get w.remote id.ObjectId = (.ok app status, s))
    (hsplit : app.KeyCredentials.getD [] = pre ++ cred :: post)
    (hpre : ∀ c ∈ pre, ¬ c.KeyId = some id.KeyId)
    (hk : cred.KeyId = some id.KeyId) :
    applicationCertificateResourceReadMsGraph env apps w d =
      ([], Set (Set (Set (Set (Set d "application_object_id" id.ObjectId) "key_id" id.KeyId)
          "type" (cred.Type_.getD ""))
          "start_date" ((cred.StartDateTime.map env.FormatRFC3339).getD ""))
          "end_date" ((cred.EndDateTime.map env.FormatRFC3339).getD ""),
        w.record (.GetApplication id.ObjectId) s) := by
  unfold applicationCertificateResourceReadMsGraph
  cases hkc : app.KeyCredentials with
  | none => simp [hkc] at hsplit
  | some creds =>
    simp only [hkc, Option.getD] at hsplit
    subst hsplit
    simp only [hid, hget, hkc, readLoop_first _ _ _ _ _ hpre hk]
    cases cred.Type_ <;> cases cred.StartDateTime <;> cases cred.EndDateTime <;> rfl

theorem passwordRead_absent {τ : Type} (env : Env) (sps : ServicePrincipalsClient τ)
    (w : World τ) (d : ResourceData) (id : CredentialId) (app : ServicePrincipal)
    (status : Nat) (s : τ)
    (hid : env.PasswordID d.Id = .ok id)
    (hget : sps.Get w.remote id.ObjectId = (.ok app status, s))
    (hno : ∀ cred ∈ app.PasswordCredentials.getD [], ¬ cred.KeyId = some id.KeyId) :
    servicePrincipalPasswordResourceReadMsGraph env sps w d =
      ([], d.SetId "", w.record (.GetServicePrincipal id.ObjectId) s) := by
  unfold servicePrincipalPasswordResourceReadMsGraph
  cases hkc : app.PasswordCredentials with
  | none => simp [hid, hget, hkc]
  | some creds =>
    simp only [hkc, Option.getD] at hno
    simp [hid, hget, hkc, readLoop_none _ _ _ hno]

theorem passwordRead_present {τ : Type} (env : Env) (sps : ServicePrincipalsClient τ)
    (w : World τ) (d : ResourceData) (id : CredentialId) (app : ServicePrincipal)
    (status : Nat) (s : τ) (pre : List PasswordCredential) (cred : PasswordCredential)
    (post : List PasswordCredential)
    (hid : env.PasswordID d.Id = .ok id)
    (hget : sps.Get w.remote id.ObjectId = (.ok app status, s))
    (hsplit : app.PasswordCredentials.getD [] = pre ++ cred :: post)
    (hpre : ∀ c ∈ pre, ¬ c.KeyId = some id.KeyId)
    (hk : cred.KeyId = some id.KeyId) :
    servicePrincipalPasswordResourceReadMsGraph env sps w d =
      ([], Set (Set (Set (Set (Set (Set d "description" (cred.DisplayName.getD ""))
          "display_name" (cred.DisplayName.getD "")) "key_id" id.KeyId)
          "service_principal_id" id.ObjectId)
          "start_date" ((cred.StartDateTime.map env.FormatRFC3339).getD ""))
          "end_date" ((cred.EndDateTime.map env.FormatRFC3339).getD ""),
        w.record (.GetServicePrincipal id.ObjectId) s) := by
  unfold servicePrincipalPasswordResourceReadMsGraph
  cases hkc : app.PasswordCredentials with
  | none => simp [hkc] at hsplit
  | some creds =>
    simp only [hkc, Option.getD] at hsplit
    subst hsplit
    simp only [hid, hget, hkc, readLoop_first _ _ _ _ _ hpre hk]
    cases cred.StartDateTime <;> cases cred.EndDateTime <;> rfl

theorem certificateDelete_fetch_failed {σ : Type} (env : Env) (apps : ApplicationsClient σ)
    (w : World σ) (d : ResourceData) (id : CredentialId) (status : Nat) (err : Error) (s : σ)
    (hid : env.CertificateID d.Id = .ok id)
    (hget : apps.Get w.remote id.ObjectId = (.fail status err, s)) :
    applicationCertificateResourceDeleteMsGraph env apps w d =
      (if status = StatusNotFound then []
        else [.ErrorDiagPathF (some err) "application_object_id"
          "Retrieving application with object ID %q" [id.ObjectId]],
       d,
       { remote := s, held := w.held,
         calls := w.calls ++ [.LockByName env.applicationResourceName id.ObjectId,
           .GetApplication id.ObjectId,
           .UnlockByName env.applicationResourceName id.ObjectId] }) := by
  unfold applicationCertificateResourceDeleteMsGraph
  by_cases hs : status = StatusNotFound <;>
    simp [hid, hget, hs, LockByName, UnlockByName, World.record]

theorem passwordDelete_fetch_failed {τ : Type} (env : Env) (sps : ServicePrincipalsClient τ)
    (w : World τ) (d : ResourceData) (id : CredentialId) (status : Nat) (err : Error) (s : τ)
    (hid : env.PasswordID d.Id = .ok id)
    (hget : sps.Get w.remote id.ObjectId = (.fail status err, s)) :
    servicePrincipalPasswordResourceDeleteMsGraph env sps w d =
      (if status = StatusNotFound then []
        else [.ErrorDiagPathF (some err) "service_principal_id"
          "Retrieving service principal with object ID %q" [id.ObjectId]],
       d,
       { remote := s, held := w.held,
         calls := w.calls ++ [.LockByName env.servicePrincipalResourceName id.ObjectId,
           .GetServicePrincipal id.ObjectId,
           .UnlockByName env.servicePrincipalResourceName id.ObjectId] }) := by
  unfold servicePrincipalPasswordResourceDeleteMsGraph
  by_cases hs : status = StatusNotFound <;>
    simp [hid, hget, hs, LockByName, UnlockByName, World.record]

/-- C9: for a well-formed tracked identity whose parent fetch succeeds, if no element of
the collection (nil and empty collections included) has the identity's key identifier,
both reads return no error, set the resource ID to the empty string and leave the
attributes alone; if some element has it, the reads return no error, keep the ID and
set the attributes from the first such element. -/
theorem read_drops_absent_and_populates_first_match (env : Env) {σ τ : Type}
    (apps : ApplicationsClient σ) (sps : ServicePrincipalsClient τ) :
    (∀ (w : World σ) (d : ResourceData) (id : CredentialId) (app : Application)
        (status : Nat) (s : σ),
      env.CertificateID d.Id = .ok id →
      apps.Get w.remote id.ObjectId = (.ok app status, s) →
      ((∀ cred ∈ app.KeyCredentials.getD [], ¬ cred.KeyId = some id.KeyId) →
        applicationCertificateResourceReadMsGraph env apps w d =
          ([], { id := "", fields := d.fields }, w.record (.GetApplication id.ObjectId) s)) ∧
      (∀ (pre : List KeyCredential) (cred : KeyCredential) (post : List KeyCredential),
        app.KeyCredentials.getD [] = pre ++ cred :: post →
        (∀ c ∈ pre, ¬ c.KeyId = some id.KeyId) →
        cred.KeyId = some id.KeyId →
        applicationCertificateResourceReadMsGraph env apps w d =
          ([], { id := d.id,
                 fields := ("end_date", (cred.EndDateTime.map env.FormatRFC3339).getD "") ::
                   ("start_date", (cred.StartDateTime.map env.FormatRFC3339).getD "") ::
                   ("type", cred.Type_.getD "") :: ("key_id", id.KeyId) ::
                   ("application_object_id", id.ObjectId) :: d.fields },
            w.record (.GetApplication id.ObjectId) s))) ∧
    (∀ (w : World τ) (d : ResourceData) (id : CredentialId) (sp : ServicePrincipal)
        (status : Nat) (s : τ),
      env.PasswordID d.Id = .ok id →
      sps.Get w.remote id.ObjectId = (.ok sp status, s) →
      ((∀ cred ∈ sp.PasswordCredentials.getD [], ¬ cred.KeyId = some id.KeyId) →
        servicePrincipalPasswordResourceReadMsGraph env sps w d =
          ([], { id := "", fields := d.fields },
            w.record (.GetServicePrincipal id.ObjectId) s)) ∧
      (∀ (pre : List PasswordCredential) (cred : PasswordCredential)
          (post : List PasswordCredential),
        sp.PasswordCredentials.getD [] = pre ++ cred :: post →
        (∀ c ∈ pre, ¬ c.KeyId = some id.KeyId) →
        cred.KeyId = some id.KeyId →
        servicePrincipalPasswordResourceReadMsGraph env sps w d =
          ([], { id := d.id,
                 fields := ("end_date", (cred.EndDateTime.map env.FormatRFC3339).getD "") ::
                   ("start_date", (cred.StartDateTime.map env.FormatRFC3339).getD "") ::
                   ("service_principal_id", id.ObjectId) :: ("key_id", id.KeyId) ::
                   ("display_name", cred.DisplayName.getD "") ::
                   ("description", cred.DisplayName.getD "") :: d.fields },
            w.record (.GetServicePrincipal id.ObjectId) s))) :=
  ⟨fun w d id app status s hid hget =>
      ⟨fun hno => certificateRead_absent env apps w d id app status s hid hget hno,
        fun pre cred post hsplit hpre hk =>
          certificateRead_present env apps w d id app status s pre cred post hid hget hsplit
            hpre hk⟩,
    fun w d id sp status s hid hget =>
      ⟨fun hno => passwordRead_absent env sps w d id sp status s hid hget hno,
        fun pre cred post hsplit hpre hk =>
          passwordRead_present env sps w d id sp status s pre cred post hid hget hsplit
            hpre hk⟩⟩

/-- Witness of C9: the key identifier `k1` read against collections without it
(nil-keyed element, nil collection) and against collections holding it twice. -/
theorem read_drops_absent_and_populates_first_match_witness :
    (applicationCertificateResourceReadMsGraph sampleEnv sampleApplications
        (World.init [app1 (some [keyCred none, keyCred (some "k2")])])
        { id := "app1/certificate/k1", fields := [] } =
      ([], { id := "", fields := [] },
        (World.init [app1 (some [keyCred none, keyCred (some "k2")])]).record
          (.GetApplication "app1") [app1 (some [keyCred none, keyCred (some "k2")])]) ∧
     applicationCertificateResourceReadMsGraph sampleEnv sampleApplications
        (World.init [app1 (some [keyCred (some "k2"), certConfigCredential,
          keyCred (some "k1")])])
        { id := "app1/certificate/k1", fields := [] } =
      ([], { id := "app1/certificate/k1",
             fields := [("end_date", "2030-01-01T00:00:00Z"), ("start_date", ""),
               ("type", "AsymmetricX509Cert"), ("key_id", "k1"),
               ("application_object_id", "app1")] },
        (World.init [app1 (some [keyCred (some "k2"), certConfigCredential,
          keyCred (some "k1")])]).record (.GetApplication "app1")
          [app1 (some [keyCred (some "k2"), certConfigCredential, keyCred (some "k1")])])) ∧
    (servicePrincipalPasswordResourceReadMsGraph sampleEnv sampleServicePrincipals
        (World.init [sp1 none]) { id := "sp1/password/k1", fields := [] } =
      ([], { id := "", fields := [] },
        (World.init [sp1 none]).record (.GetServicePrincipal "sp1") [sp1 none]) ∧
     servicePrincipalPasswordResourceReadMsGraph sampleEnv sampleServicePrincipals
        (World.init [sp1 (some [passwordConfigCredential, passwordCred (some "k1")])])
        { id := "sp1/password/k1", fields := [] } =
      ([], { id := "sp1/password/k1",
             fields := [("end_date", "2030-01-01T00:00:00Z"), ("start_date", ""),
               ("service_principal_id", "sp1"), ("key_id", "k1"), ("display_name", ""),
               ("description", "")] },
        (World.init [sp1 (some [passwordConfigCredential,
          passwordCred (some "k1")])]).record (.GetServicePrincipal "sp1")
          [sp1 (some [passwordConfigCredential, passwordCred (some "k1")])])) :=
  ⟨⟨((read_drops_absent_and_populates_first_match sampleEnv sampleApplications
        sampleServicePrincipals).1
        (World.init [app1 (some [keyCred none, keyCred (some "k2")])])
        { id := "app1/certificate/k1", fields := [] }
        (NewCredentialID "app1" "certificate" "k1")
        (app1 (some [keyCred none, keyCred (some "k2")])) 200
        [app1 (some [keyCred none, keyCred (some "k2")])] rfl rfl).1 (by decide),
      ((read_drops_absent_and_populates_first_match sampleEnv sampleApplications
        sampleServicePrincipals).1
        (World.init [app1 (some [keyCred (some "k2"), certConfigCredential,
          keyCred (some "k1")])])
        { id := "app1/certificate/k1", fields := [] }
        (NewCredentialID "app1" "certificate" "k1")
        (app1 (some [keyCred (some "k2"), certConfigCredential, keyCred (some "k1")])) 200
        [app1 (some [keyCred (some "k2"), certConfigCredential, keyCred (some "k1")])]
        rfl rfl).2 [keyCred (some "k2")] certConfigCredential [keyCred (some "k1")] rfl
        (by decide) rfl⟩,
    ⟨((read_drops_absent_and_populates_first_match sampleEnv sampleApplications
        sampleServicePrincipals).2
        (World.init [sp1 none]) { id := "sp1/password/k1", fields := [] }
        (NewCredentialID "sp1" "password" "k1") (sp1 none) 200 [sp1 none] rfl rfl).1
        (by decide),
      ((read_drops_absent_and_populates_first_match sampleEnv sampleApplications
        sampleServicePrincipals).2
        (World.init [sp1 (some [passwordConfigCredential, passwordCred (some "k1")])])
        { id := "sp1/password/k1", fields := [] }
        (NewCredentialID "sp1" "password" "k1")
        (sp1 (some [passwordConfigCredential, passwordCred (some "k1")])) 200
        [sp1 (some [passwordConfigCredential, passwordCred (some "k1")])]
        rfl rfl).2 [] passwordConfigCredential [passwordCred (some "k1")] rfl
        (by decide) rfl⟩⟩

/-- C10: for a well-formed tracked identity whose parent fetch fails, both deletes make
only the lock, fetch and unlock calls, so `client.Update` is never called; they return
no error when the status is 404 and the "Retrieving" error diagnostic otherwise. -/
theorem delete_with_failed_fetch_writes_nothing (env : Env) {σ τ : Type}
    (apps : ApplicationsClient σ) (sps : ServicePrincipalsClient τ) :
    (∀ (w : World σ) (d : ResourceData) (id : CredentialId) (status : Nat) (err : Error)
        (s : σ),
      env.CertificateID d.Id = .ok id →
      apps.Get w.remote id.ObjectId = (.fail status err, s) →
      (status = StatusNotFound →
        (applicationCertificateResourceDeleteMsGraph env apps w d).1 = []) ∧
      (status ≠ StatusNotFound →
        (applicationCertificateResourceDeleteMsGraph env apps w d).1 =
          [.ErrorDiagPathF (some err) "application_object_id"
            "Retrieving application with object ID %q" [id.ObjectId]]) ∧
      (applicationCertificateResourceDeleteMsGraph env apps w d).2 =
        (d, { remote := s, held := w.held,
              calls := w.calls ++ [.LockByName env.applicationResourceName id.ObjectId,
                .GetApplication id.ObjectId,
                .UnlockByName env.applicationResourceName id.ObjectId] })) ∧
    (∀ (w : World τ) (d : ResourceData) (id : CredentialId) (status : Nat) (err : Error)
        (s : τ),
      env.PasswordID d.Id = .ok id →
      sps.Get w.remote id.ObjectId = (.fail status err, s) →
      (status = StatusNotFound →
        (servicePrincipalPasswordResourceDeleteMsGraph env sps w d).1 = []) ∧
      (status ≠ StatusNotFound →
        (servicePrincipalPasswordResourceDeleteMsGraph env sps w d).1 =
          [.ErrorDiagPathF (some err) "service_principal_id"
            "Retrieving service principal with object ID %q" [id.ObjectId]]) ∧
      (servicePrincipalPasswordResourceDeleteMsGraph env sps w d).2 =
        (d, { remote := s, held := w.held,
              calls := w.calls ++ [.LockByName env.servicePrincipalResourceName id.ObjectId,
                .GetServicePrincipal id.ObjectId,
                .UnlockByName env.servicePrincipalResourceName id.ObjectId] })) := by
  constructor
  · intro w d id status err s hid hget
    rw [certificateDelete_fetch_failed env apps w d id status err s hid hget]
    exact ⟨fun h => by simp [h], fun h => by simp [h], rfl⟩
  · intro w d id status err s hid hget
    rw [passwordDelete_fetch_failed env sps w d id status err s hid hget]
    exact ⟨fun h => by simp [h], fun h => by simp [h], rfl⟩

/-- Witness of C10: a fetch answering 404 and a fetch answering 500. -/
theorem delete_with_failed_fetch_writes_nothing_witness :
    ((applicationCertificateResourceDeleteMsGraph sampleEnv (failingApplications 404)
        (World.init ()) { id := "app1/certificate/k1", fields := [] }).1 = [] ∧
      (applicationCertificateResourceDeleteMsGraph sampleEnv (failingApplications 500)
        (World.init ()) { id := "app1/certificate/k1", fields := [] }).1 =
        [.ErrorDiagPathF (some (.plain "fetch failed")) "application_object_id"
          "Retrieving application with object ID %q"
          [(NewCredentialID "app1" "certificate" "k1").ObjectId]]) ∧
    ((servicePrincipalPasswordResourceDeleteMsGraph sampleEnv (failingServicePrincipals 404)
        (World.init ()) { id := "sp1/password/k1", fields := [] }).1 = [] ∧
      (servicePrincipalPasswordResourceDeleteMsGraph sampleEnv (failingServicePrincipals 500)
        (World.init ()) { id := "sp1/password/k1", fields := [] }).1 =
        [.ErrorDiagPathF (some (.plain "fetch failed")) "service_principal_id"
          "Retrieving service principal with object ID %q"
          [(NewCredentialID "sp1" "password" "k1").ObjectId]]) :=
  ⟨⟨((delete_with_failed_fetch_writes_nothing sampleEnv (failingApplications 404)
        (failingServicePrincipals 404)).1 (World.init ())
        { id := "app1/certificate/k1", fields := [] }
        (NewCredentialID "app1" "certificate" "k1") 404 (.plain "fetch failed") ()
        rfl rfl).1 rfl,
      ((delete_with_failed_fetch_writes_nothing sampleEnv (failingApplications 500)
        (failingServicePrincipals 500)).1 (World.init ())
        { id := "app1/certificate/k1", fields := [] }
        (NewCredentialID "app1" "certificate" "k1") 500 (.plain "fetch failed") ()
        rfl rfl).2.1 (by decide)⟩,
    ⟨((delete_with_failed_fetch_writes_nothing sampleEnv (failingApplications 404)
        (failingServicePrincipals 404)).2 (World.init ())
        { id := "sp1/password/k1", fields := [] }
        (NewCredentialID "sp1" "password" "k1") 404 (.plain "fetch failed") ()
        rfl rfl).1 rfl,
      ((delete_with_failed_fetch_writes_nothing sampleEnv (failingApplications 500)
        (failingServicePrincipals 500)).2 (World.init ())
        { id := "sp1/password/k1", fields := [] }
        (NewCredentialID "sp1" "password" "k1") 500 (.plain "fetch failed") ()
        rfl rfl).2.1 (by decide)⟩⟩

/-! ## Create: the exits before the read-back -/


theorem certificateCreate_build_failed {σ : Type} (env : Env) (apps : ApplicationsClient σ)
    (w : World σ) (d : ResourceData) (err : Error)
    (hb : KeyCredentialForResource env d = .error err) :
    applicationCertificateResourceCreateMsGraph env apps w d =
      ([.ErrorDiagPathF (some err) (err.asCredentialError.getD "")
          "Generating certificate credentials for application with object ID %q"
          [d.Get "application_object_id"]], d, w) := by
  unfold applicationCertificateResourceCreateMsGraph
  cases h : err.asCredentialError <;> simp [hb, h]

theorem certificateCreate_fetch_failed {σ : Type} (env : Env) (apps : ApplicationsClient σ)
    (w : World σ) (d : ResourceData) (credential : KeyCredential) (status : Nat)
    (err : Error) (s : σ)
    (hb : KeyCredentialForResource env d = .ok credential)
    (hget : apps.Get w.remote (d.Get "application_object_id") = (.fail status err, s)) :
    applicationCertificateResourceCreateMsGraph env apps w d =
      (if status = StatusNotFound then
          [.ErrorDiagPathF none "application_object_id"
            "Application with object ID %q was not found" [d.Get "application_object_id"]]
        else [.ErrorDiagPathF (some err) "application_object_id"
          "Retrieving application with object ID %q" [d.Get "application_object_id"]],
       d,
       { remote := s, held := w.held,
         calls := w.calls ++ [.LockByName env.applicationResourceName
             (d.Get "application_object_id"),
           .GetApplication (d.Get "application_object_id"),
           .UnlockByName env.applicationResourceName (d.Get "application_object_id")] }) := by
  unfold applicationCertificateResourceCreateMsGraph
  by_cases hs : status = StatusNotFound <;>
    simp [hb, hget, hs, LockByName, UnlockByName, World.record, NewCredentialID]

theorem certificateCreate_collision {σ : Type} (env : Env) (apps : ApplicationsClient σ)
    (w : World σ) (d : ResourceData) (credential : KeyCredential) (app : Application)
    (status : Nat) (s : σ) (cred : KeyCredential)
    (hb : KeyCredentialForResource env d = .ok credential)
    (hget : apps.Get w.remote (d.Get "application_object_id") = (.ok app status, s))
    (hmem : cred ∈ app.KeyCredentials.getD [])
    (hk : cred.KeyId = credential.KeyId) :
    applicationCertificateResourceCreateMsGraph env apps w d =
      ([.ImportAsExistsDiag "azuread_application_certificate"
          (env.CredentialIdString (NewCredentialID (d.Get "application_object_id")
            "certificate" (credential.KeyId.getD "")))], d,
        { remote := s, held := w.held,
          calls := w.calls ++ [.LockByName env.applicationResourceName
              (d.Get "application_object_id"),
            .GetApplication (d.Get "application_object_id"),
            .UnlockByName env.applicationResourceName (d.Get "application_object_id")] }) := by
  obtain ⟨k, hk'⟩ := keyCredential_keyId_isSome env d credential hb
  cases hkc : app.KeyCredentials with
  | none => simp [hkc] at hmem
  | some creds =>
    simp only [hkc, Option.getD] at hmem
    have hany : creds.any (fun c => keyIdEq (KeyCredential.KeyId c) k) = true := by
      rw [List.any_eq_true]
      exact ⟨cred, hmem, (keyIdEq_iff _ _).2 (hk.trans hk')⟩
    unfold applicationCertificateResourceCreateMsGraph
    simp [hb, hk', LockByName, UnlockByName, NewCredentialID, hget, hkc, createLoop_eq, hany,
      World.record]

theorem certificateCreate_update_failed {σ : Type} (env : Env) (apps : ApplicationsClient σ)
    (w : World σ) (d : ResourceData) (credential : KeyCredential) (app : Application)
    (status : Nat) (s s' : σ) (err : Error)
    (hb : KeyCredentialForResource env d = .ok credential)
    (hget : apps.Get w.remote (d.Get "application_object_id") = (.ok app status, s))
    (hno : ∀ cred ∈ app.KeyCredentials.getD [], ¬ cred.KeyId = credential.KeyId)
    (hupd : apps.Update s (Application.mk (some (d.Get "application_object_id"))
      (some (app.KeyCredentials.getD [] ++ [credential]))) = (some err, s')) :
    applicationCertificateResourceCreateMsGraph env apps w d =
      ([.ErrorDiagF (some err) "Adding certificate for application with object ID %q"
          [d.Get "application_object_id"]], d,
        { remote := s', held := w.held,
          calls := w.calls ++ [.LockByName env.applicationResourceName
              (d.Get "application_object_id"),
            .GetApplication (d.Get "application_object_id"),
            .UpdateApplication (Application.mk (some (d.Get "application_object_id"))
              (some (app.KeyCredentials.getD [] ++ [credential]))),
            .UnlockByName env.applicationResourceName (d.Get "application_object_id")] }) := by
  obtain ⟨k, hk⟩ := keyCredential_keyId_isSome env d credential hb
  have hany : (app.KeyCredentials.getD []).any (fun c => keyIdEq (KeyCredential.KeyId c) k)
      = false := by
    rw [Bool.eq_false_iff]
    intro h
    rw [List.any_eq_true] at h
    obtain ⟨cred, hc, hck⟩ := h
    exact hno cred hc (((keyIdEq_iff _ _).1 hck).trans hk.symm)
  unfold applicationCertificateResourceCreateMsGraph
  cases hkc : app.KeyCredentials with
  | none =>
    simp only [hkc, Option.getD, List.nil_append] at hupd hany
    simp [hb, hk, LockByName, UnlockByName, NewCredentialID, hget, hkc, World.record, hupd]
  | some creds =>
    simp only [hkc, Option.getD] at hupd hany
    simp [hb, hk, LockByName, UnlockByName, NewCredentialID, hget, hkc, World.record, hupd,
      createLoop_eq, hany]

theorem passwordCreate_build_failed {τ : Type} (env : Env) (sps : ServicePrincipalsClient τ)
    (w : World τ) (d : ResourceData) (err : Error)
    (hb : PasswordCredentialForResource env d = .error err) :
    servicePrincipalPasswordResourceCreateMsGraph env sps w d =
      ([.ErrorDiagPathF (some err) (err.asCredentialError.getD "")
          "Generating password credentials for service principal with object ID %q"
          [d.Get "service_principal_id"]], d, w) := by
  unfold servicePrincipalPasswordResourceCreateMsGraph
  cases h : err.asCredentialError <;> simp [hb, h]

theorem passwordCreate_fetch_failed {τ : Type} (env : Env) (sps : ServicePrincipalsClient τ)
    (w : World τ) (d : ResourceData) (credential : PasswordCredential) (status : Nat)
    (err : Error) (s : τ)
    (hb : PasswordCredentialForResource env d = .ok credential)
    (hget : sps.Get w.remote (d.Get "service_principal_id") = (.fail status err, s)) :
    servicePrincipalPasswordResourceCreateMsGraph env sps w d =
      (if status = StatusNotFound then
          [.ErrorDiagPathF none "service_principal_id"
            "Service principal with object ID %q was not found" [d.Get "service_principal_id"]]
        else [.ErrorDiagPathF (some err) "service_principal_id"
          "Retrieving service principal with object ID %q" [d.Get "service_principal_id"]],
       d,
       { remote := s, held := w.held,
         calls := w.calls ++ [.LockByName env.servicePrincipalResourceName
             (d.Get "service_principal_id"),
           .GetServicePrincipal (d.Get "service_principal_id"),
           .UnlockByName env.servicePrincipalResourceName (d.Get "service_principal_id")] }) := by
  unfold servicePrincipalPasswordResourceCreateMsGraph
  by_cases hs : status = StatusNotFound <;>
    simp [hb, hget, hs, LockByName, UnlockByName, World.record, NewCredentialID]

theorem passwordCreate_collision {τ : Type} (env : Env) (sps : ServicePrincipalsClient τ)
    (w : World τ) (d : ResourceData) (credential : PasswordCredential) (sp : ServicePrincipal)
    (status : Nat) (s : τ) (cred : PasswordCredential)
    (hb : PasswordCredentialForResource env d = .ok credential)
    (hget : sps.Get w.remote (d.Get "service_principal_id") = (.ok sp status, s))
    (hmem : cred ∈ sp.PasswordCredentials.getD [])
    (hk : cred.KeyId = credential.KeyId) :
    servicePrincipalPasswordResourceCreateMsGraph env sps w d =
      ([.ImportAsExistsDiag "azuread_service_principal_password"
          (env.CredentialIdString (NewCredentialID (d.Get "service_principal_id")
            "password" (credential.KeyId.getD "")))], d,
        { remote := s, held := w.held,
          calls := w.calls ++ [.LockByName env.servicePrincipalResourceName
              (d.Get "service_principal_id"),
            .GetServicePrincipal (d.Get "service_principal_id"),
            .UnlockByName env.servicePrincipalResourceName (d.Get "service_principal_id")] }) := by
  obtain ⟨k, hk'⟩ := passwordCredential_keyId_isSome env d credential hb
  cases hkc : sp.PasswordCredentials with
  | none => simp [hkc] at hmem
  | some creds =>
    simp only [hkc, Option.getD] at hmem
    have hany : creds.any (fun c => keyIdEq (PasswordCredential.KeyId c) k) = true := by
      rw [List.any_eq_true]
      exact ⟨cred, hmem, (keyIdEq_iff _ _).2 (hk.trans hk')⟩
    unfold servicePrincipalPasswordResourceCreateMsGraph
    simp [hb, hk', LockByName, UnlockByName, NewCredentialID, hget, hkc, createLoop_eq, hany,
      World.record]

theorem passwordCreate_update_failed {τ : Type} (env : Env) (sps : ServicePrincipalsClient τ)
    (w : World τ) (d : ResourceData) (credential : PasswordCredential) (sp : ServicePrincipal)
    (status : Nat) (s s' : τ) (err : Error)
    (hb : PasswordCredentialForResource env d = .ok credential)
    (hget : sps.Get w.remote (d.Get "service_principal_id") = (.ok sp status, s))
    (hno : ∀ cred ∈ sp.PasswordCredentials.getD [], ¬ cred.KeyId = credential.KeyId)
    (hupd : sps.Update s (ServicePrincipal.mk (some (d.Get "service_principal_id"))
      (some (sp.PasswordCredentials.getD [] ++ [credential]))) = (some err, s')) :
    servicePrincipalPasswordResourceCreateMsGraph env sps w d =
      ([.ErrorDiagF (some err) "Adding password for service principal with object ID %q"
          [d.Get "service_principal_id"]], d,
        { remote := s', held := w.held,
          calls := w.calls ++ [.LockByName env.servicePrincipalResourceName
              (d.Get "service_principal_id"),
            .GetServicePrincipal (d.Get "service_principal_id"),
            .UpdateServicePrincipal (ServicePrincipal.mk (some (d.Get "service_principal_id"))
              (some (sp.PasswordCredentials.getD [] ++ [credential]))),
            .UnlockByName env.servicePrincipalResourceName (d.Get "service_principal_id")] }) := by
  obtain ⟨k, hk⟩ := passwordCredential_keyId_isSome env d credential hb
  have hany : (sp.PasswordCredentials.getD []).any (fun c => keyIdEq (PasswordCredential.KeyId c) k)
      = false := by
    rw [Bool.eq_false_iff]
    intro h
    rw [List.any_eq_true] at h
    obtain ⟨cred, hc, hck⟩ := h
    exact hno cred hc (((keyIdEq_iff _ _).1 hck).trans hk.symm)
  unfold servicePrincipalPasswordResourceCreateMsGraph
  cases hkc : sp.PasswordCredentials with
  | none =>
    simp only [hkc, Option.getD, List.nil_append] at hupd hany
    simp [hb, hk, LockByName, UnlockByName, NewCredentialID, hget, hkc, World.record, hupd]
  | some creds =>
    simp only [hkc, Option.getD] at hupd hany
    simp [hb, hk, LockByName, UnlockByName, NewCredentialID, hget, hkc, World.record, hupd,
      createLoop_eq, hany]

/-- C11: when the credential was built and the parent fetch of a create fails, the create
returns an error diagnostic and calls no `client.Update`. On status 404 the diagnostic is
the "was not found" error on the parent-ID attribute, carrying no underlying error; on any
other status it is the "Retrieving" error on the same attribute wrapping the error of the
fetch. The two diagnostics differ whatever the wrapped error is. -/
theorem create_with_failed_fetch_reports_parent (env : Env) {σ τ : Type}
    (apps : ApplicationsClient σ) (sps : ServicePrincipalsClient τ) :
    (∀ (w : World σ) (d : ResourceData) (credential : KeyCredential) (status : Nat)
        (err : Error) (s : σ),
      KeyCredentialForResource env d = .ok credential →
      apps.Get w.remote (d.Get "application_object_id") = (.fail status err, s) →
      (applicationCertificateResourceCreateMsGraph env apps w d).1 ≠ [] ∧
      ((applicationCertificateResourceCreateMsGraph env apps w d).2.2.callsSince w).filter
        Call.isUpdate = [] ∧
      (status = StatusNotFound →
        (applicationCertificateResourceCreateMsGraph env apps w d).1 =
          [.ErrorDiagPathF none "application_object_id"
            "Application with object ID %q was not found"
            [d.Get "application_object_id"]]) ∧
      (status ≠ StatusNotFound →
        (applicationCertificateResourceCreateMsGraph env apps w d).1 =
          [.ErrorDiagPathF (some err) "application_object_id"
            "Retrieving application with object ID %q" [d.Get "application_object_id"]]) ∧
      ∀ other : Error,
        Diagnostic.ErrorDiagPathF none "application_object_id"
            "Application with object ID %q was not found" [d.Get "application_object_id"] ≠
          Diagnostic.ErrorDiagPathF (some other) "application_object_id"
            "Retrieving application with object ID %q" [d.Get "application_object_id"]) ∧
    (∀ (w : World τ) (d : ResourceData) (credential : PasswordCredential) (status : Nat)
        (err : Error) (s : τ),
      PasswordCredentialForResource env d = .ok credential →
      sps.Get w.remote (d.Get "service_principal_id") = (.fail status err, s) →
      (servicePrincipalPasswordResourceCreateMsGraph env sps w d).1 ≠ [] ∧
      ((servicePrincipalPasswordResourceCreateMsGraph env sps w d).2.2.callsSince w).filter
        Call.isUpdate = [] ∧
      (status = StatusNotFound →
        (servicePrincipalPasswordResourceCreateMsGraph env sps w d).1 =
          [.ErrorDiagPathF none "service_principal_id"
            "Service principal with object ID %q was not found"
            [d.Get "service_principal_id"]]) ∧
      (status ≠ StatusNotFound →
        (servicePrincipalPasswordResourceCreateMsGraph env sps w d).1 =
          [.ErrorDiagPathF (some err) "service_principal_id"
            "Retrieving service principal with object ID %q"
            [d.Get "service_principal_id"]]) ∧
      ∀ other : Error,
        Diagnostic.ErrorDiagPathF none "service_principal_id"
            "Service principal with object ID %q was not found"
            [d.Get "service_principal_id"] ≠
          Diagnostic.ErrorDiagPathF (some other) "service_principal_id"
            "Retrieving service principal with object ID %q"
            [d.Get "service_principal_id"]) := by
  constructor
  · intro w d credential status err s hb hget
    rw [certificateCreate_fetch_failed env apps w d credential status err s hb hget]
    refine ⟨?_, ?_, ?_, ?_, ?_⟩
    · by_cases hs : status = StatusNotFound <;> simp [hs]
    · simp [World.callsSince, Call.isUpdate]
    · intro hs
      simp [hs]
    · intro hs
      simp [hs]
    · intro other h
      cases h
  · intro w d credential status err s hb hget
    rw [passwordCreate_fetch_failed env sps w d credential status err s hb hget]
    refine ⟨?_, ?_, ?_, ?_, ?_⟩
    · by_cases hs : status = StatusNotFound <;> simp [hs]
    · simp [World.callsSince, Call.isUpdate]
    · intro hs
      simp [hs]
    · intro hs
      simp [hs]
    · intro other h
      cases h

/-- Witness of C11: a parent fetch answering 404 and one answering 500. -/
theorem create_with_failed_fetch_reports_parent_witness :
    (applicationCertificateResourceCreateMsGraph sampleEnv (failingApplications 404)
        (World.init ()) certConfig).1 =
      [.ErrorDiagPathF none "application_object_id"
        "Application with object ID %q was not found" ["app1"]] ∧
    (servicePrincipalPasswordResourceCreateMsGraph sampleEnv (failingServicePrincipals 500)
        (World.init ()) passwordConfig).1 =
      [.ErrorDiagPathF (some (.plain "fetch failed")) "service_principal_id"
        "Retrieving service principal with object ID %q" ["sp1"]] :=
  ⟨((create_with_failed_fetch_reports_parent sampleEnv (failingApplications 404)
      (failingServicePrincipals 500)).1 (World.init ()) certConfig certConfigCredential 404
      (.plain "fetch failed") () rfl rfl).2.2.1 rfl,
    ((create_with_failed_fetch_reports_parent sampleEnv (failingApplications 404)
      (failingServicePrincipals 500)).2 (World.init ()) passwordConfig
      passwordConfigCredential 500 (.plain "fetch failed") () rfl rfl).2.2.2.1 (by decide)⟩

/-! ## Lock discipline -/

theorem clientCallsUnder_middle (name id : String) (held : List (String × String))
    (hheld : (name, id) ∈ held) (middle : List Call)
    (h : ∀ c ∈ middle, c.isClientCall = true) :
    clientCallsUnder (name, id) held (middle ++ [.UnlockByName name id]) = true := by
  induction middle with
  | nil => simp [clientCallsUnder]
  | cons c rest ih =>
    have hc := h c (List.mem_cons_self c rest)
    have hrest := ih (fun c' hc' => h c' (List.mem_cons_of_mem c hc'))
    cases c <;> simp_all [clientCallsUnder, Call.isClientCall]

theorem clientCallsUnder_span (name id : String) (middle : List Call)
    (h : ∀ c ∈ middle, c.isClientCall = true) :
    clientCallsUnder (name, id) []
      (.LockByName name id :: (middle ++ [.UnlockByName name id])) = true := by
  simp only [clientCallsUnder]
  exact clientCallsUnder_middle name id [(name, id)] (List.mem_singleton.2 rfl) middle h

theorem certificateRead_client_calls {σ : Type} (env : Env) (apps : ApplicationsClient σ)
    (w : World σ) (d : ResourceData) :
    (applicationCertificateResourceReadMsGraph env apps w d).2.2.held = w.held ∧
    ∃ l, (applicationCertificateResourceReadMsGraph env apps w d).2.2.calls = w.calls ++ l ∧
      ∀ c ∈ l, c.isClientCall = true := by
  unfold applicationCertificateResourceReadMsGraph
  cases hp : env.CertificateID d.Id with
  | error e => exact ⟨rfl, [], by simp, by simp⟩
  | ok id =>
    rcases hg : apps.Get w.remote id.ObjectId with ⟨res, s⟩
    cases res with
    | fail status err =>
      simp only [hg]
      split
      · exact ⟨rfl, [.GetApplication id.ObjectId], rfl, by simp [Call.isClientCall]⟩
      · exact ⟨rfl, [.GetApplication id.ObjectId], rfl, by simp [Call.isClientCall]⟩
    | ok app status =>
      simp only [hg]
      split
      · exact ⟨rfl, [.GetApplication id.ObjectId], rfl, by simp [Call.isClientCall]⟩
      · exact ⟨rfl, [.GetApplication id.ObjectId], rfl, by simp [Call.isClientCall]⟩

/-- The lock span of the certificate create: nothing is called when the credential cannot
be built; otherwise the calls are the lock, client calls only, and the unlock. -/
theorem certificateCreate_lock_span {σ : Type} (env : Env) (apps : ApplicationsClient σ)
    (w : World σ) (d : ResourceData) :
    (applicationCertificateResourceCreateMsGraph env apps w d).2.2.held = w.held ∧
    (∀ err, KeyCredentialForResource env d = .error err →
      (applicationCertificateResourceCreateMsGraph env apps w d).2.2.callsSince w = []) ∧
    (∀ credential, KeyCredentialForResource env d = .ok credential →
      ∃ middle,
        (applicationCertificateResourceCreateMsGraph env apps w d).2.2.callsSince w =
          .LockByName env.applicationResourceName (d.Get "application_object_id") ::
            (middle ++ [.UnlockByName env.applicationResourceName
              (d.Get "application_object_id")]) ∧
        ∀ c ∈ middle, c.isClientCall = true) := by
  cases hb : KeyCredentialForResource env d with
  | error err =>
    rw [certificateCreate_build_failed env apps w d err hb]
    refine ⟨rfl, ?_, ?_⟩
    · intro _ _
      simp [World.callsSince]
    · intro credential h
      cases h
  | ok credential =>
    have key : (applicationCertificateResourceCreateMsGraph env apps w d).2.2.held = w.held ∧
        ∃ middle,
          (applicationCertificateResourceCreateMsGraph env apps w d).2.2.callsSince w =
            .LockByName env.applicationResourceName (d.Get "application_object_id") ::
              (middle ++ [.UnlockByName env.applicationResourceName
                (d.Get "application_object_id")]) ∧
          ∀ c ∈ middle, c.isClientCall = true := by
      rcases hg : apps.Get w.remote (d.Get "application_object_id") with ⟨res, s⟩
      cases res with
      | fail status err =>
        rw [certificateCreate_fetch_failed env apps w d credential status err s hb hg]
        exact ⟨rfl, [.GetApplication (d.Get "application_object_id")],
          by simp [World.callsSince], by simp [Call.isClientCall]⟩
      | ok app status =>
        by_cases hcol : ∃ cred ∈ app.KeyCredentials.getD [], cred.KeyId = credential.KeyId
        · obtain ⟨cred, hmem, hk⟩ := hcol
          rw [certificateCreate_collision env apps w d credential app status s cred hb hg
            hmem hk]
          exact ⟨rfl, [.GetApplication (d.Get "application_object_id")],
            by simp [World.callsSince], by simp [Call.isClientCall]⟩
        · have hno : ∀ cred ∈ app.KeyCredentials.getD [],
              ¬ cred.KeyId = credential.KeyId := fun cred hc hk => hcol ⟨cred, hc, hk⟩
          rcases hu : apps.Update s (Application.mk (some (d.Get "application_object_id"))
            (some (app.KeyCredentials.getD [] ++ [credential]))) with ⟨e, s'⟩
          cases e with
          | some err =>
            rw [certificateCreate_update_failed env apps w d credential app status s s' err
              hb hg hno hu]
            exact ⟨rfl, [.GetApplication (d.Get "application_object_id"),
              .UpdateApplication (Application.mk (some (d.Get "application_object_id"))
                (some (app.KeyCredentials.getD [] ++ [credential])))],
              by simp [World.callsSince], by simp [Call.isClientCall]⟩
          | none =>
            rw [(certificateCreate_of_update_ok env apps w d credential app status s s'
              hb hg hno hu).1]
            obtain ⟨hheld, l, hl, hlc⟩ := certificateRead_client_calls env apps
              { remote := s',
                held := (env.applicationResourceName, d.Get "application_object_id") :: w.held,
                calls := w.calls ++ [.LockByName env.applicationResourceName
                    (d.Get "application_object_id"),
                  .GetApplication (d.Get "application_object_id"),
                  .UpdateApplication (Application.mk (some (d.Get "application_object_id"))
                    (some (app.KeyCredentials.getD [] ++ [credential])))] }
              (d.SetId (env.CredentialIdString (NewCredentialID
                (d.Get "application_object_id") "certificate" (credential.KeyId.getD ""))))
            refine ⟨?_, [.GetApplication (d.Get "application_object_id"),
              .UpdateApplication (Application.mk (some (d.Get "application_object_id"))
                (some (app.KeyCredentials.getD [] ++ [credential])))] ++ l, ?_, ?_⟩
            · simp only [UnlockByName, hheld]
              simp
            · simp only [UnlockByName, World.callsSince, hl]
              simp
            · intro c hc
              rw [List.mem_append] at hc
              rcases hc with hc | hc
              · simp at hc
                rcases hc with hc | hc <;> subst hc <;> rfl
              · exact hlc c hc
    refine ⟨key.1, ?_, ?_⟩
    · intro err h
      cases h
    · intro c h
      cases h
      exact key.2


/-- The lock span of the certificate delete: nothing is called when the tracked identity
cannot be decoded; otherwise the calls are the lock, client calls only, and the unlock. -/
theorem certificateDelete_lock_span {σ : Type} (env : Env) (apps : ApplicationsClient σ)
    (w : World σ) (d : ResourceData) :
    (applicationCertificateResourceDeleteMsGraph env apps w d).2.2.held = w.held ∧
    (∀ err, env.CertificateID d.Id = .error err →
      (applicationCertificateResourceDeleteMsGraph env apps w d).2.2.callsSince w = []) ∧
    (∀ id, env.CertificateID d.Id = .ok id →
      ∃ middle,
        (applicationCertificateResourceDeleteMsGraph env apps w d).2.2.callsSince w =
          .LockByName env.applicationResourceName id.ObjectId ::
            (middle ++ [.UnlockByName env.applicationResourceName id.ObjectId]) ∧
        ∀ c ∈ middle, c.isClientCall = true) := by
  cases hid : env.CertificateID d.Id with
  | error err =>
    unfold applicationCertificateResourceDeleteMsGraph
    refine ⟨by simp [hid], ?_, ?_⟩
    · intro _ _
      simp [hid, World.callsSince]
    · intro id h
      cases h
  | ok id =>
    have key : (applicationCertificateResourceDeleteMsGraph env apps w d).2.2.held = w.held ∧
        ∃ middle,
          (applicationCertificateResourceDeleteMsGraph env apps w d).2.2.callsSince w =
            .LockByName env.applicationResourceName id.ObjectId ::
              (middle ++ [.UnlockByName env.applicationResourceName id.ObjectId]) ∧
          ∀ c ∈ middle, c.isClientCall = true := by
      rcases hg : apps.Get w.remote id.ObjectId with ⟨res, s⟩
      cases res with
      | fail status err =>
        rw [certificateDelete_fetch_failed env apps w d id status err s hid hg]
        exact ⟨rfl, [.GetApplication id.ObjectId],
          by simp [World.callsSince], by simp [Call.isClientCall]⟩
      | ok app status =>
        unfold applicationCertificateResourceDeleteMsGraph
        rcases hu : apps.Update s (Application.mk (some id.ObjectId)
            (some ((app.KeyCredentials.getD []).filter
              (fun c => keyIdNe (KeyCredential.KeyId c) id.KeyId)))) with ⟨e, s'⟩
        refine ⟨?_, [.GetApplication id.ObjectId,
          .UpdateApplication (Application.mk (some id.ObjectId)
            (some ((app.KeyCredentials.getD []).filter
              (fun c => keyIdNe (KeyCredential.KeyId c) id.KeyId))))], ?_,
          by simp [Call.isClientCall]⟩
        · cases hkc : app.KeyCredentials with
          | none =>
            simp only [hkc, Option.getD, List.filter_nil] at hu
            cases e <;>
              simp [hid, hg, hkc, hu, LockByName, UnlockByName, World.record]
          | some creds =>
            simp only [hkc, Option.getD] at hu
            cases e <;>
              simp [hid, hg, hkc, hu, deleteLoop_eq, LockByName, UnlockByName, World.record]
        · cases hkc : app.KeyCredentials with
          | none =>
            simp only [hkc, Option.getD, List.filter_nil] at hu
            cases e <;>
              simp [hid, hg, hkc, hu, World.callsSince, LockByName, UnlockByName,
                World.record]
          | some creds =>
            simp only [hkc, Option.getD] at hu
            cases e <;>
              simp [hid, hg, hkc, hu, deleteLoop_eq, World.callsSince, LockByName,
                UnlockByName, World.record]
    refine ⟨key.1, ?_, ?_⟩
    · intro err h
      cases h
    · intro c h
      cases h
      exact key.2
theorem passwordRead_client_calls {τ : Type} (env : Env) (sps : ServicePrincipalsClient τ)
    (w : World τ) (d : ResourceData) :
    (servicePrincipalPasswordResourceReadMsGraph env sps w d).2.2.held = w.held ∧
    ∃ l, (servicePrincipalPasswordResourceReadMsGraph env sps w d).2.2.calls = w.calls ++ l ∧
      ∀ c ∈ l, c.isClientCall = true := by
  unfold servicePrincipalPasswordResourceReadMsGraph
  cases hp : env.PasswordID d.Id with
  | error e => exact ⟨rfl, [], by simp, by simp⟩
  | ok id =>
    rcases hg : sps.Get w.remote id.ObjectId with ⟨res, s⟩
    cases res with
    | fail status err =>
      simp only [hg]
      split
      · exact ⟨rfl, [.GetServicePrincipal id.ObjectId], rfl, by simp [Call.isClientCall]⟩
      · exact ⟨rfl, [.GetServicePrincipal id.ObjectId], rfl, by simp [Call.isClientCall]⟩
    | ok sp status =>
      simp only [hg]
      split
      · exact ⟨rfl, [.GetServicePrincipal id.ObjectId], rfl, by simp [Call.isClientCall]⟩
      · exact ⟨rfl, [.GetServicePrincipal id.ObjectId], rfl, by simp [Call.isClientCall]⟩

/-- The lock span of the password create: nothing is called when the credential cannot
be built; otherwise the calls are the lock, client calls only, and the unlock. -/
theorem passwordCreate_lock_span {τ : Type} (env : Env) (sps : ServicePrincipalsClient τ)
    (w : World τ) (d : ResourceData) :
    (servicePrincipalPasswordResourceCreateMsGraph env sps w d).2.2.held = w.held ∧
    (∀ err, PasswordCredentialForResource env d = .error err →
      (servicePrincipalPasswordResourceCreateMsGraph env sps w d).2.2.callsSince w = []) ∧
    (∀ credential, PasswordCredentialForResource env d = .ok credential →
      ∃ middle,
        (servicePrincipalPasswordResourceCreateMsGraph env sps w d).2.2.callsSince w =
          .LockByName env.servicePrincipalResourceName (d.Get "service_principal_id") ::
            (middle ++ [.UnlockByName env.servicePrincipalResourceName
              (d.Get "service_principal_id")]) ∧
        ∀ c ∈ middle, c.isClientCall = true) := by
  cases hb : PasswordCredentialForResource env d with
  | error err =>
    rw [passwordCreate_build_failed env sps w d err hb]
    refine ⟨rfl, ?_, ?_⟩
    · intro _ _
      simp [World.callsSince]
    · intro credential h
      cases h
  | ok credential =>
    have key : (servicePrincipalPasswordResourceCreateMsGraph env sps w d).2.2.held = w.held ∧
        ∃ middle,
          (servicePrincipalPasswordResourceCreateMsGraph env sps w d).2.2.callsSince w =
            .LockByName env.servicePrincipalResourceName (d.Get "service_principal_id") ::
              (middle ++ [.UnlockByName env.servicePrincipalResourceName
                (d.Get "service_principal_id")]) ∧
          ∀ c ∈ middle, c.isClientCall = true := by
      rcases hg : sps.Get w.remote (d.Get "service_principal_id") with ⟨res, s⟩
      cases res with
      | fail status err =>
        rw [passwordCreate_fetch_failed env sps w d credential status err s hb hg]
        exact ⟨rfl, [.GetServicePrincipal (d.Get "service_principal_id")],
          by simp [World.callsSince], by simp [Call.isClientCall]⟩
      | ok sp status =>
        by_cases hcol : ∃ cred ∈ sp.PasswordCredentials.getD [], cred.KeyId = credential.KeyId
        · obtain ⟨cred, hmem, hk⟩ := hcol
          rw [passwordCreate_collision env sps w d credential sp status s cred hb hg
            hmem hk]
          exact ⟨rfl, [.GetServicePrincipal (d.Get "service_principal_id")],
            by simp [World.callsSince], by simp [Call.isClientCall]⟩
        · have hno : ∀ cred ∈ sp.PasswordCredentials.getD [],
              ¬ cred.KeyId = credential.KeyId := fun cred hc hk => hcol ⟨cred, hc, hk⟩
          rcases hu : sps.Update s (ServicePrincipal.mk (some (d.Get "service_principal_id"))
            (some (sp.PasswordCredentials.getD [] ++ [credential]))) with ⟨e, s'⟩
          cases e with
          | some err =>
            rw [passwordCreate_update_failed env sps w d credential sp status s s' err
              hb hg hno hu]
            exact ⟨rfl, [.GetServicePrincipal (d.Get "service_principal_id"),
              .UpdateServicePrincipal (ServicePrincipal.mk (some (d.Get "service_principal_id"))
                (some (sp.PasswordCredentials.getD [] ++ [credential])))],
              by simp [World.callsSince], by simp [Call.isClientCall]⟩
          | none =>
            rw [(passwordCreate_of_update_ok env sps w d credential sp status s s'
              hb hg hno hu).1]
            obtain ⟨hheld, l, hl, hlc⟩ := passwordRead_client_calls env sps
              { remote := s',
                held := (env.servicePrincipalResourceName, d.Get "service_principal_id") :: w.held,
                calls := w.calls ++ [.LockByName env.servicePrincipalResourceName
                    (d.Get "service_principal_id"),
                  .GetServicePrincipal (d.Get "service_principal_id"),
                  .UpdateServicePrincipal (ServicePrincipal.mk (some (d.Get "service_principal_id"))
                    (some (sp.PasswordCredentials.getD [] ++ [credential])))] }
              (d.SetId (env.CredentialIdString (NewCredentialID
                (d.Get "service_principal_id") "password" (credential.KeyId.getD ""))))
            refine ⟨?_, [.GetServicePrincipal (d.Get "service_principal_id"),
              .UpdateServicePrincipal (ServicePrincipal.mk (some (d.Get "service_principal_id"))
                (some (sp.PasswordCredentials.getD [] ++ [credential])))] ++ l, ?_, ?_⟩
            · simp only [UnlockByName, hheld]
              simp
            · simp only [UnlockByName, World.callsSince, hl]
              simp
            · intro c hc
              rw [List.mem_append] at hc
              rcases hc with hc | hc
              · simp at hc
                rcases hc with hc | hc <;> subst hc <;> rfl
              · exact hlc c hc
    refine ⟨key.1, ?_, ?_⟩
    · intro err h
      cases h
    · intro c h
      cases h
      exact key.2


/-- The lock span of the password delete: nothing is called when the tracked identity
cannot be decoded; otherwise the calls are the lock, client calls only, and the unlock. -/
theorem passwordDelete_lock_span {τ : Type} (env : Env) (sps : ServicePrincipalsClient τ)
    (w : World τ) (d : ResourceData) :
    (servicePrincipalPasswordResourceDeleteMsGraph env sps w d).2.2.held = w.held ∧
    (∀ err, env.PasswordID d.Id = .error err →
      (servicePrincipalPasswordResourceDeleteMsGraph env sps w d).2.2.callsSince w = []) ∧
    (∀ id, env.PasswordID d.Id = .ok id →
      ∃ middle,
        (servicePrincipalPasswordResourceDeleteMsGraph env sps w d).2.2.callsSince w =
          .LockByName env.servicePrincipalResourceName id.ObjectId ::
            (middle ++ [.UnlockByName env.servicePrincipalResourceName id.ObjectId]) ∧
        ∀ c ∈ middle, c.isClientCall = true) := by
  cases hid : env.PasswordID d.Id with
  | error err =>
    unfold servicePrincipalPasswordResourceDeleteMsGraph
    refine ⟨by simp [hid], ?_, ?_⟩
    · intro _ _
      simp [hid, World.callsSince]
    · intro id h
      cases h
  | ok id =>
    have key : (servicePrincipalPasswordResourceDeleteMsGraph env sps w d).2.2.held = w.held ∧
        ∃ middle,
          (servicePrincipalPasswordResourceDeleteMsGraph env sps w d).2.2.callsSince w =
            .LockByName env.servicePrincipalResourceName id.ObjectId ::
              (middle ++ [.UnlockByName env.servicePrincipalResourceName id.ObjectId]) ∧
          ∀ c ∈ middle, c.isClientCall = true := by
      rcases hg : sps.Get w.remote id.ObjectId with ⟨res, s⟩
      cases res with
      | fail status err =>
        rw [passwordDelete_fetch_failed env sps w d id status err s hid hg]
        exact ⟨rfl, [.GetServicePrincipal id.ObjectId],
          by simp [World.callsSince], by simp [Call.isClientCall]⟩
      | ok sp status =>
        unfold servicePrincipalPasswordResourceDeleteMsGraph
        rcases hu : sps.Update s (ServicePrincipal.mk (some id.ObjectId)
            (some ((sp.PasswordCredentials.getD []).filter
              (fun c => keyIdNe (PasswordCredential.KeyId c) id.KeyId)))) with ⟨e, s'⟩
        refine ⟨?_, [.GetServicePrincipal id.ObjectId,
          .UpdateServicePrincipal (ServicePrincipal.mk (some id.ObjectId)
            (some ((sp.PasswordCredentials.getD []).filter
              (fun c => keyIdNe (PasswordCredential.KeyId c) id.KeyId))))], ?_,
          by simp [Call.isClientCall]⟩
        · cases hkc : sp.PasswordCredentials with
          | none =>
            simp only [hkc, Option.getD, List.filter_nil] at hu
            cases e <;>
              simp [hid, hg, hkc, hu, LockByName, UnlockByName, World.record]
          | some creds =>
            simp only [hkc, Option.getD] at hu
            cases e <;>
              simp [hid, hg, hkc, hu, deleteLoop_eq, LockByName, UnlockByName, World.record]
        · cases hkc : sp.PasswordCredentials with
          | none =>
            simp only [hkc, Option.getD, List.filter_nil] at hu
            cases e <;>
              simp [hid, hg, hkc, hu, World.callsSince, LockByName, UnlockByName,
                World.record]
          | some creds =>
            simp only [hkc, Option.getD] at hu
            cases e <;>
              simp [hid, hg, hkc, hu, deleteLoop_eq, World.callsSince, LockByName,
                UnlockByName, World.record]
    refine ⟨key.1, ?_, ?_⟩
    · intro err h
      cases h
    · intro c h
      cases h
      exact key.2

/-- C12: with the named locks as explicit state, each MsGraph certificate/password create
and delete returns with the set of held locks it started from. An exit before the
acquisition (credential build failure in create, identity decode failure in delete) makes
no call at all, so never acquires the lock. Every other execution calls `LockByName` on
(resource name, parent object ID) first and `UnlockByName` on the same key last, with only
client calls (parent fetches and write-backs) in between, so that replaying the calls from
no held lock finds the lock held at every client call. -/
theorem lock_held_around_client_calls_and_released (env : Env) {σ τ : Type}
    (apps : ApplicationsClient σ) (sps : ServicePrincipalsClient τ)
    (w : World σ) (v : World τ) (d : ResourceData) :
    ((applicationCertificateResourceCreateMsGraph env apps w d).2.2.held = w.held ∧
      (∀ err, KeyCredentialForResource env d = .error err →
        (applicationCertificateResourceCreateMsGraph env apps w d).2.2.callsSince w = []) ∧
      (∀ credential, KeyCredentialForResource env d = .ok credential →
        (∃ middle,
          (applicationCertificateResourceCreateMsGraph env apps w d).2.2.callsSince w =
            .LockByName env.applicationResourceName (d.Get "application_object_id") ::
              (middle ++ [.UnlockByName env.applicationResourceName
                (d.Get "application_object_id")]) ∧
          ∀ c ∈ middle, c.isClientCall = true) ∧
        clientCallsUnder (env.applicationResourceName, d.Get "application_object_id") []
          ((applicationCertificateResourceCreateMsGraph env apps w d).2.2.callsSince w) =
            true)) ∧
    ((applicationCertificateResourceDeleteMsGraph env apps w d).2.2.held = w.held ∧
      (∀ err, env.CertificateID d.Id = .error err →
        (applicationCertificateResourceDeleteMsGraph env apps w d).2.2.callsSince w = []) ∧
      (∀ id, env.CertificateID d.Id = .ok id →
        (∃ middle,
          (applicationCertificateResourceDeleteMsGraph env apps w d).2.2.callsSince w =
            .LockByName env.applicationResourceName id.ObjectId ::
              (middle ++ [.UnlockByName env.applicationResourceName id.ObjectId]) ∧
          ∀ c ∈ middle, c.isClientCall = true) ∧
        clientCallsUnder (env.applicationResourceName, id.ObjectId) []
          ((applicationCertificateResourceDeleteMsGraph env apps w d).2.2.callsSince w) =
            true)) ∧
    ((servicePrincipalPasswordResourceCreateMsGraph env sps v d).2.2.held = v.held ∧
      (∀ err, PasswordCredentialForResource env d = .error err →
        (servicePrincipalPasswordResourceCreateMsGraph env sps v d).2.2.callsSince v = []) ∧
      (∀ credential, PasswordCredentialForResource env d = .ok credential →
        (∃ middle,
          (servicePrincipalPasswordResourceCreateMsGraph env sps v d).2.2.callsSince v =
            .LockByName env.servicePrincipalResourceName (d.Get "service_principal_id") ::
              (middle ++ [.UnlockByName env.servicePrincipalResourceName
                (d.Get "service_principal_id")]) ∧
          ∀ c ∈ middle, c.isClientCall = true) ∧
        clientCallsUnder (env.servicePrincipalResourceName, d.Get "service_principal_id") []
          ((servicePrincipalPasswordResourceCreateMsGraph env sps v d).2.2.callsSince v) =
            true)) ∧
    ((servicePrincipalPasswordResourceDeleteMsGraph env sps v d).2.2.held = v.held ∧
      (∀ err, env.PasswordID d.Id = .error err →
        (servicePrincipalPasswordResourceDeleteMsGraph env sps v d).2.2.callsSince v = []) ∧
      (∀ id, env.PasswordID d.Id = .ok id →
        (∃ middle,
          (servicePrincipalPasswordResourceDeleteMsGraph env sps v d).2.2.callsSince v =
            .LockByName env.servicePrincipalResourceName id.ObjectId ::
              (middle ++ [.UnlockByName env.servicePrincipalResourceName id.ObjectId]) ∧
          ∀ c ∈ middle, c.isClientCall = true) ∧
        clientCallsUnder (env.servicePrincipalResourceName, id.ObjectId) []
          ((servicePrincipalPasswordResourceDeleteMsGraph env sps v d).2.2.callsSince v) =
            true)) := by
  refine ⟨?_, ?_, ?_, ?_⟩
  · obtain ⟨h1, h2, h3⟩ := certificateCreate_lock_span env apps w d
    refine ⟨h1, h2, fun credential hb => ⟨h3 credential hb, ?_⟩⟩
    obtain ⟨middle, hm, hc⟩ := h3 credential hb
    rw [hm]
    exact clientCallsUnder_span _ _ middle hc
  · obtain ⟨h1, h2, h3⟩ := certificateDelete_lock_span env apps w d
    refine ⟨h1, h2, fun id hid => ⟨h3 id hid, ?_⟩⟩
    obtain ⟨middle, hm, hc⟩ := h3 id hid
    rw [hm]
    exact clientCallsUnder_span _ _ middle hc
  · obtain ⟨h1, h2, h3⟩ := passwordCreate_lock_span env sps v d
    refine ⟨h1, h2, fun credential hb => ⟨h3 credential hb, ?_⟩⟩
    obtain ⟨middle, hm, hc⟩ := h3 credential hb
    rw [hm]
    exact clientCallsUnder_span _ _ middle hc
  · obtain ⟨h1, h2, h3⟩ := passwordDelete_lock_span env sps v d
    refine ⟨h1, h2, fun id hid => ⟨h3 id hid, ?_⟩⟩
    obtain ⟨middle, hm, hc⟩ := h3 id hid
    rw [hm]
    exact clientCallsUnder_span _ _ middle hc

/-- Witness of C12: a successful certificate create on `app1`, a password delete whose
parent fetch answers 404, and a certificate create whose credential cannot be built. -/
theorem lock_held_around_client_calls_and_released_witness :
    (applicationCertificateResourceCreateMsGraph sampleEnv sampleApplications
        (World.init [app1 none]) certConfig).2.2.held = [] ∧
    clientCallsUnder ("azuread_application", "app1") []
      ((applicationCertificateResourceCreateMsGraph sampleEnv sampleApplications
        (World.init [app1 none]) certConfig).2.2.callsSince (World.init [app1 none])) = true ∧
    clientCallsUnder ("azuread_service_principal", "sp1") []
      ((servicePrincipalPasswordResourceDeleteMsGraph sampleEnv (failingServicePrincipals 404)
        (World.init ()) { id := "sp1/password/k1", fields := [] }).2.2.callsSince
          (World.init ())) = true ∧
    (applicationCertificateResourceCreateMsGraph sampleEnv sampleApplications
        (World.init [app1 none]) emptyConfig).2.2.callsSince (World.init [app1 none]) = [] :=
  ⟨(lock_held_around_client_calls_and_released sampleEnv sampleApplications
      (failingServicePrincipals 404) (World.init [app1 none]) (World.init ()) certConfig).1.1,
    ((lock_held_around_client_calls_and_released sampleEnv sampleApplications
      (failingServicePrincipals 404) (World.init [app1 none]) (World.init ())
      certConfig).1.2.2 certConfigCredential rfl).2,
    ((lock_held_around_client_calls_and_released sampleEnv sampleApplications
      (failingServicePrincipals 404) (World.init [app1 none]) (World.init ())
      { id := "sp1/password/k1", fields := [] }).2.2.2.2.2
      (NewCredentialID "sp1" "password" "k1") rfl).2,
    (lock_held_around_client_calls_and_released sampleEnv sampleApplications
      (failingServicePrincipals 404) (World.init [app1 none]) (World.init ())
      emptyConfig).1.2.1
      (.credentialError "One of `end_date` or `end_date_relative` must be specified"
        "end_date") rfl⟩

/-! ## The post-creation poll -/

/-- C13: the refresh step of the poll in `resourceServicePrincipalCreate` answers a failed
fetch whose response is not-found with the state "404" and no error, a failed fetch with
any other response with the state "Error" and a non-nil error, and a successful fetch with
the state "Found" and no error. "404" is the only pending state and "Found" the only
target state, and the refresh result is a pending state without error exactly when the
fetch failed with a not-found response. -/
theorem refresh_classifies_fetch_result {σ : Type} (env : Env)
    (ResponseWasNotFound : autorest.Response → Bool)
    (client : GraphServicePrincipalsClient σ) (objectID : String) (s : σ) :
    (∀ resp err2 s', client.Get s objectID = ((resp, some err2), s') →
      ResponseWasNotFound resp.Response = true →
      resourceServicePrincipalCreate.Refresh env ResponseWasNotFound client objectID s =
        ((resp, "404", none), s')) ∧
    (∀ resp err2 s', client.Get s objectID = ((resp, some err2), s') →
      ResponseWasNotFound resp.Response = false →
      ∃ err, resourceServicePrincipalCreate.Refresh env ResponseWasNotFound client objectID s =
        ((resp, "Error", some err), s')) ∧
    (∀ resp s', client.Get s objectID = ((resp, none), s') →
      resourceServicePrincipalCreate.Refresh env ResponseWasNotFound client objectID s =
        ((resp, "Found", none), s')) ∧
    resourceServicePrincipalCreate.Pending = ["404"] ∧
    resourceServicePrincipalCreate.Target = ["Found"] ∧
    (((resourceServicePrincipalCreate.Refresh env ResponseWasNotFound client objectID
          s).1.2.1 ∈ resourceServicePrincipalCreate.Pending ∧
        (resourceServicePrincipalCreate.Refresh env ResponseWasNotFound client objectID
          s).1.2.2 = none) ↔
      ∃ resp err2 s', client.Get s objectID = ((resp, some err2), s') ∧
        ResponseWasNotFound resp.Response = true) := by
  refine ⟨?_, ?_, ?_, rfl, rfl, ?_⟩
  · intro resp err2 s' hg hnf
    simp [resourceServicePrincipalCreate.Refresh, hg, hnf]
  · intro resp err2 s' hg hnf
    exact ⟨.plain (env.Sprintf "Error retrieving Service Principal ID %q: %+v"
      [objectID, err2]), by simp [resourceServicePrincipalCreate.Refresh, hg, hnf]⟩
  · intro resp s' hg
    simp [resourceServicePrincipalCreate.Refresh, hg]
  · rcases hg : client.Get s objectID with ⟨⟨resp, e⟩, s'⟩
    cases e with
    | none =>
      simp [resourceServicePrincipalCreate.Refresh, hg,
        resourceServicePrincipalCreate.Pending]
    | some err2 =>
      cases hnf : ResponseWasNotFound resp.Response <;>
        simp [resourceServicePrincipalCreate.Refresh, hg, hnf,
          resourceServicePrincipalCreate.Pending]

/-- Witness of C13: a fetch failing with 404, one failing with 500, one succeeding. -/
theorem refresh_classifies_fetch_result_witness :
    resourceServicePrincipalCreate.Refresh sampleEnv sampleResponseWasNotFound
        scriptedServicePrincipals "sp1" [(graphSp1 404, some "not found")] =
      ((graphSp1 404, "404", none), []) ∧
    (∃ err, resourceServicePrincipalCreate.Refresh sampleEnv sampleResponseWasNotFound
        scriptedServicePrincipals "sp1" [(graphSp1 500, some "server error")] =
      ((graphSp1 500, "Error", some err), [])) ∧
    resourceServicePrincipalCreate.Refresh sampleEnv sampleResponseWasNotFound
        scriptedServicePrincipals "sp1" [(graphSp1 200, none)] =
      ((graphSp1 200, "Found", none), []) :=
  ⟨(refresh_classifies_fetch_result sampleEnv sampleResponseWasNotFound
      scriptedServicePrincipals "sp1" [(graphSp1 404, some "not found")]).1
      (graphSp1 404) "not found" [] rfl rfl,
    (refresh_classifies_fetch_result sampleEnv sampleResponseWasNotFound
      scriptedServicePrincipals "sp1" [(graphSp1 500, some "server error")]).2.1
      (graphSp1 500) "server error" [] rfl rfl,
    (refresh_classifies_fetch_result sampleEnv sampleResponseWasNotFound
      scriptedServicePrincipals "sp1" [(graphSp1 200, none)]).2.2.1
      (graphSp1 200) [] rfl⟩

/-! ## The app-role dispatchers -/

/-- C14: for create/update, read and delete and every input, the dispatcher returns what
the MsGraph implementation returns when `EnableMsGraphBeta` is true and what the AadGraph
implementation returns when it is false, which is the routing of the specification. With
implementations that log their invocation, each dispatcher call adds exactly one entry to
the log: the name of the implementation selected by the flag. -/
theorem dispatcher_forwards_by_flag {ω : Type} (impl : AppRoleImplementations ω)
    (d : ResourceData) (client : Client) (w : ω) (log : List String) :
    (applicationAppRoleResourceCreateUpdate impl d client w =
        routeByFlag client.EnableMsGraphBeta
          (impl.applicationAppRoleResourceCreateUpdateMsGraph d client w)
          (impl.applicationAppRoleResourceCreateUpdateAadGraph d client w) ∧
      applicationAppRoleResourceRead impl d client w =
        routeByFlag client.EnableMsGraphBeta
          (impl.applicationAppRoleResourceReadMsGraph d client w)
          (impl.applicationAppRoleResourceReadAadGraph d client w) ∧
      applicationAppRoleResourceDelete impl d client w =
        routeByFlag client.EnableMsGraphBeta
          (impl.applicationAppRoleResourceDeleteMsGraph d client w)
          (impl.applicationAppRoleResourceDeleteAadGraph d client w)) ∧
    (client.EnableMsGraphBeta = true →
      applicationAppRoleResourceCreateUpdate impl d client w =
        impl.applicationAppRoleResourceCreateUpdateMsGraph d client w ∧
      applicationAppRoleResourceRead impl d client w =
        impl.applicationAppRoleResourceReadMsGraph d client w ∧
      applicationAppRoleResourceDelete impl d client w =
        impl.applicationAppRoleResourceDeleteMsGraph d client w ∧
      (applicationAppRoleResourceCreateUpdate impl.logged d client (w, log)).2.2.2 =
        log ++ ["CreateUpdateMsGraph"] ∧
      (applicationAppRoleResourceRead impl.logged d client (w, log)).2.2.2 =
        log ++ ["ReadMsGraph"] ∧
      (applicationAppRoleResourceDelete impl.logged d client (w, log)).2.2.2 =
        log ++ ["DeleteMsGraph"]) ∧
    (client.EnableMsGraphBeta = false →
      applicationAppRoleResourceCreateUpdate impl d client w =
        impl.applicationAppRoleResourceCreateUpdateAadGraph d client w ∧
      applicationAppRoleResourceRead impl d client w =
        impl.applicationAppRoleResourceReadAadGraph d client w ∧
      applicationAppRoleResourceDelete impl d client w =
        impl.applicationAppRoleResourceDeleteAadGraph d client w ∧
      (applicationAppRoleResourceCreateUpdate impl.logged d client (w, log)).2.2.2 =
        log ++ ["CreateUpdateAadGraph"] ∧
      (applicationAppRoleResourceRead impl.logged d client (w, log)).2.2.2 =
        log ++ ["ReadAadGraph"] ∧
      (applicationAppRoleResourceDelete impl.logged d client (w, log)).2.2.2 =
        log ++ ["DeleteAadGraph"]) := by
  refine ⟨?_, ?_, ?_⟩
  · cases h : client.EnableMsGraphBeta <;>
      simp [applicationAppRoleResourceCreateUpdate, applicationAppRoleResourceRead,
        applicationAppRoleResourceDelete, routeByFlag, h]
  · intro h
    simp [applicationAppRoleResourceCreateUpdate, applicationAppRoleResourceRead,
      applicationAppRoleResourceDelete, AppRoleImplementations.logged, logged, h]
  · intro h
    simp [applicationAppRoleResourceCreateUpdate, applicationAppRoleResourceRead,
      applicationAppRoleResourceDelete, AppRoleImplementations.logged, logged, h]

/-- Witness of C14: the sample implementations with the flag set and with it unset. -/
theorem dispatcher_forwards_by_flag_witness :
    applicationAppRoleResourceCreateUpdate sampleAppRoleImplementations emptyConfig
        { EnableMsGraphBeta := true } () =
      ([.ErrorDiagF none "CreateUpdateMsGraph" []], emptyConfig, ()) ∧
    (applicationAppRoleResourceDelete sampleAppRoleImplementations.logged emptyConfig
        { EnableMsGraphBeta := false } ((), [])).2.2.2 = ["DeleteAadGraph"] :=
  ⟨((dispatcher_forwards_by_flag sampleAppRoleImplementations emptyConfig
      { EnableMsGraphBeta := true } () []).2.1 rfl).1,
    ((dispatcher_forwards_by_flag sampleAppRoleImplementations emptyConfig
      { EnableMsGraphBeta := false } () []).2.2 rfl).2.2.2.2.2⟩

/-! ## Create and the tracked identity -/

/-- The certificate create changes the resource ID only on the path where the credential
was built, the parent fetched, no key collision found and `client.Update` succeeded. -/
theorem certificateCreate_id_changed {σ : Type} (env : Env) (apps : ApplicationsClient σ)
    (w : World σ) (d : ResourceData)
    (h : (applicationCertificateResourceCreateMsGraph env apps w d).2.1.Id ≠ d.Id) :
    ∃ credential app status s s',
      KeyCredentialForResource env d = .ok credential ∧
      apps.Get w.remote (d.Get "application_object_id") = (.ok app status, s) ∧
      (∀ cred ∈ app.KeyCredentials.getD [], ¬ cred.KeyId = credential.KeyId) ∧
      apps.Update s (Application.mk (some (d.Get "application_object_id"))
        (some (app.KeyCredentials.getD [] ++ [credential]))) = (none, s') := by
  cases hb : KeyCredentialForResource env d with
  | error err =>
    rw [certificateCreate_build_failed env apps w d err hb] at h
    exact absurd rfl h
  | ok credential =>
    rcases hg : apps.Get w.remote (d.Get "application_object_id") with ⟨res, s⟩
    cases res with
    | fail status err =>
      rw [certificateCreate_fetch_failed env apps w d credential status err s hb hg] at h
      exact absurd rfl h
    | ok app status =>
      by_cases hcol : ∃ cred ∈ app.KeyCredentials.getD [], cred.KeyId = credential.KeyId
      · obtain ⟨cred, hmem, hk⟩ := hcol
        rw [certificateCreate_collision env apps w d credential app status s cred hb hg
          hmem hk] at h
        exact absurd rfl h
      · have hno : ∀ cred ∈ app.KeyCredentials.getD [],
            ¬ cred.KeyId = credential.KeyId := fun cred hc hk => hcol ⟨cred, hc, hk⟩
        rcases hu : apps.Update s (Application.mk (some (d.Get "application_object_id"))
          (some (app.KeyCredentials.getD [] ++ [credential]))) with ⟨e, s'⟩
        cases e with
        | some err =>
          rw [certificateCreate_update_failed env apps w d credential app status s s' err
            hb hg hno hu] at h
          exact absurd rfl h
        | none => exact ⟨credential, app, status, s, s', rfl, rfl, hno, hu⟩

/-- The password create changes the resource ID only on the path where the credential
was built, the parent fetched, no key collision found and `client.Update` succeeded. -/
theorem passwordCreate_id_changed {τ : Type} (env : Env) (sps : ServicePrincipalsClient τ)
    (w : World τ) (d : ResourceData)
    (h : (servicePrincipalPasswordResourceCreateMsGraph env sps w d).2.1.Id ≠ d.Id) :
    ∃ credential sp status s s',
      PasswordCredentialForResource env d = .ok credential ∧
      sps.Get w.remote (d.Get "service_principal_id") = (.ok sp status, s) ∧
      (∀ cred ∈ sp.PasswordCredentials.getD [], ¬ cred.KeyId = credential.KeyId) ∧
      sps.Update s (ServicePrincipal.mk (some (d.Get "service_principal_id"))
        (some (sp.PasswordCredentials.getD [] ++ [credential]))) = (none, s') := by
  cases hb : PasswordCredentialForResource env d with
  | error err =>
    rw [passwordCreate_build_failed env sps w d err hb] at h
    exact absurd rfl h
  | ok credential =>
    rcases hg : sps.Get w.remote (d.Get "service_principal_id") with ⟨res, s⟩
    cases res with
    | fail status err =>
      rw [passwordCreate_fetch_failed env sps w d credential status err s hb hg] at h
      exact absurd rfl h
    | ok sp status =>
      by_cases hcol : ∃ cred ∈ sp.PasswordCredentials.getD [], cred.KeyId = credential.KeyId
      · obtain ⟨cred, hmem, hk⟩ := hcol
        rw [passwordCreate_collision env sps w d credential sp status s cred hb hg
          hmem hk] at h
        exact absurd rfl h
      · have hno : ∀ cred ∈ sp.PasswordCredentials.getD [],
            ¬ cred.KeyId = credential.KeyId := fun cred hc hk => hcol ⟨cred, hc, hk⟩
        rcases hu : sps.Update s (ServicePrincipal.mk (some (d.Get "service_principal_id"))
          (some (sp.PasswordCredentials.getD [] ++ [credential]))) with ⟨e, s'⟩
        cases e with
        | some err =>
          rw [passwordCreate_update_failed env sps w d credential sp status s s' err
            hb hg hno hu] at h
          exact absurd rfl h
        | none => exact ⟨credential, sp, status, s, s', rfl, rfl, hno, hu⟩

/-- C16: a MsGraph certificate or password create that fails at credential building, at
the parent fetch, at the key-collision check or at the write-back returns the resource
data, its ID included, exactly as it received them. Whenever the returned ID differs from
the one received, the credential was built, the parent fetched, no collision found and
`client.Update` returned no error. -/
theorem create_leaves_id_unless_update_succeeded (env : Env) {σ τ : Type}
    (apps : ApplicationsClient σ) (sps : ServicePrincipalsClient τ)
    (w : World σ) (v : World τ) (d : ResourceData) :
    ((∀ err, KeyCredentialForResource env d = .error err →
        (applicationCertificateResourceCreateMsGraph env apps w d).2.1 = d) ∧
      (∀ credential status err s, KeyCredentialForResource env d = .ok credential →
        apps.Get w.remote (d.Get "application_object_id") = (.fail status err, s) →
        (applicationCertificateResourceCreateMsGraph env apps w d).2.1 = d) ∧
      (∀ credential app status s, KeyCredentialForResource env d = .ok credential →
        apps.Get w.remote (d.Get "application_object_id") = (.ok app status, s) →
        (∃ cred ∈ app.KeyCredentials.getD [], cred.KeyId = credential.KeyId) →
        (applicationCertificateResourceCreateMsGraph env apps w d).2.1 = d) ∧
      (∀ credential app status s s' err, KeyCredentialForResource env d = .ok credential →
        apps.Get w.remote (d.Get "application_object_id") = (.ok app status, s) →
        (∀ cred ∈ app.KeyCredentials.getD [], ¬ cred.KeyId = credential.KeyId) →
        apps.Update s (Application.mk (some (d.Get "application_object_id"))
          (some (app.KeyCredentials.getD [] ++ [credential]))) = (some err, s') →
        (applicationCertificateResourceCreateMsGraph env apps w d).2.1 = d) ∧
      ((applicationCertificateResourceCreateMsGraph env apps w d).2.1.Id ≠ d.Id →
        ∃ credential app status s s',
          KeyCredentialForResource env d = .ok credential ∧
          apps.Get w.remote (d.Get "application_object_id") = (.ok app status, s) ∧
          (∀ cred ∈ app.KeyCredentials.getD [], ¬ cred.KeyId = credential.KeyId) ∧
          apps.Update s (Application.mk (some (d.Get "application_object_id"))
            (some (app.KeyCredentials.getD [] ++ [credential]))) = (none, s'))) ∧
    ((∀ err, PasswordCredentialForResource env d = .error err →
        (servicePrincipalPasswordResourceCreateMsGraph env sps v d).2.1 = d) ∧
      (∀ credential status err s, PasswordCredentialForResource env d = .ok credential →
        sps.Get v.remote (d.Get "service_principal_id") = (.fail status err, s) →
        (servicePrincipalPasswordResourceCreateMsGraph env sps v d).2.1 = d) ∧
      (∀ credential sp status s, PasswordCredentialForResource env d = .ok credential →
        sps.Get v.remote (d.Get "service_principal_id") = (.ok sp status, s) →
        (∃ cred ∈ sp.PasswordCredentials.getD [], cred.KeyId = credential.KeyId) →
        (servicePrincipalPasswordResourceCreateMsGraph env sps v d).2.1 = d) ∧
      (∀ credential sp status s s' err, PasswordCredentialForResource env d = .ok credential →
        sps.Get v.remote (d.Get "service_principal_id") = (.ok sp status, s) →
        (∀ cred ∈ sp.PasswordCredentials.getD [], ¬ cred.KeyId = credential.KeyId) →
        sps.Update s (ServicePrincipal.mk (some (d.Get "service_principal_id"))
          (some (sp.PasswordCredentials.getD [] ++ [credential]))) = (some err, s') →
        (servicePrincipalPasswordResourceCreateMsGraph env sps v d).2.1 = d) ∧
      ((servicePrincipalPasswordResourceCreateMsGraph env sps v d).2.1.Id ≠ d.Id →
        ∃ credential sp status s s',
          PasswordCredentialForResource env d = .ok credential ∧
          sps.Get v.remote (d.Get "service_principal_id") = (.ok sp status, s) ∧
          (∀ cred ∈ sp.PasswordCredentials.getD [], ¬ cred.KeyId = credential.KeyId) ∧
          sps.Update s (ServicePrincipal.mk (some (d.Get "service_principal_id"))
            (some (sp.PasswordCredentials.getD [] ++ [credential]))) = (none, s'))) := by
  refine ⟨⟨?_, ?_, ?_, ?_, ?_⟩, ⟨?_, ?_, ?_, ?_, ?_⟩⟩
  · intro err hb
    rw [certificateCreate_build_failed env apps w d err hb]
  · intro credential status err s hb hg
    rw [certificateCreate_fetch_failed env apps w d credential status err s hb hg]
  · intro credential app status s hb hg hcol
    obtain ⟨cred, hmem, hk⟩ := hcol
    rw [certificateCreate_collision env apps w d credential app status s cred hb hg hmem hk]
  · intro credential app status s s' err hb hg hno hu
    rw [certificateCreate_update_failed env apps w d credential app status s s' err hb hg
      hno hu]
  · exact certificateCreate_id_changed env apps w d
  · intro err hb
    rw [passwordCreate_build_failed env sps v d err hb]
  · intro credential status err s hb hg
    rw [passwordCreate_fetch_failed env sps v d credential status err s hb hg]
  · intro credential sp status s hb hg hcol
    obtain ⟨cred, hmem, hk⟩ := hcol
    rw [passwordCreate_collision env sps v d credential sp status s cred hb hg hmem hk]
  · intro credential sp status s s' err hb hg hno hu
    rw [passwordCreate_update_failed env sps v d credential sp status s s' err hb hg
      hno hu]
  · exact passwordCreate_id_changed env sps v d

/-- Witness of C16: a certificate create whose parent fetch answers 500 and a password
create whose credential cannot be built. -/
theorem create_leaves_id_unless_update_succeeded_witness :
    (applicationCertificateResourceCreateMsGraph sampleEnv (failingApplications 500)
        (World.init ()) certConfig).2.1 = certConfig ∧
    (servicePrincipalPasswordResourceCreateMsGraph sampleEnv (failingServicePrincipals 500)
        (World.init ()) emptyConfig).2.1 = emptyConfig :=
  ⟨(create_leaves_id_unless_update_succeeded sampleEnv (failingApplications 500)
      (failingServicePrincipals 500) (World.init ()) (World.init ()) certConfig).1.2.1
      certConfigCredential 500 (.plain "fetch failed") () rfl rfl,
    (create_leaves_id_unless_update_succeeded sampleEnv (failingApplications 500)
      (failingServicePrincipals 500) (World.init ()) (World.init ()) emptyConfig).2.1
      (.credentialError "One of `end_date` or `end_date_relative` must be specified"
        "end_date") rfl⟩

/-! ## The collection written back by delete -/

theorem deleteLoop_sublist {α : Type} (keyOf : α → Option String) (keyId : String)
    (creds : List α) : (deleteLoop keyOf keyId creds []).Sublist creds := by
  rw [deleteLoop_eq, List.nil_append]
  exact List.filter_sublist creds

theorem deleteLoop_no_key {α : Type} (keyOf : α → Option String) (keyId : String)
    (creds : List α) : ∀ c ∈ deleteLoop keyOf keyId creds [], keyOf c ≠ some keyId := by
  intro c hc hk
  rw [deleteLoop_eq, List.nil_append, List.mem_filter] at hc
  obtain ⟨v, hv, hne⟩ := (keyIdNe_iff _ _).1 hc.2
  rw [hk] at hv
  exact hne (Option.some.inj hv).symm

theorem deleteLoop_idem {α : Type} (keyOf : α → Option String) (keyId : String)
    (creds : List α) :
    deleteLoop keyOf keyId (deleteLoop keyOf keyId creds []) [] =
      deleteLoop keyOf keyId creds [] := by
  simp only [deleteLoop_eq, List.nil_append, List.filter_filter, Bool.and_self]

/-- The calls of the certificate delete once the parent was fetched. -/
theorem certificateDelete_fetched {σ : Type} (env : Env) (apps : ApplicationsClient σ)
    (w : World σ) (d : ResourceData) (id : CredentialId) (app : Application)
    (status : Nat) (s : σ)
    (hid : env.CertificateID d.Id = .ok id)
    (hget : apps.Get w.remote id.ObjectId = (.ok app status, s)) :
    (applicationCertificateResourceDeleteMsGraph env apps w d).2.2.callsSince w =
      [.LockByName env.applicationResourceName id.ObjectId, .GetApplication id.ObjectId,
        .UpdateApplication (Application.mk (some id.ObjectId)
          (some (deleteLoop KeyCredential.KeyId id.KeyId (app.KeyCredentials.getD []) []))),
        .UnlockByName env.applicationResourceName id.ObjectId] := by
  unfold applicationCertificateResourceDeleteMsGraph
  cases hkc : app.KeyCredentials with
  | none =>
    rcases hu : apps.Update s (Application.mk (some id.ObjectId) (some [])) with ⟨e, s'⟩
    cases e <;>
      simp [hid, hget, hkc, hu, deleteLoop, World.callsSince, LockByName, UnlockByName,
        World.record]
  | some creds =>
    rcases hu : apps.Update s (Application.mk (some id.ObjectId)
      (some (deleteLoop KeyCredential.KeyId id.KeyId creds []))) with ⟨e, s'⟩
    cases e <;>
      simp [hid, hget, hkc, hu, World.callsSince, LockByName, UnlockByName, World.record]

/-- The calls of the password delete once the parent was fetched. -/
theorem passwordDelete_fetched {τ : Type} (env : Env) (sps : ServicePrincipalsClient τ)
    (w : World τ) (d : ResourceData) (id : CredentialId) (sp : ServicePrincipal)
    (status : Nat) (s : τ)
    (hid : env.PasswordID d.Id = .ok id)
    (hget : sps.Get w.remote id.ObjectId = (.ok sp status, s)) :
    (servicePrincipalPasswordResourceDeleteMsGraph env sps w d).2.2.callsSince w =
      [.LockByName env.servicePrincipalResourceName id.ObjectId, .GetServicePrincipal id.ObjectId,
        .UpdateServicePrincipal (ServicePrincipal.mk (some id.ObjectId)
          (some (deleteLoop PasswordCredential.KeyId id.KeyId (sp.PasswordCredentials.getD []) []))),
        .UnlockByName env.servicePrincipalResourceName id.ObjectId] := by
  unfold servicePrincipalPasswordResourceDeleteMsGraph
  cases hkc : sp.PasswordCredentials with
  | none =>
    rcases hu : sps.Update s (ServicePrincipal.mk (some id.ObjectId) (some [])) with ⟨e, s'⟩
    cases e <;>
      simp [hid, hget, hkc, hu, deleteLoop, World.callsSince, LockByName, UnlockByName,
        World.record]
  | some creds =>
    rcases hu : sps.Update s (ServicePrincipal.mk (some id.ObjectId)
      (some (deleteLoop PasswordCredential.KeyId id.KeyId creds []))) with ⟨e, s'⟩
    cases e <;>
      simp [hid, hget, hkc, hu, World.callsSince, LockByName, UnlockByName, World.record]

/-- C17: once the parent was fetched, the MsGraph certificate/password delete calls
`client.Update` exactly once, with the collection its loop computes from the fetched one.
That collection is an order-preserving sub-sequence of the fetched collection, holds no
element with the deleted key identifier, and is a fixed point: a delete of the same key
identifier that fetches this collection writes back exactly this collection. -/
theorem delete_write_back_is_fixed_point (env : Env) {σ τ : Type}
    (apps : ApplicationsClient σ) (sps : ServicePrincipalsClient τ) :
    (∀ (w : World σ) (d : ResourceData) (id : CredentialId) (app : Application)
        (status : Nat) (s : σ),
      env.CertificateID d.Id = .ok id →
      apps.Get w.remote id.ObjectId = (.ok app status, s) →
      ((applicationCertificateResourceDeleteMsGraph env apps w d).2.2.callsSince w).filter
          Call.isUpdate =
        [.UpdateApplication (Application.mk (some id.ObjectId)
          (some (deleteLoop KeyCredential.KeyId id.KeyId (app.KeyCredentials.getD []) [])))] ∧
      (deleteLoop KeyCredential.KeyId id.KeyId (app.KeyCredentials.getD []) []).Sublist
        (app.KeyCredentials.getD []) ∧
      (∀ c ∈ deleteLoop KeyCredential.KeyId id.KeyId (app.KeyCredentials.getD []) [],
        c.KeyId ≠ some id.KeyId) ∧
      ∀ (w2 : World σ) (d2 : ResourceData) (id2 : CredentialId) (app2 : Application)
          (status2 : Nat) (s2 : σ),
        env.CertificateID d2.Id = .ok id2 → id2.KeyId = id.KeyId →
        apps.Get w2.remote id2.ObjectId = (.ok app2 status2, s2) →
        app2.KeyCredentials =
          some (deleteLoop KeyCredential.KeyId id.KeyId (app.KeyCredentials.getD []) []) →
        ((applicationCertificateResourceDeleteMsGraph env apps w2 d2).2.2.callsSince
            w2).filter Call.isUpdate =
          [.UpdateApplication (Application.mk (some id2.ObjectId)
            (some (deleteLoop KeyCredential.KeyId id.KeyId
              (app.KeyCredentials.getD []) [])))]) ∧
    (∀ (w : World τ) (d : ResourceData) (id : CredentialId) (sp : ServicePrincipal)
        (status : Nat) (s : τ),
      env.PasswordID d.Id = .ok id →
      sps.Get w.remote id.ObjectId = (.ok sp status, s) →
      ((servicePrincipalPasswordResourceDeleteMsGraph env sps w d).2.2.callsSince w).filter
          Call.isUpdate =
        [.UpdateServicePrincipal (ServicePrincipal.mk (some id.ObjectId)
          (some (deleteLoop PasswordCredential.KeyId id.KeyId
            (sp.PasswordCredentials.getD []) [])))] ∧
      (deleteLoop PasswordCredential.KeyId id.KeyId (sp.PasswordCredentials.getD []) []).Sublist
        (sp.PasswordCredentials.getD []) ∧
      (∀ c ∈ deleteLoop PasswordCredential.KeyId id.KeyId (sp.PasswordCredentials.getD []) [],
        c.KeyId ≠ some id.KeyId) ∧
      ∀ (w2 : World τ) (d2 : ResourceData) (id2 : CredentialId) (sp2 : ServicePrincipal)
          (status2 : Nat) (s2 : τ),
        env.PasswordID d2.Id = .ok id2 → id2.KeyId = id.KeyId →
        sps.Get w2.remote id2.ObjectId = (.ok sp2 status2, s2) →
        sp2.PasswordCredentials =
          some (deleteLoop PasswordCredential.KeyId id.KeyId
            (sp.PasswordCredentials.getD []) []) →
        ((servicePrincipalPasswordResourceDeleteMsGraph env sps w2 d2).2.2.callsSince
            w2).filter Call.isUpdate =
          [.UpdateServicePrincipal (ServicePrincipal.mk (some id2.ObjectId)
            (some (deleteLoop PasswordCredential.KeyId id.KeyId
              (sp.PasswordCredentials.getD []) [])))]) := by
  constructor
  · intro w d id app status s hid hget
    refine ⟨?_, deleteLoop_sublist _ _ _, deleteLoop_no_key _ _ _, ?_⟩
    · rw [certificateDelete_fetched env apps w d id app status s hid hget]
      simp [Call.isUpdate]
    · intro w2 d2 id2 app2 status2 s2 hid2 hk hget2 hcreds
      rw [certificateDelete_fetched env apps w2 d2 id2 app2 status2 s2 hid2 hget2, hcreds,
        hk]
      simp [Call.isUpdate, deleteLoop_idem]
  · intro w d id sp status s hid hget
    refine ⟨?_, deleteLoop_sublist _ _ _, deleteLoop_no_key _ _ _, ?_⟩
    · rw [passwordDelete_fetched env sps w d id sp status s hid hget]
      simp [Call.isUpdate]
    · intro w2 d2 id2 sp2 status2 s2 hid2 hk hget2 hcreds
      rw [passwordDelete_fetched env sps w2 d2 id2 sp2 status2 s2 hid2 hget2, hcreds,
        hk]
      simp [Call.isUpdate, deleteLoop_idem]

/-- Witness of C17: deleting `k1` from the collection `k1, nil, k2, k1` of `app1` writes
back `k2`; deleting `k1` again from the collection `k2` writes back `k2`. -/
theorem delete_write_back_is_fixed_point_witness :
    ((applicationCertificateResourceDeleteMsGraph sampleEnv sampleApplications
        (World.init [app1 (some [keyCred (some "k1"), keyCred none, keyCred (some "k2"),
          keyCred (some "k1")])])
        { id := "app1/certificate/k1", fields := [] }).2.2.callsSince
        (World.init [app1 (some [keyCred (some "k1"), keyCred none, keyCred (some "k2"),
          keyCred (some "k1")])])).filter Call.isUpdate =
      [.UpdateApplication (app1 (some [keyCred (some "k2")]))] ∧
    ((applicationCertificateResourceDeleteMsGraph sampleEnv sampleApplications
        (World.init [app1 (some [keyCred (some "k2")])])
        { id := "app1/certificate/k1", fields := [] }).2.2.callsSince
        (World.init [app1 (some [keyCred (some "k2")])])).filter Call.isUpdate =
      [.UpdateApplication (app1 (some [keyCred (some "k2")]))] :=
  ⟨((delete_write_back_is_fixed_point sampleEnv sampleApplications
      sampleServicePrincipals).1
      (World.init [app1 (some [keyCred (some "k1"), keyCred none, keyCred (some "k2"),
        keyCred (some "k1")])])
      { id := "app1/certificate/k1", fields := [] } (NewCredentialID "app1" "certificate" "k1")
      (app1 (some [keyCred (some "k1"), keyCred none, keyCred (some "k2"),
        keyCred (some "k1")])) 200
      [app1 (some [keyCred (some "k1"), keyCred none, keyCred (some "k2"),
        keyCred (some "k1")])] rfl rfl).1,
    ((delete_write_back_is_fixed_point sampleEnv sampleApplications
      sampleServicePrincipals).1
      (World.init [app1 (some [keyCred (some "k1"), keyCred none, keyCred (some "k2"),
        keyCred (some "k1")])])
      { id := "app1/certificate/k1", fields := [] } (NewCredentialID "app1" "certificate" "k1")
      (app1 (some [keyCred (some "k1"), keyCred none, keyCred (some "k2"),
        keyCred (some "k1")])) 200
      [app1 (some [keyCred (some "k1"), keyCred none, keyCred (some "k2"),
        keyCred (some "k1")])] rfl rfl).2.2.2
      (World.init [app1 (some [keyCred (some "k2")])])
      { id := "app1/certificate/k1", fields := [] } (NewCredentialID "app1" "certificate" "k1")
      (app1 (some [keyCred (some "k2")])) 200 [app1 (some [keyCred (some "k2")])]
      rfl rfl rfl rfl⟩

/-! ## The lookup stage of `applicationDataRead` -/

theorem applicationDataRead_field_cases (d : ResourceData) :
    (applicationDataRead.field d = none ↔
      d.Get "application_id" = "" ∧ d.Get "name" = "") ∧
    (∀ fieldName fieldValue, applicationDataRead.field d = some (fieldName, fieldValue) ↔
      (fieldName = "appId" ∧ fieldValue = d.Get "application_id" ∧
        d.Get "application_id" ≠ "") ∨
      (fieldName = "displayName" ∧ fieldValue = d.Get "name" ∧
        d.Get "application_id" = "" ∧ d.Get "name" ≠ "")) := by
  unfold applicationDataRead.field
  generalize d.Get "application_id" = a
  generalize d.Get "name" = n
  by_cases h1 : a = "" <;> by_cases h2 : n = "" <;> simp [h1, h2] <;>
    intro fieldName fieldValue <;> constructor <;> intro h <;>
    exact ⟨h.1.symm, h.2.symm⟩

/-- The lookup stage by listing succeeds exactly on a listing without error that holds one
application whose looked-up field is non-nil and equal to the requested value. -/
theorem applicationDataRead_lookup_listing (env : Env)
    (ResponseWasNotFound : autorest.Response → Bool) (client : GraphApplicationsClient)
    (d : ResourceData) (fieldName fieldValue : String)
    (listing : graphrbac.ApplicationListResult) (e : Option String)
    (hoid : d.Get "object_id" = "")
    (hfield : applicationDataRead.field d = some (fieldName, fieldValue))
    (hlist : client.ListComplete (env.Sprintf "%s eq '%s'" [fieldName, fieldValue]) =
      (listing, e)) (app : graphrbac.Application) :
    applicationDataRead.lookup env ResponseWasNotFound client d = .ok app ↔
      e = none ∧ listing.Value = some [app] ∧
        ((fieldName = "appId" ∧ app.AppID = some fieldValue) ∨
          (fieldName = "displayName" ∧ app.DisplayName = some fieldValue)) := by
  have hname : fieldName = "appId" ∨ fieldName = "displayName" := by
    rcases ((applicationDataRead_field_cases d).2 fieldName fieldValue).1 hfield with
      ⟨h, _⟩ | ⟨h, _⟩
    · exact Or.inl h
    · exact Or.inr h
  unfold applicationDataRead.lookup
  simp only [hoid, bne_self_eq_false, Bool.false_eq_true, if_false, hfield, hlist]
  cases e with
  | some err => simp
  | none =>
    rcases listing with ⟨value⟩
    cases value with
    | none => simp
    | some values =>
      match values with
      | [] => simp
      | _ :: _ :: _ => simp
      | [a] =>
        rcases hname with hn | hn
        · subst hn
          cases ha : a.AppID with
          | none =>
            simp only [ha]
            simp
            intro h
            subst h
            simp [ha]
          | some appID =>
            by_cases hv : appID = fieldValue
            · simp [ha, hv]
              intro h
              subst h
              simp [ha, hv]
            · simp [ha, hv]
              intro h
              subst h
              simp [ha, hv]
        · subst hn
          cases ha : a.DisplayName with
          | none =>
            simp [ha]
            intro h
            subst h
            simp [ha]
          | some displayName =>
            by_cases hv : displayName = fieldValue
            · simp [ha, hv]
              intro h
              subst h
              simp [ha, hv]
            · simp [ha, hv]
              intro h
              subst h
              simp [ha, hv]

theorem applicationDataRead_of_lookup_error (env : Env)
    (ResponseWasNotFound : autorest.Response → Bool)
    (populate : ResourceData → graphrbac.Application → Option Error × ResourceData)
    (client : GraphApplicationsClient) (d : ResourceData) (err : Error)
    (h : applicationDataRead.lookup env ResponseWasNotFound client d = .error err) :
    applicationDataRead env ResponseWasNotFound populate client d = (some err, d) := by
  unfold applicationDataRead
  simp [h]

theorem applicationDataRead_of_lookup_not_ok (env : Env)
    (ResponseWasNotFound : autorest.Response → Bool)
    (populate : ResourceData → graphrbac.Application → Option Error × ResourceData)
    (client : GraphApplicationsClient) (d : ResourceData)
    (h : ∀ app, applicationDataRead.lookup env ResponseWasNotFound client d ≠ .ok app) :
    ∃ err, applicationDataRead env ResponseWasNotFound populate client d = (some err, d) := by
  cases hl : applicationDataRead.lookup env ResponseWasNotFound client d with
  | ok app => exact absurd hl (h app)
  | error err =>
    exact ⟨err, applicationDataRead_of_lookup_error env ResponseWasNotFound populate client
      d err hl⟩

theorem applicationDataRead_lookup_no_field (env : Env)
    (ResponseWasNotFound : autorest.Response → Bool) (client : GraphApplicationsClient)
    (d : ResourceData) (hoid : d.Get "object_id" = "")
    (hfield : applicationDataRead.field d = none) :
    applicationDataRead.lookup env ResponseWasNotFound client d =
      .error (.plain (env.Sprintf "one of `object_id` or `name` must be supplied" [])) := by
  unfold applicationDataRead.lookup
  simp [hoid, hfield]

/-- C18: with an empty `object_id`, `applicationDataRead` gets past its lookup stage with
an application exactly when the listing for the lookup field came without error and holds
that application alone, whose `AppID` (lookup by `application_id`) or `DisplayName`
(lookup by `name`, chosen only when `application_id` is empty) is non-nil and equal to the
requested value. Every failure of the stage is returned as the error of the read with the
resource data, its ID included, as received; in particular when `application_id` and
`name` are both empty, when the listing is nil, empty or holds several applications, and
when the looked-up field of the single application is nil or differs. -/
theorem lookup_passes_only_on_single_matching_application (env : Env)
    (ResponseWasNotFound : autorest.Response → Bool)
    (populate : ResourceData → graphrbac.Application → Option Error × ResourceData)
    (client : GraphApplicationsClient) (d : ResourceData)
    (hoid : d.Get "object_id" = "") :
    (∀ app, applicationDataRead.lookup env ResponseWasNotFound client d = .ok app ↔
      ∃ fieldName fieldValue listing,
        applicationDataRead.field d = some (fieldName, fieldValue) ∧
        client.ListComplete (env.Sprintf "%s eq '%s'" [fieldName, fieldValue]) =
          (listing, none) ∧
        listing.Value = some [app] ∧
        ((fieldName = "appId" ∧ app.AppID = some fieldValue) ∨
          (fieldName = "displayName" ∧ app.DisplayName = some fieldValue))) ∧
    (∀ fieldName fieldValue, applicationDataRead.field d = some (fieldName, fieldValue) ↔
      (fieldName = "appId" ∧ fieldValue = d.Get "application_id" ∧
        d.Get "application_id" ≠ "") ∨
      (fieldName = "displayName" ∧ fieldValue = d.Get "name" ∧
        d.Get "application_id" = "" ∧ d.Get "name" ≠ "")) ∧
    (∀ err, applicationDataRead.lookup env ResponseWasNotFound client d = .error err →
      applicationDataRead env ResponseWasNotFound populate client d = (some err, d)) ∧
    (d.Get "application_id" = "" → d.Get "name" = "" →
      ∃ err, applicationDataRead env ResponseWasNotFound populate client d =
        (some err, d)) ∧
    (∀ fieldName fieldValue listing e,
      applicationDataRead.field d = some (fieldName, fieldValue) →
      client.ListComplete (env.Sprintf "%s eq '%s'" [fieldName, fieldValue]) =
        (listing, e) →
      (listing.Value = none ∨ listing.Value = some [] ∨
        ∃ a b rest, listing.Value = some (a :: b :: rest)) →
      ∃ err, applicationDataRead env ResponseWasNotFound populate client d =
        (some err, d)) ∧
    (∀ fieldName fieldValue listing e app,
      applicationDataRead.field d = some (fieldName, fieldValue) →
      client.ListComplete (env.Sprintf "%s eq '%s'" [fieldName, fieldValue]) =
        (listing, e) →
      listing.Value = some [app] →
      ((fieldName = "appId" ∧ app.AppID ≠ some fieldValue) ∨
        (fieldName = "displayName" ∧ app.DisplayName ≠ some fieldValue)) →
      ∃ err, applicationDataRead env ResponseWasNotFound populate client d =
        (some err, d)) := by
  refine ⟨?_, (applicationDataRead_field_cases d).2, ?_, ?_, ?_, ?_⟩
  · intro app
    constructor
    · intro h
      cases hf : applicationDataRead.field d with
      | none =>
        rw [applicationDataRead_lookup_no_field env ResponseWasNotFound client d hoid hf] at h
        cases h
      | some fv =>
        rcases fv with ⟨fieldName, fieldValue⟩
        rcases hl : client.ListComplete (env.Sprintf "%s eq '%s'" [fieldName, fieldValue])
          with ⟨listing, e⟩
        obtain ⟨he, hv, hm⟩ := (applicationDataRead_lookup_listing env ResponseWasNotFound
          client d fieldName fieldValue listing e hoid hf hl app).1 h
        subst he
        exact ⟨fieldName, fieldValue, listing, rfl, hl, hv, hm⟩
    · rintro ⟨fieldName, fieldValue, listing, hf, hl, hv, hm⟩
      exact (applicationDataRead_lookup_listing env ResponseWasNotFound client d fieldName
        fieldValue listing none hoid hf hl app).2 ⟨rfl, hv, hm⟩
  · exact applicationDataRead_of_lookup_error env ResponseWasNotFound populate client d
  · intro h1 h2
    have hf := (applicationDataRead_field_cases d).1.2 ⟨h1, h2⟩
    exact ⟨_, applicationDataRead_of_lookup_error env ResponseWasNotFound populate client d _
      (applicationDataRead_lookup_no_field env ResponseWasNotFound client d hoid hf)⟩
  · intro fieldName fieldValue listing e hf hl hbad
    apply applicationDataRead_of_lookup_not_ok
    intro app h
    obtain ⟨_, hv, _⟩ := (applicationDataRead_lookup_listing env ResponseWasNotFound
      client d fieldName fieldValue listing e hoid hf hl app).1 h
    rcases hbad with hb | hb | ⟨a, b, rest, hb⟩ <;> rw [hb] at hv <;> cases hv
  · intro fieldName fieldValue listing e app hf hl hv hbad
    apply applicationDataRead_of_lookup_not_ok
    intro app' h
    obtain ⟨_, hv', hm⟩ := (applicationDataRead_lookup_listing env ResponseWasNotFound
      client d fieldName fieldValue listing e hoid hf hl app').1 h
    rw [hv] at hv'
    cases hv'
    rcases hbad with ⟨hn, hne⟩ | ⟨hn, hne⟩
    · rcases hm with ⟨_, hm⟩ | ⟨hn', _⟩
      · exact hne hm
      · rw [hn] at hn'
        exact absurd hn' (by decide)
    · rcases hm with ⟨hn', _⟩ | ⟨_, hm⟩
      · rw [hn] at hn'
        exact absurd hn' (by decide)
      · exact hne hm

/-- Witness of C18: a lookup by name answered with an empty listing, and a lookup by
application ID answered with one application carrying another application ID. -/
theorem lookup_passes_only_on_single_matching_application_witness :
    (∃ err, applicationDataRead sampleEnv sampleResponseWasNotFound samplePopulate
        (listingClient (some [])) { id := "", fields := [("name", "n1")] } =
      (some err, { id := "", fields := [("name", "n1")] })) ∧
    (∃ err, applicationDataRead sampleEnv sampleResponseWasNotFound samplePopulate
        (listingClient (some [graphApp (some "o1") (some "a2") (some "n1")]))
        { id := "", fields := [("application_id", "a1")] } =
      (some err, { id := "", fields := [("application_id", "a1")] })) :=
  ⟨(lookup_passes_only_on_single_matching_application sampleEnv sampleResponseWasNotFound
      samplePopulate (listingClient (some [])) { id := "", fields := [("name", "n1")] }
      rfl).2.2.2.2.1 "displayName" "n1" { Value := some [] } none rfl rfl
      (Or.inr (Or.inl rfl)),
    (lookup_passes_only_on_single_matching_application sampleEnv sampleResponseWasNotFound
      samplePopulate (listingClient (some [graphApp (some "o1") (some "a2") (some "n1")]))
      { id := "", fields := [("application_id", "a1")] } rfl).2.2.2.2.2 "appId" "a1"
      { Value := some [graphApp (some "o1") (some "a2") (some "n1")] } none
      (graphApp (some "o1") (some "a2") (some "n1")) rfl rfl rfl
      (Or.inl ⟨rfl, by decide⟩)⟩

end AzureAD
